import Mathlib

/-!
# rotate-token-demo: renewal-credential store and rotation engine

A shallow embedding of `internal/storage/token_storage.go`,
`internal/storage/user_storage.go` and `internal/service/auth_service.go`.

* Go maps are finite association lists without duplicate keys (`AList`).
* `time.Time` and `time.Duration` are integers (nanoseconds).
* Every reading of the clock, of `crypto/rand`, of `uuid.New()` and of the JWT
  signer is an explicit input of the operation that performs it.
* A Go `(T, error)` result is `Result T`; a mutated store is returned next to it.
-/

set_option autoImplicit false

/-! ## Errors -/

/-- The `error` values that flow through the storage and service packages. -/
inductive Err where
  /-- The error `storage.ErrTokenNotFound`. -/
  | storage_ErrTokenNotFound
  /-- The error `storage.ErrTokenExpired`. -/
  | storage_ErrTokenExpired
  /-- The error `storage.ErrTokenRevoked`. -/
  | storage_ErrTokenRevoked
  /-- The error `storage.ErrUserNotFound`. -/
  | storage_ErrUserNotFound
  /-- The error `storage.ErrUserExists`. -/
  | storage_ErrUserExists
  /-- The error `service.ErrInvalidCredentials`. -/
  | service_ErrInvalidCredentials
  /-- The error `service.ErrTokenInvalid`. -/
  | service_ErrTokenInvalid
  /-- The error `service.ErrTokenExpired`. -/
  | service_ErrTokenExpired
  /-- The error `service.ErrTokenRevoked`. -/
  | service_ErrTokenRevoked
  /-- The error `service.ErrUserExists`. -/
  | service_ErrUserExists
  /-- An error returned by `token.SignedString`. -/
  | jwt_SignedString
  /-- An error returned by `rand.Read`. -/
  | rand_Read
  deriving DecidableEq, Repr

/-- Result of a Go function returning `(T, error)`. -/
inductive Result (α : Type) where
  | ok (v : α)
  | error (e : Err)
  deriving DecidableEq, Repr

/-! ## models -/

namespace models

/-- The struct `models.User`. -/
structure User where
  ID : String
  Username : String
  Email : String
  Password : String
  CreateAt : Int
  LastLogin : Int
  deriving DecidableEq, Repr

/-- The struct `models.RefreshToken`. -/
structure RefreshToken where
  ID : String
  UserID : String
  Token : String
  ExpiresAt : Int
  CreatedAt : Int
  IsRevoked : Bool
  TokenFamily : String
  deriving DecidableEq, Repr

/-- The struct `models.TokenPair`. -/
structure TokenPair where
  AccessToken : String
  RefreshToken : String
  ExpiresAt : Int
  TokenType : String
  deriving DecidableEq, Repr

/-- The struct `models.RefreshRequest`. -/
structure RefreshRequest where
  RefreshToken : String
  deriving DecidableEq, Repr

end models

/-! ## config -/

namespace config

/-- The fields of `config.Config` the service reads. -/
structure Config where
  JWTSecret : String
  AccessTokenExpiry : Int
  RefreshTokenExpiry : Int
  EnableTokenRotation : Bool
  deriving DecidableEq, Repr

/-- The configuration built by `config.New` (with the default secret). -/
def New : Config where
  JWTSecret := "your-super-secret-jwt-key-change-this-in-production"
  AccessTokenExpiry := 2 * 60 * 1000000000
  RefreshTokenExpiry := 30 * 60 * 1000000000
  EnableTokenRotation := true

end config

/-! ## storage -/

namespace storage

open models

/-- The table `map[string]*models.RefreshToken` of `InMemoryTokenStorage`. -/
abbrev InMemoryTokenStorage := AList (fun _ : String => RefreshToken)

/-- The table `map[string]*models.User` of `InMemoryUserStorage`. -/
abbrev InMemoryUserStorage := AList (fun _ : String => User)

/-- The statement `token.IsRevoked = true` on one entry. -/
def markRevoked (token : RefreshToken) : RefreshToken :=
  { token with IsRevoked := true }

/-- Apply an in-place update to every entry of the table (a `range` loop that
writes through the stored pointers). -/
def forEachToken (f : RefreshToken → RefreshToken) (s : InMemoryTokenStorage) :
    InMemoryTokenStorage :=
  ⟨s.entries.map (fun e => ⟨e.1, f e.2⟩), by
    have h := s.nodupKeys
    rw [List.NodupKeys] at h ⊢
    have hk : (s.entries.map (fun e : (_ : String) × RefreshToken =>
        (⟨e.1, f e.2⟩ : (_ : String) × RefreshToken))).keys = s.entries.keys := by
      simp [List.keys, Function.comp_def]
    rw [hk]; exact h⟩

/-- Delete every entry rejected by `keep` (a `range` loop with `delete`). -/
def retainTokens (keep : RefreshToken → Bool) (s : InMemoryTokenStorage) :
    InMemoryTokenStorage :=
  ⟨s.entries.filter (fun e => keep e.2),
    s.nodupKeys.sublist (List.filter_sublist _)⟩

/-- The method `InMemoryTokenStorage.StoreRefreshToken`: `s.tokens[token.Token] = token`. -/
def StoreRefreshToken (s : InMemoryTokenStorage) (token : RefreshToken) :
    InMemoryTokenStorage × Result Unit :=
  (s.insert token.Token token, .ok ())

/-- The method `InMemoryTokenStorage.GetRefreshToken`, with `now` the value of `time.Now()`. -/
def GetRefreshToken (now : Int) (s : InMemoryTokenStorage) (tokenString : String) :
    Result RefreshToken :=
  match s.lookup tokenString with
  | none => .error .storage_ErrTokenNotFound
  | some token =>
    if token.IsRevoked then .error .storage_ErrTokenRevoked
    else if now > token.ExpiresAt then .error .storage_ErrTokenExpired
    else .ok token

/-- The method `InMemoryTokenStorage.RevokeRefreshToken`. -/
def RevokeRefreshToken (s : InMemoryTokenStorage) (tokenString : String) :
    InMemoryTokenStorage × Result Unit :=
  match s.lookup tokenString with
  | none => (s, .error .storage_ErrTokenNotFound)
  | some token => (s.replace tokenString (markRevoked token), .ok ())

/-- The method `InMemoryTokenStorage.RevokeAllUserTokens`. -/
def RevokeAllUserTokens (s : InMemoryTokenStorage) (userID : String) :
    InMemoryTokenStorage × Result Unit :=
  (forEachToken (fun token => if token.UserID = userID then markRevoked token else token) s,
    .ok ())

/-- The method `InMemoryTokenStorage.RevokeTokenFamily`. -/
def RevokeTokenFamily (s : InMemoryTokenStorage) (tokenFamily : String) :
    InMemoryTokenStorage × Result Unit :=
  (forEachToken
      (fun token => if token.TokenFamily = tokenFamily then markRevoked token else token) s,
    .ok ())

/-- The method `InMemoryTokenStorage.CleanupExpiredTokens`, with `now` the value of `time.Now()`. -/
def CleanupExpiredTokens (now : Int) (s : InMemoryTokenStorage) :
    InMemoryTokenStorage × Result Unit :=
  (retainTokens (fun token => !decide (now > token.ExpiresAt)) s, .ok ())

/-- The method `InMemoryTokenStorage.GetUserTokens`. -/
def GetUserTokens (s : InMemoryTokenStorage) (userID : String) : Result (List RefreshToken) :=
  .ok ((s.entries.filter (fun e => e.2.UserID = userID)).map (fun e => e.2))

/-- The method `InMemoryTokenStorage.GetAllTokens`. -/
def GetAllTokens (s : InMemoryTokenStorage) : Result (List RefreshToken) :=
  .ok (s.entries.map (fun e => e.2))

/-- The method `InMemoryUserStorage.GetUserByID`. -/
def GetUserByID (s : InMemoryUserStorage) (id : String) : Result User :=
  match s.lookup id with
  | none => .error .storage_ErrUserNotFound
  | some user => .ok user

end storage

/-! ## service -/

namespace service

open models storage config

/-- What one call of `generateTokenPairWithFamily` reads from its environment:
the clock, the JWT signer, `crypto/rand` and `uuid.New()`. -/
structure MintEnv where
  /-- The reading `time.Now()` in `generateAccessToken`, the base of the access expiry. -/
  accessNow : Int
  /-- The outcome of `token.SignedString(secret)`. -/
  signed : Result String
  /-- The outcome of `rand.Read` followed by `base64.URLEncoding.EncodeToString`. -/
  randToken : Result String
  /-- The value `uuid.New().String()` for the `ID` of the renewal credential. -/
  tokenID : String
  /-- The reading `time.Now()` read for `ExpiresAt`. -/
  expiresNow : Int
  /-- The reading `time.Now()` read for `CreatedAt`. -/
  createdNow : Int
  deriving DecidableEq, Repr

/-- What one call of `RefreshToken` reads from its environment. -/
structure RefreshEnv where
  /-- The reading `time.Now()` inside `GetRefreshToken`. -/
  now : Int
  /-- The readings of the minting step. -/
  mint : MintEnv
  deriving DecidableEq, Repr

/-- The method `Time.Unix()`: whole seconds of an instant given in nanoseconds. -/
def Unix (t : Int) : Int := t / 1000000000

/-- The method `AuthService.generateAccessToken`. -/
def generateAccessToken (config : Config) (env : MintEnv) (_user : User) :
    Result (String × Int) :=
  let expiresAt := env.accessNow + config.AccessTokenExpiry
  match env.signed with
  | .error err => .error err
  | .ok tokenString => .ok (tokenString, expiresAt)

/-- The method `AuthService.generateRefreshToken`. -/
def generateRefreshToken (config : Config) (env : MintEnv) (tokenStorage : InMemoryTokenStorage)
    (userID tokenFamily : String) : InMemoryTokenStorage × Result String :=
  match env.randToken with
  | .error err => (tokenStorage, .error err)
  | .ok tokenString =>
    let refreshToken : models.RefreshToken :=
      { ID := env.tokenID
        UserID := userID
        Token := tokenString
        ExpiresAt := env.expiresNow + config.RefreshTokenExpiry
        CreatedAt := env.createdNow
        IsRevoked := false
        TokenFamily := tokenFamily }
    match StoreRefreshToken tokenStorage refreshToken with
    | (ts, .error err) => (ts, .error err)
    | (ts, .ok _) => (ts, .ok tokenString)

/-- The method `AuthService.generateTokenPairWithFamily`. -/
def generateTokenPairWithFamily (config : Config) (env : MintEnv)
    (tokenStorage : InMemoryTokenStorage) (user : User) (tokenFamily : String) :
    InMemoryTokenStorage × Result TokenPair :=
  match generateAccessToken config env user with
  | .error err => (tokenStorage, .error err)
  | .ok (accessToken, expiresAt) =>
    match generateRefreshToken config env tokenStorage user.ID tokenFamily with
    | (ts, .error err) => (ts, .error err)
    | (ts, .ok refreshTokenString) =>
      (ts, .ok { AccessToken := accessToken
                 RefreshToken := refreshTokenString
                 ExpiresAt := Unix expiresAt
                 TokenType := "Bearer" })

/-- The method `AuthService.generateTokenPair`, with `tokenFamily` the value of
`uuid.New().String()`. -/
def generateTokenPair (config : Config) (tokenFamily : String) (env : MintEnv)
    (tokenStorage : InMemoryTokenStorage) (user : User) :
    InMemoryTokenStorage × Result TokenPair :=
  generateTokenPairWithFamily config env tokenStorage user tokenFamily

/-- The method `AuthService.extractTokenFamilyFromToken`: the placeholder returns `""`. -/
def extractTokenFamilyFromToken (_tokenString : String) : String := ""

/-- The method `AuthService.RefreshToken`. -/
def RefreshToken (config : Config) (userStorage : InMemoryUserStorage) (env : RefreshEnv)
    (tokenStorage : InMemoryTokenStorage) (req : RefreshRequest) :
    InMemoryTokenStorage × Result TokenPair :=
  match GetRefreshToken env.now tokenStorage req.RefreshToken with
  | .error err =>
    if err = .storage_ErrTokenNotFound ∨ err = .storage_ErrTokenRevoked then
      let tokenFamily := extractTokenFamilyFromToken req.RefreshToken
      let ts := if tokenFamily ≠ "" then (storage.RevokeTokenFamily tokenStorage tokenFamily).1
                else tokenStorage
      (ts, .error .service_ErrTokenRevoked)
    else if err = .storage_ErrTokenExpired then
      (tokenStorage, .error .service_ErrTokenExpired)
    else (tokenStorage, .error .service_ErrTokenInvalid)
  | .ok refreshToken =>
    match GetUserByID userStorage refreshToken.UserID with
    | .error _ => (tokenStorage, .error .service_ErrTokenInvalid)
    | .ok user =>
      let revoked : InMemoryTokenStorage × Result Unit :=
        if config.EnableTokenRotation then RevokeRefreshToken tokenStorage req.RefreshToken
        else (tokenStorage, .ok ())
      match revoked with
      | (ts, .error err) => (ts, .error err)
      | (ts, .ok _) =>
        match generateTokenPairWithFamily config env.mint ts user refreshToken.TokenFamily with
        | (ts2, .error err) =>
          let ts3 := if config.EnableTokenRotation
                     then (storage.RevokeTokenFamily ts2 refreshToken.TokenFamily).1 else ts2
          (ts3, .error err)
        | (ts2, .ok tokenPair) => (ts2, .ok tokenPair)

/-- The method `AuthService.Logout`. -/
def Logout (tokenStorage : InMemoryTokenStorage) (userID : String) :
    InMemoryTokenStorage × Result Unit :=
  RevokeAllUserTokens tokenStorage userID

/-- The method `AuthService.RevokeTokenFamily`, with `now` the value of `time.Now()` inside
`GetRefreshToken`. -/
def RevokeTokenFamily (now : Int) (tokenStorage : InMemoryTokenStorage) (refreshToken : String) :
    InMemoryTokenStorage × Result Unit :=
  match GetRefreshToken now tokenStorage refreshToken with
  | .error err => (tokenStorage, .error err)
  | .ok token => storage.RevokeTokenFamily tokenStorage token.TokenFamily

/-- The map returned by `AuthService.GetTokenStatus`. -/
structure TokenStatus where
  valid : Bool
  error : Option Err
  revoked : Option Bool
  expired : Option Bool
  expires_at : Option Int
  created_at : Option Int
  token_family : Option String
  user_id : Option String
  deriving DecidableEq, Repr

/-- The method `AuthService.GetTokenStatus`, with `now` the value of `time.Now()` inside
`GetRefreshToken` and `now1`, `now2` the two later readings. -/
def GetTokenStatus (now now1 now2 : Int) (tokenStorage : InMemoryTokenStorage)
    (refreshToken : String) : Result TokenStatus :=
  match GetRefreshToken now tokenStorage refreshToken with
  | .error err =>
    .ok { valid := false, error := some err, revoked := none, expired := none,
          expires_at := none, created_at := none, token_family := none, user_id := none }
  | .ok token =>
    .ok { valid := !token.IsRevoked && decide (token.ExpiresAt > now1)
          error := none
          revoked := some token.IsRevoked
          expired := some (decide (token.ExpiresAt < now2))
          expires_at := some token.ExpiresAt
          created_at := some token.CreatedAt
          token_family := some token.TokenFamily
          user_id := some token.UserID }

end service


/-! ## Sequences of operations -/

namespace storage

open models

/-- One call of a method of the store. -/
inductive StoreOp where
  /-- A call of `StoreRefreshToken` (Create). -/
  | Create (token : RefreshToken)
  /-- A call of `GetRefreshToken` (FetchLive) at time `now`. -/
  | FetchLive (now : Int) (tokenString : String)
  /-- A call of `RevokeRefreshToken` (RevokeOne). -/
  | RevokeOne (tokenString : String)
  /-- A call of `RevokeAllUserTokens` (RevokeAllForSubject). -/
  | RevokeAllForSubject (userID : String)
  /-- A call of `RevokeTokenFamily` (RevokeAllForFamily). -/
  | RevokeAllForFamily (tokenFamily : String)
  /-- A call of `CleanupExpiredTokens` (Sweep) at time `now`. -/
  | Sweep (now : Int)
  /-- A call of `GetUserTokens` (ListBySubject). -/
  | ListBySubject (userID : String)
  /-- A call of `GetAllTokens` (ListAll). -/
  | ListAll
  deriving DecidableEq, Repr

/-- The store after a call of one of its methods. -/
def StoreOp.apply (s : InMemoryTokenStorage) : StoreOp → InMemoryTokenStorage
  | .Create token => (StoreRefreshToken s token).1
  | .FetchLive _ _ => s
  | .RevokeOne tokenString => (RevokeRefreshToken s tokenString).1
  | .RevokeAllForSubject userID => (RevokeAllUserTokens s userID).1
  | .RevokeAllForFamily tokenFamily => (RevokeTokenFamily s tokenFamily).1
  | .Sweep now => (CleanupExpiredTokens now s).1
  | .ListBySubject _ => s
  | .ListAll => s

end storage

namespace service

open models storage config

/-- One call into the rotation engine, or one sweep, with what it reads from its
environment. -/
inductive Op where
  /-- A call of `generateTokenPair` (IssuePair, a successful login of `user`). -/
  | issuePair (user : User) (tokenFamily : String) (env : MintEnv)
  /-- A call of `RefreshToken` (Rotate), against the user table of that moment. -/
  | refreshToken (userStorage : InMemoryUserStorage) (env : RefreshEnv) (req : RefreshRequest)
  /-- A call of `Logout` (RevokeSubject). -/
  | logout (userID : String)
  /-- A call of the service's `RevokeTokenFamily` (RevokeFamilyByPresentedValue). -/
  | revokeTokenFamily (now : Int) (tokenString : String)
  /-- A call of `GetTokenStatus` (Status). -/
  | getTokenStatus (now now1 now2 : Int) (tokenString : String)
  /-- A run of `CleanupExpiredTokens` (Sweep) at time `now`. -/
  | cleanupExpiredTokens (now : Int)

/-- The store after one operation. -/
def Op.apply (config : Config) (s : InMemoryTokenStorage) : Op → InMemoryTokenStorage
  | .issuePair user tokenFamily env => (generateTokenPair config tokenFamily env s user).1
  | .refreshToken userStorage env req => (service.RefreshToken config userStorage env s req).1
  | .logout userID => (Logout s userID).1
  | .revokeTokenFamily now tokenString => (service.RevokeTokenFamily now s tokenString).1
  | .getTokenStatus _ _ _ _ => s
  | .cleanupExpiredTokens now => (CleanupExpiredTokens now s).1

/-- The store after a sequence of operations. -/
def run (config : Config) (ops : List Op) (s : InMemoryTokenStorage) : InMemoryTokenStorage :=
  ops.foldl (Op.apply config) s

/-- The renewal value that the random source hands to an operation, if the operation
reads one. -/
def Op.minted : Op → Option String
  | .issuePair _ _ env =>
    match env.randToken with
    | .ok tokenString => some tokenString
    | .error _ => none
  | .refreshToken _ env _ =>
    match env.mint.randToken with
    | .ok tokenString => some tokenString
    | .error _ => none
  | _ => none

/-- The values generated for an operation are fresh for the store it runs on: a
generated renewal value is not yet a key of the table, and a generated family id is
not the family of any stored credential. -/
def Op.Fresh (s : InMemoryTokenStorage) (op : Op) : Prop :=
  (∀ tokenString, op.minted = some tokenString → s.lookup tokenString = none) ∧
  (∀ user tokenFamily env, op = .issuePair user tokenFamily env →
    ∀ k token, s.lookup k = some token → token.TokenFamily ≠ tokenFamily)

/-- The stores reached from the empty one when logins, rotations, logouts, family
revocations, status queries and sweeps with fresh generated values run one after
another, each call returning before the next one starts. Stores that only an
interleaving of two calls reaches, as under `Race.run`, are not among them. -/
inductive ReachableSequentially (config : Config) : InMemoryTokenStorage → Prop where
  | empty : ReachableSequentially config ∅
  | step (s : InMemoryTokenStorage) (op : Op) :
      ReachableSequentially config s → op.Fresh s →
      ReachableSequentially config (op.apply config s)

/-- The non-revoked credentials of a family, as listed by `GetAllTokens`. -/
def currentOfFamily (s : InMemoryTokenStorage) (tokenFamily : String) : List models.RefreshToken :=
  match GetAllTokens s with
  | .ok tokens =>
    tokens.filter (fun token => decide (token.TokenFamily = tokenFamily) && !token.IsRevoked)
  | .error _ => []

end service

namespace storage

/-- The value `r` can no longer be fetched live: it is absent from the table or its
entry is revoked. -/
def Dead (r : String) (s : InMemoryTokenStorage) : Prop :=
  ∀ token, s.lookup r = some token → token.IsRevoked = true

/-- No two distinct entries of the table are non-revoked members of one family. -/
def OneCurrentPerFamily (s : InMemoryTokenStorage) : Prop :=
  ∀ k1 k2 t1 t2, s.lookup k1 = some t1 → s.lookup k2 = some t2 →
    t1.TokenFamily = t2.TokenFamily → t1.IsRevoked = false → t2.IsRevoked = false → k1 = k2

end storage

namespace service

/-- The status map that `GetTokenStatus` builds when the fetch fails with `e`. -/
def failedStatus (e : Err) : TokenStatus :=
  { valid := false, error := some e, revoked := none, expired := none,
    expires_at := none, created_at := none, token_family := none, user_id := none }

end service

/-! ## Two concurrent calls of `RefreshToken`

Every method of the store holds the store's lock for its whole body and `RefreshToken`
holds no lock between two of them, so a call of `RefreshToken` is a sequence of atomic
steps, one per storage method it calls, and two concurrent calls interleave step by
step. -/

namespace service

open models storage config

/-- Where a call of `RefreshToken` stands between two storage methods. -/
inductive RefreshPC where
  /-- Before `GetRefreshToken`. -/
  | start
  /-- After a failed fetch with a recovered family id, before `RevokeTokenFamily`. -/
  | replay (tokenFamily : String)
  /-- After a successful `GetRefreshToken`, before `GetUserByID`. -/
  | fetched (refreshToken : models.RefreshToken)
  /-- After `GetUserByID`, before `RevokeRefreshToken`. -/
  | userFound (refreshToken : models.RefreshToken) (user : User)
  /-- After the revocation step, before `generateTokenPairWithFamily`. -/
  | minting (refreshToken : models.RefreshToken) (user : User)
  /-- After a failed minting with rotation enabled, before `RevokeTokenFamily`. -/
  | mintFailed (refreshToken : models.RefreshToken) (err : Err)
  /-- After the call has returned `result`. -/
  | done (result : Result TokenPair)
  deriving DecidableEq, Repr

/-- One atomic step of a call of `RefreshToken`. -/
def RefreshPC.step (config : Config) (userStorage : InMemoryUserStorage) (env : RefreshEnv)
    (req : RefreshRequest) (ts : InMemoryTokenStorage) : RefreshPC → RefreshPC × InMemoryTokenStorage
  | .start =>
    match GetRefreshToken env.now ts req.RefreshToken with
    | .error err =>
      if err = .storage_ErrTokenNotFound ∨ err = .storage_ErrTokenRevoked then
        let tokenFamily := extractTokenFamilyFromToken req.RefreshToken
        if tokenFamily ≠ "" then (.replay tokenFamily, ts)
        else (.done (.error .service_ErrTokenRevoked), ts)
      else if err = .storage_ErrTokenExpired then (.done (.error .service_ErrTokenExpired), ts)
      else (.done (.error .service_ErrTokenInvalid), ts)
    | .ok refreshToken => (.fetched refreshToken, ts)
  | .replay tokenFamily =>
    (.done (.error .service_ErrTokenRevoked), (storage.RevokeTokenFamily ts tokenFamily).1)
  | .fetched refreshToken =>
    match GetUserByID userStorage refreshToken.UserID with
    | .error _ => (.done (.error .service_ErrTokenInvalid), ts)
    | .ok user => (.userFound refreshToken user, ts)
  | .userFound refreshToken user =>
    if config.EnableTokenRotation then
      match RevokeRefreshToken ts req.RefreshToken with
      | (ts1, .error err) => (.done (.error err), ts1)
      | (ts1, .ok _) => (.minting refreshToken user, ts1)
    else (.minting refreshToken user, ts)
  | .minting refreshToken user =>
    match generateTokenPairWithFamily config env.mint ts user refreshToken.TokenFamily with
    | (ts2, .error err) =>
      if config.EnableTokenRotation then (.mintFailed refreshToken err, ts2)
      else (.done (.error err), ts2)
    | (ts2, .ok tokenPair) => (.done (.ok tokenPair), ts2)
  | .mintFailed refreshToken err =>
    (.done (.error err), (storage.RevokeTokenFamily ts refreshToken.TokenFamily).1)
  | .done result => (.done result, ts)

/-- A call of `RefreshToken` run alone for `n` steps. -/
def RefreshPC.runAlone (config : Config) (userStorage : InMemoryUserStorage) (env : RefreshEnv)
    (req : RefreshRequest) : Nat → RefreshPC × InMemoryTokenStorage → RefreshPC × InMemoryTokenStorage
  | 0, st => st
  | n + 1, st =>
    RefreshPC.runAlone config userStorage env req n
      (RefreshPC.step config userStorage env req st.2 st.1)

/-- Two calls of `RefreshToken` presenting the same request, and the store they share. -/
structure Race where
  first : RefreshPC
  second : RefreshPC
  tokenStorage : InMemoryTokenStorage
  deriving DecidableEq

/-- One step of the race: the first call moves when `pick` is `true`, the second
otherwise. -/
def Race.step (config : Config) (userStorage : InMemoryUserStorage) (env1 env2 : RefreshEnv)
    (req : RefreshRequest) (st : Race) (pick : Bool) : Race :=
  if pick then
    let r := RefreshPC.step config userStorage env1 req st.tokenStorage st.first
    { st with first := r.1, tokenStorage := r.2 }
  else
    let r := RefreshPC.step config userStorage env2 req st.tokenStorage st.second
    { st with second := r.1, tokenStorage := r.2 }

/-- The race under a schedule. -/
def Race.run (config : Config) (userStorage : InMemoryUserStorage) (env1 env2 : RefreshEnv)
    (req : RefreshRequest) (schedule : List Bool) (st : Race) : Race :=
  schedule.foldl (Race.step config userStorage env1 env2 req) st

end service

/-! ## Access credentials

`jwt.ParseWithClaims` belongs to the library `github.com/golang-jwt/jwt/v5`. The service
is modelled for every behaviour of it: the verifier is a parameter that maps the token
string, the key handed over by the key function and the clock to an error of the
library or to a parsed token. -/

namespace jwt

/-- The struct `jwt.RegisteredClaims`, with the fields the service fills. -/
structure RegisteredClaims where
  ExpiresAt : Int
  IssuedAt : Int
  NotBefore : Int
  Issuer : String
  Subject : String
  ID : String
  deriving DecidableEq, Repr

end jwt

namespace models

/-- The struct `models.Claims`. -/
structure Claims where
  UserID : String
  Username : String
  Email : String
  RegisteredClaims : jwt.RegisteredClaims
  deriving DecidableEq, Repr

end models

namespace jwt

/-- The fields of `jwt.Token` that `ValidateAccessToken` reads: `Claims` is the outcome
of the type assertion `token.Claims.(*models.Claims)`, `none` when it fails. -/
structure Token where
  Claims : Option models.Claims
  Valid : Bool
  deriving DecidableEq, Repr

/-- What `jwt.ParseWithClaims` returns: an error of the library, of any kind `ε`, or
the parsed token. -/
inductive ParseResult (ε : Type) where
  | error (err : ε)
  | ok (token : Token)
  deriving DecidableEq, Repr

end jwt

namespace service

open models storage config

/-- The struct `AuthService`. -/
structure AuthService where
  userStorage : InMemoryUserStorage
  tokenStorage : InMemoryTokenStorage
  config : Config

/-- The method `AuthService.ValidateAccessToken`, with `parseWithClaims` the verifier
`jwt.ParseWithClaims` applied to the token string, the key and the clock. -/
def AuthService.ValidateAccessToken {ε : Type} (s : AuthService)
    (parseWithClaims : String → String → Int → jwt.ParseResult ε) (now : Int)
    (tokenString : String) : Result Claims :=
  match parseWithClaims tokenString s.config.JWTSecret now with
  | .error _ => .error .service_ErrTokenInvalid
  | .ok token =>
    match token.Claims with
    | some claims => if token.Valid then .ok claims else .error .service_ErrTokenInvalid
    | none => .error .service_ErrTokenInvalid

/-- The method `AuthService.Logout` on the service: the token store is replaced by the
one `RevokeAllUserTokens` leaves. -/
def AuthService.Logout (s : AuthService) (userID : String) : AuthService :=
  { s with tokenStorage := (service.Logout s.tokenStorage userID).1 }

end service

/-! ## QR codes -/

namespace models

/-- The struct `models.QRCode`; `UsedAt` is `none` for a nil pointer. -/
structure QRCode where
  ID : String
  Data : String
  UserID : String
  CreatedAt : Int
  ExpiresAt : Int
  IsUsed : Bool
  UsedAt : Option Int
  IPAddress : String
  deriving DecidableEq, Repr

end models

namespace storage

open models

/-- The `error` values of `qr_storage.go`. -/
inductive QRErr where
  /-- The error `storage.ErrQRCodeNotFound`. -/
  | ErrQRCodeNotFound
  /-- The error `storage.ErrQRCodeExpired`. -/
  | ErrQRCodeExpired
  /-- The error `storage.ErrQRCodeUsed`. -/
  | ErrQRCodeUsed
  deriving DecidableEq, Repr

/-- The table `map[string]*models.QRCode` of `InMemoryQRCodeStorage`. -/
abbrev InMemoryQRCodeStorage := AList (fun _ : String => QRCode)

/-- The method `InMemoryQRCodeStorage.CreateQRCode`; `none` is the nil error. -/
def CreateQRCode (s : InMemoryQRCodeStorage) (qrCode : QRCode) :
    InMemoryQRCodeStorage × Option QRErr :=
  (s.insert qrCode.ID qrCode, none)

/-- The method `InMemoryQRCodeStorage.MarkQRCodeAsUsed`, with `now` the reading
`time.Now()` compared with the expiry and `usedNow` the later reading stored in
`UsedAt`; `none` is the nil error. -/
def MarkQRCodeAsUsed (now usedNow : Int) (s : InMemoryQRCodeStorage) (id ipAddress : String) :
    InMemoryQRCodeStorage × Option QRErr :=
  match s.lookup id with
  | none => (s, some .ErrQRCodeNotFound)
  | some qrCode =>
    if qrCode.IsUsed then (s, some .ErrQRCodeUsed)
    else if now > qrCode.ExpiresAt then (s, some .ErrQRCodeExpired)
    else
      (s.replace id { qrCode with IsUsed := true, UsedAt := some usedNow,
                                  IPAddress := ipAddress }, none)

/-- The method `InMemoryQRCodeStorage.GetAllQRCodes`. -/
def GetAllQRCodes (s : InMemoryQRCodeStorage) : List QRCode × Option QRErr :=
  (s.entries.map (fun e => e.2), none)

/-- One call of `MarkQRCodeAsUsed`, with its clock readings. -/
structure MarkCall where
  now : Int
  usedNow : Int
  id : String
  ipAddress : String
  deriving DecidableEq, Repr

/-- The QR table after a sequence of calls of `MarkQRCodeAsUsed`. -/
def markAll (calls : List MarkCall) (s : InMemoryQRCodeStorage) : InMemoryQRCodeStorage :=
  calls.foldl (fun st c => (MarkQRCodeAsUsed c.now c.usedNow st c.id c.ipAddress).1) s

/-- Delete every code rejected by `keep` (a `range` loop with `delete`). -/
def retainQRCodes (keep : QRCode → Bool) (s : InMemoryQRCodeStorage) : InMemoryQRCodeStorage :=
  ⟨s.entries.filter (fun e => keep e.2),
    s.nodupKeys.sublist (List.filter_sublist _)⟩

/-- The method `InMemoryQRCodeStorage.GetQRCode`. -/
def GetQRCode (s : InMemoryQRCodeStorage) (id : String) : Option QRCode × Option QRErr :=
  match s.lookup id with
  | none => (none, some .ErrQRCodeNotFound)
  | some qrCode => (some qrCode, none)

/-- The method `InMemoryQRCodeStorage.GetQRCodeByData`: the first code met by the loop
that carries the data. -/
def GetQRCodeByData (s : InMemoryQRCodeStorage) (data : String) :
    Option QRCode × Option QRErr :=
  match (s.entries.map (fun e => e.2)).find? (fun qrCode => qrCode.Data = data) with
  | some qrCode => (some qrCode, none)
  | none => (none, some .ErrQRCodeNotFound)

/-- The method `InMemoryQRCodeStorage.GetActiveQRCodes`, with `now` the reading
`time.Now()`. -/
def GetActiveQRCodes (now : Int) (s : InMemoryQRCodeStorage) : List QRCode × Option QRErr :=
  ((s.entries.map (fun e => e.2)).filter
      (fun qrCode => !qrCode.IsUsed && decide (now < qrCode.ExpiresAt)), none)

/-- The method `InMemoryQRCodeStorage.CleanupExpiredQRCodes`, with `now` the reading
`time.Now()`; it is what the cleanup goroutine runs every minute. -/
def CleanupExpiredQRCodes (now : Int) (s : InMemoryQRCodeStorage) :
    InMemoryQRCodeStorage × Option QRErr :=
  (retainQRCodes (fun qrCode => !decide (now > qrCode.ExpiresAt)) s, none)

/-- The method `InMemoryQRCodeStorage.DeleteQRCode`. -/
def DeleteQRCode (s : InMemoryQRCodeStorage) (id : String) :
    InMemoryQRCodeStorage × Option QRErr :=
  match s.lookup id with
  | none => (s, some .ErrQRCodeNotFound)
  | some _ => (s.erase id, none)

/-- One call of a method of the QR table, with its clock readings. -/
inductive QROp where
  /-- A call of `CreateQRCode`. -/
  | create (qrCode : QRCode)
  /-- A call of `GetQRCode`. -/
  | get (id : String)
  /-- A call of `GetQRCodeByData`. -/
  | getByData (data : String)
  /-- A call of `MarkQRCodeAsUsed`. -/
  | markUsed (call : MarkCall)
  /-- A call of `GetAllQRCodes`. -/
  | getAll
  /-- A call of `GetActiveQRCodes` at time `now`. -/
  | getActive (now : Int)
  /-- A call of `CleanupExpiredQRCodes` at time `now`. -/
  | cleanup (now : Int)
  /-- A call of `DeleteQRCode`. -/
  | delete (id : String)
  deriving DecidableEq, Repr

/-- The QR table after a call of one of its methods. -/
def QROp.apply (s : InMemoryQRCodeStorage) : QROp → InMemoryQRCodeStorage
  | .create qrCode => (CreateQRCode s qrCode).1
  | .get _ => s
  | .getByData _ => s
  | .markUsed c => (MarkQRCodeAsUsed c.now c.usedNow s c.id c.ipAddress).1
  | .getAll => s
  | .getActive _ => s
  | .cleanup now => (CleanupExpiredQRCodes now s).1
  | .delete id => (DeleteQRCode s id).1

/-- The QR table after a sequence of calls of its methods. -/
def QROp.run (ops : List QROp) (s : InMemoryQRCodeStorage) : InMemoryQRCodeStorage :=
  ops.foldl QROp.apply s

/-- The method `InMemoryUserStorage.ListUsers`. -/
def ListUsers (s : InMemoryUserStorage) : Result (List User) :=
  .ok (s.entries.map (fun e => e.2))

/-- The method `InMemoryUserStorage.DeleteUser`. -/
def DeleteUser (s : InMemoryUserStorage) (id : String) : InMemoryUserStorage × Result Unit :=
  match s.lookup id with
  | none => (s, .error .storage_ErrUserNotFound)
  | some _ => (s.erase id, .ok ())

/-- The store after a sequence of calls of its methods. -/
def StoreOp.run (ops : List StoreOp) (s : InMemoryTokenStorage) : InMemoryTokenStorage :=
  ops.foldl StoreOp.apply s

/-- The methods of the store that only read: fetch and the two listings. -/
def StoreOp.readOnly : StoreOp → Bool
  | .FetchLive _ _ => true
  | .ListBySubject _ => true
  | .ListAll => true
  | _ => false

/-- The entry `t'` is the entry `t` but for the revoked flag, which is not cleared. -/
def SameButFlag (t t' : RefreshToken) : Prop :=
  t' = { t with IsRevoked := t'.IsRevoked } ∧ (t.IsRevoked = true → t'.IsRevoked = true)

/-- The value `v`, when stored in `s`, is still stored in `s'`, with the same entry but
for the revoked flag. -/
def Keeps (v : String) (s s' : InMemoryTokenStorage) : Prop :=
  ∀ t, s.lookup v = some t → ∃ t', s'.lookup v = some t' ∧ SameButFlag t t'

end storage

/-! ## The database view -/

namespace models

/-- The struct `models.DatabaseStats`. -/
structure DatabaseStats where
  TotalUsers : Nat
  ActiveTokens : Nat
  RevokedTokens : Nat
  ExpiredTokens : Nat
  ActiveQRCodes : Nat
  UsedQRCodes : Nat
  ExpiredQRCodes : Nat
  deriving DecidableEq, Repr

/-- The struct `models.DatabaseView`. -/
structure DatabaseView where
  Users : List User
  Tokens : List RefreshToken
  QRCodes : List QRCode
  Stats : DatabaseStats
  Timestamp : Int
  deriving DecidableEq, Repr

end models

namespace service

open models storage config

/-- The errors of `GetDatabaseView`: the error of a listing, wrapped by `fmt.Errorf`. -/
inductive ViewErr where
  | users (err : Err)
  | tokens (err : Err)
  | qrCodes (err : QRErr)
  deriving DecidableEq, Repr

/-- The body of the loop over the tokens in `GetDatabaseView`. -/
def countToken (now : Int) (stats : DatabaseStats) (token : models.RefreshToken) :
    DatabaseStats :=
  if token.IsRevoked then { stats with RevokedTokens := stats.RevokedTokens + 1 }
  else if now > token.ExpiresAt then { stats with ExpiredTokens := stats.ExpiredTokens + 1 }
  else { stats with ActiveTokens := stats.ActiveTokens + 1 }

/-- The body of the loop over the QR codes in `GetDatabaseView`. -/
def countQRCode (now : Int) (stats : DatabaseStats) (qrCode : QRCode) : DatabaseStats :=
  if qrCode.IsUsed then { stats with UsedQRCodes := stats.UsedQRCodes + 1 }
  else if now > qrCode.ExpiresAt then { stats with ExpiredQRCodes := stats.ExpiredQRCodes + 1 }
  else { stats with ActiveQRCodes := stats.ActiveQRCodes + 1 }

/-- The method `QRCodeService.GetDatabaseView`, with `now` the reading `time.Now()`. -/
def GetDatabaseView (now : Int) (userStorage : InMemoryUserStorage)
    (tokenStorage : InMemoryTokenStorage) (qrStorage : InMemoryQRCodeStorage) :
    Except ViewErr DatabaseView :=
  match ListUsers userStorage with
  | .error err => .error (.users err)
  | .ok users =>
    match GetAllTokens tokenStorage with
    | .error err => .error (.tokens err)
    | .ok tokens =>
      match GetAllQRCodes qrStorage with
      | (_, some err) => .error (.qrCodes err)
      | (qrCodes, none) =>
        let stats : DatabaseStats :=
          { TotalUsers := users.length, ActiveTokens := 0, RevokedTokens := 0,
            ExpiredTokens := 0, ActiveQRCodes := 0, UsedQRCodes := 0, ExpiredQRCodes := 0 }
        let stats := tokens.foldl (countToken now) stats
        let stats := qrCodes.foldl (countQRCode now) stats
        .ok { Users := users, Tokens := tokens, QRCodes := qrCodes, Stats := stats,
              Timestamp := now }

end service

namespace storage

/-- Whether `GetRefreshToken` at time `now` returns the credential stored under `k`. -/
def fetchesLive (now : Int) (s : InMemoryTokenStorage) (k : String) : Bool :=
  match GetRefreshToken now s k with
  | .ok _ => true
  | .error _ => false

end storage
/-! ## Concrete data used to run the code -/

namespace demo

open models storage service config

/-- A subject of the user table. -/
def alice : User :=
  { ID := "u1", Username := "alice", Email := "alice@example.com", Password := "hash",
    CreateAt := 0, LastLogin := 0 }

/-- A user table holding `alice`. -/
def users : InMemoryUserStorage := (∅ : InMemoryUserStorage).insert "u1" alice

/-- The readings of a minting step that yields the renewal value `value` at time `now`. -/
def mintEnv (value : String) (now : Int) : MintEnv :=
  { accessNow := now, signed := .ok "jwt", randToken := .ok value, tokenID := "id",
    expiresNow := now, createdNow := now }

/-- The store after `alice` logged in at time `0` and got the renewal value `r1` in
family `F`. -/
def afterLogin : InMemoryTokenStorage :=
  (generateTokenPair config.New "F" (mintEnv "r1" 0) ∅ alice).1


/-- The readings of a call of `RefreshToken` at time `now` whose minting step yields the
renewal value `value`. -/
def refreshEnv (value : String) (now : Int) : RefreshEnv :=
  { now := now, mint := mintEnv value now }

/-- A non-revoked credential with value `a`. -/
def tokenA : RefreshToken :=
  { ID := "id1", UserID := "u1", Token := "a", ExpiresAt := 100, CreatedAt := 0,
    IsRevoked := false, TokenFamily := "F" }

/-- Another non-revoked credential with the same value `a`. -/
def tokenA2 : RefreshToken :=
  { ID := "id2", UserID := "u2", Token := "a", ExpiresAt := 200, CreatedAt := 50,
    IsRevoked := false, TokenFamily := "G" }

/-- A revoked credential with value `a`. -/
def revokedA : RefreshToken :=
  { ID := "id1", UserID := "u1", Token := "a", ExpiresAt := 100, CreatedAt := 0,
    IsRevoked := true, TokenFamily := "F" }

/-- A store holding `tokenA`. -/
def storeA : InMemoryTokenStorage := (StoreRefreshToken ∅ tokenA).1

/-- A store holding `revokedA`. -/
def storeRevokedA : InMemoryTokenStorage := (StoreRefreshToken ∅ revokedA).1


/-- The readings of a call of `RefreshToken` at time `now` whose `rand.Read` fails. -/
def refreshEnvRandFails (now : Int) : RefreshEnv :=
  { now := now,
    mint := { accessNow := now, signed := .ok "jwt", randToken := .error .rand_Read,
              tokenID := "id", expiresNow := now, createdNow := now } }

/-- The credential stored by the login behind `afterLogin`. -/
def tokenR1 : RefreshToken :=
  { ID := "id", UserID := "u1", Token := "r1", ExpiresAt := 1800000000000, CreatedAt := 0,
    IsRevoked := false, TokenFamily := "F" }


/-- The store after the value `r1` of `afterLogin` was rotated at time `5` into `r2`. -/
def afterRotation : InMemoryTokenStorage :=
  (RefreshToken config.New users (refreshEnv "r2" 5) afterLogin { RefreshToken := "r1" }).1

/-- The store after the revoked value `r1` was presented again at time `6`. -/
def afterReplay : InMemoryTokenStorage :=
  (RefreshToken config.New users (refreshEnv "r3" 6) afterRotation { RefreshToken := "r1" }).1

/-- The credential minted by the rotation behind `afterRotation`. -/
def tokenR2 : RefreshToken :=
  { ID := "id", UserID := "u1", Token := "r2", ExpiresAt := 1800000000005, CreatedAt := 5,
    IsRevoked := false, TokenFamily := "F" }

/-- Operations following the rotation: a logout of another subject, a sweep and a
second login of `alice`. -/
def laterOps : List Op :=
  [.logout "u9", .cleanupExpiredTokens 7, .issuePair alice "G" (mintEnv "r5" 8)]


/-- Two calls presenting `r1` to `afterLogin`, both about to start. -/
def raceStart : Race :=
  { first := .start, second := .start, tokenStorage := afterLogin }

/-- The credential minted by the second call of the race. -/
def tokenR3 : RefreshToken :=
  { ID := "id", UserID := "u1", Token := "r3", ExpiresAt := 1800000000005, CreatedAt := 5,
    IsRevoked := false, TokenFamily := "F" }

/-- The readings of a call of `RefreshToken` at time `now` whose signer fails. -/
def refreshEnvSignFails (now : Int) : RefreshEnv :=
  { now := now,
    mint := { accessNow := now, signed := .error .jwt_SignedString, randToken := .ok "r2",
              tokenID := "id", expiresNow := now, createdNow := now } }

/-- The readings of a minting step during which the clock advances: the expiry is
computed from the reading `5`, the creation time is the later reading `7`. -/
def mintEnvTicking : MintEnv :=
  { accessNow := 3, signed := .ok "jwt", randToken := .ok "r1", tokenID := "id",
    expiresNow := 5, createdNow := 7 }

/-- The credential stored by a login that reads `mintEnvTicking`. -/
def tokenTicking : RefreshToken :=
  { ID := "id", UserID := "u1", Token := "r1", ExpiresAt := 1800000000005, CreatedAt := 7,
    IsRevoked := false, TokenFamily := "F" }

/-- The claims embedded in the access credential `jwt` of `alice`. -/
def claims : Claims :=
  { UserID := "u1", Username := "alice", Email := "alice@example.com",
    RegisteredClaims :=
      { ExpiresAt := 120000000000, IssuedAt := 0, NotBefore := 0,
        Issuer := "rotate-token-demo", Subject := "u1", ID := "jti" } }

/-- A verifier that accepts the string `jwt` under the configured secret until its
expiry and rejects everything else, with the library's messages as errors. -/
def parseWithClaims (tokenString key : String) (now : Int) : jwt.ParseResult String :=
  if tokenString = "jwt" ∧ key = config.New.JWTSecret then
    if now > claims.RegisteredClaims.ExpiresAt then .error "token is expired"
    else .ok { Claims := some claims, Valid := true }
  else .error "token is malformed"

/-- The service after the login behind `afterLogin`. -/
def authService : AuthService :=
  { userStorage := users, tokenStorage := afterLogin, config := config.New }

/-- The configuration of `config.New` with rotation-on-refresh switched off. -/
def configNoRotation : Config := { config.New with EnableTokenRotation := false }

/-- The store after `r1` was presented at time `5` with rotation off and `r2` minted. -/
def afterReuse : InMemoryTokenStorage :=
  (RefreshToken configNoRotation users (refreshEnv "r2" 5) afterLogin
    { RefreshToken := "r1" }).1

/-- The user table after `alice` was deleted. -/
def usersAfterDelete : InMemoryUserStorage := (DeleteUser users "u1").1

/-- An unused QR code of `alice` that expires at `100`. -/
def qrCode : QRCode :=
  { ID := "q1", Data := "data", UserID := "u1", CreatedAt := 0, ExpiresAt := 100,
    IsUsed := false, UsedAt := none, IPAddress := "" }

/-- A QR table holding `qrCode`. -/
def qrStore : InMemoryQRCodeStorage := (CreateQRCode ∅ qrCode).1

end demo
/-! ## The table after each storage operation -/

namespace storage

open models

theorem lookup_forEachToken (f : RefreshToken → RefreshToken) (s : InMemoryTokenStorage)
    (k : String) : (forEachToken f s).lookup k = (s.lookup k).map f := by
  unfold forEachToken AList.lookup
  simp only
  induction s.entries with
  | nil => simp
  | cons e l ih =>
    obtain ⟨a, b⟩ := e
    by_cases h : k = a
    · subst h; simp [List.dlookup_cons_eq]
    · rw [List.map_cons, List.dlookup_cons_ne _ _ h, List.dlookup_cons_ne _ _ h, ih]

theorem lookup_retainTokens (keep : RefreshToken → Bool) (s : InMemoryTokenStorage)
    (k : String) : (retainTokens keep s).lookup k = (s.lookup k).filter keep := by
  obtain ⟨l, nd⟩ := s
  unfold retainTokens AList.lookup
  simp only
  induction l with
  | nil => simp [Option.filter]
  | cons e l ih =>
    obtain ⟨a, b⟩ := e
    have hnd := List.nodupKeys_cons.1 nd
    by_cases h : k = a
    · subst h
      by_cases hb : keep b = true
      · simp [List.filter_cons, hb, List.dlookup_cons_eq, Option.filter]
      · have hnot : k ∉ (l.filter (fun e => keep e.2)).keys := fun hm =>
          hnd.1 ((List.filter_sublist l).subset.trans (List.Subset.refl _) |>
            fun hs => by
              obtain ⟨b', hb'⟩ := List.mem_keys.1 hm
              exact List.mem_keys.2 ⟨b', hs hb'⟩)
        simp [List.filter_cons, hb, List.dlookup_cons_eq, Option.filter,
          List.dlookup_eq_none.2 hnot]
    · by_cases hb : keep b = true
      · simp only [List.filter_cons, hb, if_true]
        rw [List.dlookup_cons_ne _ _ h, List.dlookup_cons_ne _ _ h]
        exact ih hnd.2
      · simp only [List.filter_cons, hb]
        rw [List.dlookup_cons_ne _ _ h]
        simpa using ih hnd.2

theorem lookup_replace (s : InMemoryTokenStorage) (k k' : String) (v : RefreshToken) :
    (s.replace k v).lookup k' =
      if k' = k then (s.lookup k).map (fun _ => v) else s.lookup k' := by
  obtain ⟨l, nd⟩ := s
  unfold AList.replace AList.lookup
  simp only
  induction l with
  | nil => simp [List.kreplace]
  | cons e l ih =>
    obtain ⟨a, b⟩ := e
    have hnd := List.nodupKeys_cons.1 nd
    by_cases ha : k = a
    · subst ha
      have hrep : List.kreplace k v (⟨k, b⟩ :: l) = ⟨k, v⟩ :: l := by
        simp [List.kreplace, List.lookmap_cons_some]
      rw [hrep]
      by_cases h : k' = k
      · subst h; simp [List.dlookup_cons_eq]
      · have h1 : (⟨k, v⟩ :: l : List ((_ : String) × RefreshToken)).dlookup k' = l.dlookup k' :=
          List.dlookup_cons_ne l ⟨k, v⟩ h
        have h2 : (⟨k, b⟩ :: l : List ((_ : String) × RefreshToken)).dlookup k' = l.dlookup k' :=
          List.dlookup_cons_ne l ⟨k, b⟩ h
        simp [h, h1, h2]
    · have hrep : List.kreplace k v (⟨a, b⟩ :: l) = ⟨a, b⟩ :: List.kreplace k v l := by
        simp [List.kreplace, List.lookmap_cons_none, ha]
      rw [hrep]
      by_cases h : k' = a
      · subst h
        have hne : ¬ k' = k := fun hk => ha hk.symm
        simp [List.dlookup_cons_eq, hne]
      · have h1 : ∀ (m : List ((_ : String) × RefreshToken)) (x : String), ¬ x = a →
            (⟨a, b⟩ :: m : List ((_ : String) × RefreshToken)).dlookup x = m.dlookup x :=
          fun m x hx => List.dlookup_cons_ne m ⟨a, b⟩ hx
        rw [h1 _ _ h, h1 _ _ h, h1 _ _ ha, ih hnd.2]

end storage

namespace storage

open models

theorem lookup_StoreRefreshToken (s : InMemoryTokenStorage) (token : RefreshToken) (k : String) :
    (StoreRefreshToken s token).1.lookup k = if k = token.Token then some token else s.lookup k := by
  unfold StoreRefreshToken
  by_cases h : k = token.Token
  · subst h; simp [AList.lookup_insert]
  · simp [h, AList.lookup_insert_ne h]

theorem lookup_RevokeRefreshToken (s : InMemoryTokenStorage) (tokenString k : String) :
    (RevokeRefreshToken s tokenString).1.lookup k =
      if k = tokenString then (s.lookup tokenString).map markRevoked else s.lookup k := by
  unfold RevokeRefreshToken
  cases hl : s.lookup tokenString with
  | none =>
    by_cases h : k = tokenString
    · subst h; simp [hl]
    · simp [h]
  | some token => simp [lookup_replace, hl]

theorem lookup_RevokeAllUserTokens (s : InMemoryTokenStorage) (userID k : String) :
    (RevokeAllUserTokens s userID).1.lookup k =
      (s.lookup k).map (fun token => if token.UserID = userID then markRevoked token else token) := by
  simp [RevokeAllUserTokens, lookup_forEachToken]

theorem lookup_RevokeTokenFamily (s : InMemoryTokenStorage) (tokenFamily k : String) :
    (RevokeTokenFamily s tokenFamily).1.lookup k =
      (s.lookup k).map
        (fun token => if token.TokenFamily = tokenFamily then markRevoked token else token) := by
  simp [RevokeTokenFamily, lookup_forEachToken]

theorem lookup_CleanupExpiredTokens (now : Int) (s : InMemoryTokenStorage) (k : String) :
    (CleanupExpiredTokens now s).1.lookup k =
      (s.lookup k).filter (fun token => !decide (now > token.ExpiresAt)) := by
  simp [CleanupExpiredTokens, lookup_retainTokens]

theorem GetRefreshToken_eq_ok_iff (now : Int) (s : InMemoryTokenStorage) (tokenString : String)
    (token : RefreshToken) :
    GetRefreshToken now s tokenString = .ok token ↔
      (s.lookup tokenString = some token ∧ token.IsRevoked = false ∧
        ¬ now > token.ExpiresAt) := by
  unfold GetRefreshToken
  cases hl : s.lookup tokenString with
  | none => simp
  | some t =>
    by_cases hr : t.IsRevoked = true
    · simp [hr]
      intro h; subst h; simp [hr]
    · by_cases he : now > t.ExpiresAt
      · simp [hr, he]
        intro h; subst h; simp [he]
      · simp [hr, he]
        intro h; subst h
        exact ⟨by simpa using hr, not_lt.1 he⟩

theorem GetRefreshToken_dead_iff (now : Int) (s : InMemoryTokenStorage) (tokenString : String) :
    (GetRefreshToken now s tokenString = .error .storage_ErrTokenNotFound ∨
      GetRefreshToken now s tokenString = .error .storage_ErrTokenRevoked) ↔
      ∀ token, s.lookup tokenString = some token → token.IsRevoked = true := by
  unfold GetRefreshToken
  cases hl : s.lookup tokenString with
  | none => simp
  | some t =>
    by_cases hr : t.IsRevoked = true
    · simp [hr]
    · by_cases he : now > t.ExpiresAt
      · simp [hr, he]
      · simp [hr, he]

end storage


/-! ## The rotation engine, path by path -/

namespace service

open models storage config

/-- A minting step whose signer and random source succeed stores one credential under
the generated value and returns the pair. -/
theorem generateTokenPairWithFamily_store_ok (config : Config) (env : MintEnv)
    (ts : InMemoryTokenStorage) (user : User) (tokenFamily accessToken tokenString : String)
    (hs : env.signed = .ok accessToken) (hr : env.randToken = .ok tokenString) :
    generateTokenPairWithFamily config env ts user tokenFamily =
      (ts.insert tokenString
          { ID := env.tokenID, UserID := user.ID, Token := tokenString,
            ExpiresAt := env.expiresNow + config.RefreshTokenExpiry,
            CreatedAt := env.createdNow, IsRevoked := false, TokenFamily := tokenFamily },
        .ok { AccessToken := accessToken, RefreshToken := tokenString,
              ExpiresAt := Unix (env.accessNow + config.AccessTokenExpiry),
              TokenType := "Bearer" }) := by
  simp [generateTokenPairWithFamily, generateAccessToken, generateRefreshToken,
    StoreRefreshToken, hs, hr]

theorem generateTokenPairWithFamily_sign_error (config : Config) (env : MintEnv)
    (ts : InMemoryTokenStorage) (user : User) (tokenFamily : String) (e : Err)
    (hs : env.signed = .error e) :
    generateTokenPairWithFamily config env ts user tokenFamily = (ts, .error e) := by
  simp [generateTokenPairWithFamily, generateAccessToken, hs]

theorem generateTokenPairWithFamily_rand_error (config : Config) (env : MintEnv)
    (ts : InMemoryTokenStorage) (user : User) (tokenFamily accessToken : String) (e : Err)
    (hs : env.signed = .ok accessToken) (hr : env.randToken = .error e) :
    generateTokenPairWithFamily config env ts user tokenFamily = (ts, .error e) := by
  simp [generateTokenPairWithFamily, generateAccessToken, generateRefreshToken, hs, hr]

/-- Minting either leaves the table alone or inserts one entry under the generated
value. -/
theorem generateTokenPairWithFamily_cases (config : Config) (env : MintEnv)
    (ts : InMemoryTokenStorage) (user : User) (tokenFamily : String) :
    (∃ e, generateTokenPairWithFamily config env ts user tokenFamily = (ts, .error e)) ∨
    (∃ accessToken tokenString, env.signed = .ok accessToken ∧
      env.randToken = .ok tokenString ∧
      generateTokenPairWithFamily config env ts user tokenFamily =
        (ts.insert tokenString
            { ID := env.tokenID, UserID := user.ID, Token := tokenString,
              ExpiresAt := env.expiresNow + config.RefreshTokenExpiry,
              CreatedAt := env.createdNow, IsRevoked := false, TokenFamily := tokenFamily },
          .ok { AccessToken := accessToken, RefreshToken := tokenString,
                ExpiresAt := Unix (env.accessNow + config.AccessTokenExpiry),
                TokenType := "Bearer" })) := by
  cases hs : env.signed with
  | error e => exact Or.inl ⟨e, generateTokenPairWithFamily_sign_error _ _ _ _ _ e hs⟩
  | ok a =>
    cases hr : env.randToken with
    | error e => exact Or.inl ⟨e, generateTokenPairWithFamily_rand_error _ _ _ _ _ a e hs hr⟩
    | ok v => exact Or.inr ⟨a, v, rfl, rfl, generateTokenPairWithFamily_store_ok _ _ _ _ _ a v hs hr⟩

/-- A presented value that is absent or revoked: the call fails with
`service.ErrTokenRevoked` and the table is untouched. -/
theorem RefreshToken_of_dead (config : Config) (userStorage : InMemoryUserStorage)
    (env : RefreshEnv) (ts : InMemoryTokenStorage) (req : RefreshRequest)
    (h : GetRefreshToken env.now ts req.RefreshToken = .error .storage_ErrTokenNotFound ∨
      GetRefreshToken env.now ts req.RefreshToken = .error .storage_ErrTokenRevoked) :
    RefreshToken config userStorage env ts req = (ts, .error .service_ErrTokenRevoked) := by
  unfold RefreshToken
  rcases h with h | h <;> simp [h, extractTokenFamilyFromToken]

/-- A presented value that is stored, not revoked and expired: the call fails with
`service.ErrTokenExpired` and the table is untouched. -/
theorem RefreshToken_of_expired (config : Config) (userStorage : InMemoryUserStorage)
    (env : RefreshEnv) (ts : InMemoryTokenStorage) (req : RefreshRequest)
    (h : GetRefreshToken env.now ts req.RefreshToken = .error .storage_ErrTokenExpired) :
    RefreshToken config userStorage env ts req = (ts, .error .service_ErrTokenExpired) := by
  unfold RefreshToken
  simp [h]

/-- A live presented value whose subject is missing. -/
theorem RefreshToken_of_no_user (config : Config) (userStorage : InMemoryUserStorage)
    (env : RefreshEnv) (ts : InMemoryTokenStorage) (req : RefreshRequest)
    (token : models.RefreshToken) (e : Err)
    (h : GetRefreshToken env.now ts req.RefreshToken = .ok token)
    (hu : GetUserByID userStorage token.UserID = .error e) :
    RefreshToken config userStorage env ts req = (ts, .error .service_ErrTokenInvalid) := by
  unfold RefreshToken
  simp [h, hu]

/-- A live value is stored, so revoking it succeeds. -/
theorem RevokeRefreshToken_of_live (now : Int) (ts : InMemoryTokenStorage) (tokenString : String)
    (token : models.RefreshToken) (h : GetRefreshToken now ts tokenString = .ok token) :
    ts.lookup tokenString = some token ∧ token.IsRevoked = false ∧ ¬ now > token.ExpiresAt ∧
    RevokeRefreshToken ts tokenString =
      (ts.replace tokenString (markRevoked token), .ok ()) := by
  have h3 := (GetRefreshToken_eq_ok_iff now ts tokenString token).1 h
  refine ⟨h3.1, h3.2.1, h3.2.2, ?_⟩
  simp [RevokeRefreshToken, h3.1]

/-- A live presented value whose subject exists: the presented entry is revoked when
rotation is on, then the minting step runs, and a failed minting revokes the family
when rotation is on. -/
theorem RefreshToken_of_live (config : Config) (userStorage : InMemoryUserStorage)
    (env : RefreshEnv) (ts : InMemoryTokenStorage) (req : RefreshRequest)
    (token : models.RefreshToken) (user : User)
    (h : GetRefreshToken env.now ts req.RefreshToken = .ok token)
    (hu : GetUserByID userStorage token.UserID = .ok user) :
    RefreshToken config userStorage env ts req =
      match generateTokenPairWithFamily config env.mint
          (if config.EnableTokenRotation then ts.replace req.RefreshToken (markRevoked token)
            else ts) user token.TokenFamily with
      | (ts2, .error err) =>
        (if config.EnableTokenRotation
          then (storage.RevokeTokenFamily ts2 token.TokenFamily).1 else ts2, .error err)
      | (ts2, .ok tokenPair) => (ts2, .ok tokenPair) := by
  have hrev := (RevokeRefreshToken_of_live env.now ts req.RefreshToken token h).2.2.2
  unfold RefreshToken
  simp only [h, hu]
  by_cases hrot : config.EnableTokenRotation = true
  · simp only [hrot, if_true, hrev]
  · simp only [hrot, if_false]
    simp

end service

/-! ## Invariants of the table along sequences of operations -/

namespace service

open models storage config

/-- When the presented value cannot be fetched, `RefreshToken` leaves the table alone. -/
theorem RefreshToken_of_error (config : Config) (userStorage : InMemoryUserStorage)
    (env : RefreshEnv) (ts : InMemoryTokenStorage) (req : RefreshRequest) (e : Err)
    (h : GetRefreshToken env.now ts req.RefreshToken = .error e) :
    (RefreshToken config userStorage env ts req).1 = ts ∧
    ∃ e', (RefreshToken config userStorage env ts req).2 = .error e' := by
  unfold RefreshToken
  simp only [h, extractTokenFamilyFromToken]
  split_ifs with h1 h2 h3
  · exact absurd rfl h2
  all_goals simp

/-- Every outcome of `RefreshToken`, with the table it leaves. -/
theorem RefreshToken_cases (config : Config) (userStorage : InMemoryUserStorage)
    (env : RefreshEnv) (ts : InMemoryTokenStorage) (req : RefreshRequest) :
    ((RefreshToken config userStorage env ts req).1 = ts ∧
      ∃ e, (RefreshToken config userStorage env ts req).2 = .error e) ∨
    (∃ token, ts.lookup req.RefreshToken = some token ∧ token.IsRevoked = false ∧
      ((∃ e, RefreshToken config userStorage env ts req =
          (if config.EnableTokenRotation
            then (storage.RevokeTokenFamily
              (ts.replace req.RefreshToken (markRevoked token)) token.TokenFamily).1
            else ts, .error e)) ∨
       (∃ newToken pair, env.mint.randToken = .ok newToken.Token ∧
          newToken.IsRevoked = false ∧ newToken.TokenFamily = token.TokenFamily ∧
          pair.RefreshToken = newToken.Token ∧
          RefreshToken config userStorage env ts req =
            ((if config.EnableTokenRotation
                then ts.replace req.RefreshToken (markRevoked token) else ts).insert
              newToken.Token newToken, .ok pair)))) := by
  cases hg : GetRefreshToken env.now ts req.RefreshToken with
  | error e => exact Or.inl (RefreshToken_of_error config userStorage env ts req e hg)
  | ok token =>
    obtain ⟨hl, hr, -, -⟩ := RevokeRefreshToken_of_live env.now ts req.RefreshToken token hg
    cases hu : GetUserByID userStorage token.UserID with
    | error e =>
      left
      rw [RefreshToken_of_no_user config userStorage env ts req token e hg hu]
      exact ⟨rfl, _, rfl⟩
    | ok user =>
      right
      refine ⟨token, hl, hr, ?_⟩
      rw [RefreshToken_of_live config userStorage env ts req token user hg hu]
      rcases generateTokenPairWithFamily_cases config env.mint
        (if config.EnableTokenRotation then ts.replace req.RefreshToken (markRevoked token)
          else ts) user token.TokenFamily with ⟨e, he⟩ | ⟨a, v, -, hrand, he⟩
      · left
        refine ⟨e, ?_⟩
        rw [he]
        by_cases hrot : config.EnableTokenRotation = true <;> simp [hrot]
      · right
        rw [he]
        exact ⟨⟨env.mint.tokenID, user.ID, v, env.mint.expiresNow + config.RefreshTokenExpiry,
          env.mint.createdNow, false, token.TokenFamily⟩,
          ⟨a, v, Unix (env.mint.accessNow + config.AccessTokenExpiry), "Bearer"⟩,
          hrand, rfl, rfl, rfl, rfl⟩

/-- An operation that generates no credential with the value `r` keeps `r` dead. -/
theorem Dead_apply (config : Config) (r : String) (s : InMemoryTokenStorage) (op : Op)
    (hd : Dead r s) (hm : op.minted ≠ some r) : Dead r (op.apply config s) := by
  cases op with
  | issuePair user tokenFamily env =>
    simp only [Op.apply, generateTokenPair]
    rcases generateTokenPairWithFamily_cases config env s user tokenFamily with
      ⟨e, he⟩ | ⟨a, v, -, hrand, he⟩
    · rw [he]; exact hd
    · rw [he]
      have hne : r ≠ v := by
        intro h; apply hm; simp [Op.minted, hrand, h]
      intro token ht
      rw [AList.lookup_insert_ne hne] at ht
      exact hd token ht
  | refreshToken userStorage env req =>
    simp only [Op.apply]
    rcases RefreshToken_cases config userStorage env s req with
      ⟨hs, -⟩ | ⟨token, hl, hr, ⟨e, he⟩ | ⟨newToken, pair, hrand, -, -, -, he⟩⟩
    · rw [hs]; exact hd
    · rw [he]
      intro t ht
      by_cases hrot : config.EnableTokenRotation = true
      · simp only [hrot, if_true, lookup_RevokeTokenFamily, lookup_replace] at ht
        by_cases hk : r = req.RefreshToken
        · simp [hk, hl] at ht
          rw [← ht]; split <;> rfl
        · simp only [hk, if_false] at ht
          cases hlr : s.lookup r with
          | none => simp [hlr] at ht
          | some t0 =>
            have h0 := hd t0 hlr
            simp [hlr] at ht
            rw [← ht]; split
            · rfl
            · exact h0
      · simp only [hrot] at ht
        exact hd t ht
    · rw [he]
      have hne : r ≠ newToken.Token := by
        intro h; apply hm; simp [Op.minted, hrand, h]
      intro t ht
      rw [AList.lookup_insert_ne hne] at ht
      by_cases hrot : config.EnableTokenRotation = true
      · simp only [hrot, if_true, lookup_replace] at ht
        by_cases hk : r = req.RefreshToken
        · simp [hk, hl] at ht
          rw [← ht]; rfl
        · simp only [hk, if_false] at ht
          exact hd t ht
      · simp only [hrot] at ht
        exact hd t ht
  | logout userID =>
    intro t ht
    simp only [Op.apply, Logout, lookup_RevokeAllUserTokens] at ht
    cases hlr : s.lookup r with
    | none => simp [hlr] at ht
    | some t0 =>
      have h0 := hd t0 hlr
      simp [hlr] at ht
      rw [← ht]; split
      · rfl
      · exact h0
  | revokeTokenFamily now tokenString =>
    intro t ht
    simp only [Op.apply, service.RevokeTokenFamily] at ht
    cases hg : GetRefreshToken now s tokenString with
    | error e => simp only [hg] at ht; exact hd t ht
    | ok token =>
      simp only [hg, lookup_RevokeTokenFamily] at ht
      cases hlr : s.lookup r with
      | none => simp [hlr] at ht
      | some t0 =>
        have h0 := hd t0 hlr
        simp [hlr] at ht
        rw [← ht]; split
        · rfl
        · exact h0
  | getTokenStatus now now1 now2 tokenString => exact hd
  | cleanupExpiredTokens now =>
    intro t ht
    simp only [Op.apply, lookup_CleanupExpiredTokens] at ht
    cases hlr : s.lookup r with
    | none => simp [hlr, Option.filter] at ht
    | some t0 =>
      have h0 := hd t0 hlr
      simp only [hlr, Option.filter] at ht
      split at ht
      · cases ht; exact h0
      · cases ht

/-- A sequence of operations none of which generates the value `r` keeps `r` dead. -/
theorem Dead_run (config : Config) (r : String) (ops : List Op) (s : InMemoryTokenStorage)
    (hd : Dead r s) (hm : ∀ op ∈ ops, op.minted ≠ some r) : Dead r (run config ops s) := by
  induction ops generalizing s with
  | nil => exact hd
  | cons op rest ih =>
    simp only [run, List.foldl_cons]
    exact ih _ (Dead_apply config r s op hd (hm op (List.mem_cons_self _ _)))
      (fun o ho => hm o (List.mem_cons_of_mem _ ho))

end service

/-! ## At most one current credential per family -/

namespace storage

open models

/-- If every non-revoked entry of `s'` was already a non-revoked entry of `s` under the
same key and in the same family, `s'` inherits the invariant from `s`. -/
theorem OneCurrentPerFamily_of_subset (s s' : InMemoryTokenStorage)
    (hsub : ∀ k t', s'.lookup k = some t' → t'.IsRevoked = false →
      ∃ t, s.lookup k = some t ∧ t.IsRevoked = false ∧ t.TokenFamily = t'.TokenFamily)
    (h : OneCurrentPerFamily s) : OneCurrentPerFamily s' := by
  intro k1 k2 t1 t2 h1 h2 hf hr1 hr2
  obtain ⟨u1, hu1, hur1, huf1⟩ := hsub k1 t1 h1 hr1
  obtain ⟨u2, hu2, hur2, huf2⟩ := hsub k2 t2 h2 hr2
  exact h k1 k2 u1 u2 hu1 hu2 (by rw [huf1, huf2, hf]) hur1 hur2

/-- A loop that only sets revoked flags keeps the invariant. -/
theorem OneCurrentPerFamily_forEachToken (s : InMemoryTokenStorage) (c : RefreshToken → Prop)
    [DecidablePred c] (h : OneCurrentPerFamily s) :
    OneCurrentPerFamily (forEachToken (fun token => if c token then markRevoked token else token) s) := by
  apply OneCurrentPerFamily_of_subset s _ _ h
  intro k t' ht' hr'
  rw [lookup_forEachToken] at ht'
  cases hl : s.lookup k with
  | none => simp [hl] at ht'
  | some t =>
    simp only [hl, Option.map_some', Option.some.injEq] at ht'
    by_cases hc : c t
    · simp only [hc, if_true] at ht'
      rw [← ht'] at hr'; cases hr'
    · simp only [hc, if_false] at ht'
      subst ht'
      exact ⟨t, rfl, hr', rfl⟩

/-- Revoking one entry keeps the invariant. -/
theorem OneCurrentPerFamily_replace (s : InMemoryTokenStorage) (r : String) (token : RefreshToken)
    (h : OneCurrentPerFamily s) : OneCurrentPerFamily (s.replace r (markRevoked token)) := by
  apply OneCurrentPerFamily_of_subset s _ _ h
  intro k t' ht' hr'
  rw [lookup_replace] at ht'
  by_cases hk : k = r
  · simp only [hk, if_true] at ht'
    cases hl : s.lookup r with
    | none => simp [hl] at ht'
    | some t =>
      simp only [hl, Option.map_some', Option.some.injEq] at ht'
      rw [← ht'] at hr'; cases hr'
  · simp only [hk, if_false] at ht'
    exact ⟨t', ht', hr', rfl⟩

/-- Deleting entries keeps the invariant. -/
theorem OneCurrentPerFamily_retainTokens (s : InMemoryTokenStorage) (keep : RefreshToken → Bool)
    (h : OneCurrentPerFamily s) : OneCurrentPerFamily (retainTokens keep s) := by
  apply OneCurrentPerFamily_of_subset s _ _ h
  intro k t' ht' hr'
  rw [lookup_retainTokens] at ht'
  cases hl : s.lookup k with
  | none => simp [hl, Option.filter] at ht'
  | some t =>
    simp only [hl, Option.filter] at ht'
    split at ht'
    · cases ht'; exact ⟨_, rfl, hr', rfl⟩
    · cases ht'

/-- Storing a credential whose family has no non-revoked entry under another key keeps
the invariant. -/
theorem OneCurrentPerFamily_insert (s : InMemoryTokenStorage) (token : RefreshToken)
    (hnew : ∀ k t, k ≠ token.Token → s.lookup k = some t → t.IsRevoked = false →
      t.TokenFamily ≠ token.TokenFamily)
    (h : OneCurrentPerFamily s) : OneCurrentPerFamily (s.insert token.Token token) := by
  intro k1 k2 t1 t2 h1 h2 hf hr1 hr2
  by_cases hk1 : k1 = token.Token
  · by_cases hk2 : k2 = token.Token
    · rw [hk1, hk2]
    · exfalso
      rw [hk1, AList.lookup_insert] at h1
      rw [AList.lookup_insert_ne hk2] at h2
      cases h1
      exact hnew k2 t2 hk2 h2 hr2 hf.symm
  · by_cases hk2 : k2 = token.Token
    · exfalso
      rw [hk2, AList.lookup_insert] at h2
      rw [AList.lookup_insert_ne hk1] at h1
      cases h2
      exact hnew k1 t1 hk1 h1 hr1 hf
    · rw [AList.lookup_insert_ne hk1] at h1
      rw [AList.lookup_insert_ne hk2] at h2
      exact h k1 k2 t1 t2 h1 h2 hf hr1 hr2

/-- In a list without duplicate keys, a property that at most one key satisfies holds
for at most one entry. -/
theorem length_filter_le_one (p : (_ : String) × RefreshToken → Bool) :
    ∀ (l : List ((_ : String) × RefreshToken)), l.NodupKeys →
      (∀ e1 ∈ l, ∀ e2 ∈ l, p e1 = true → p e2 = true → e1.1 = e2.1) →
      (l.filter p).length ≤ 1
  | [], _, _ => by simp
  | e :: l, nd, h => by
    have hnd := List.nodupKeys_cons.1 nd
    have ih := length_filter_le_one p l hnd.2
      (fun e1 h1 e2 h2 => h e1 (List.mem_cons_of_mem _ h1) e2 (List.mem_cons_of_mem _ h2))
    by_cases hp : p e = true
    · have hnil : l.filter p = [] := by
        rw [List.filter_eq_nil_iff]
        intro e' he' hp'
        have hk := h e (List.mem_cons_self _ _) e' (List.mem_cons_of_mem _ he') hp hp'
        exact hnd.1 (hk ▸ List.mem_keys_of_mem he')
      simp [List.filter_cons, hp, hnil]
    · simp [List.filter_cons, hp, ih]

end storage

namespace service

open models storage config

/-- The invariant bounds the list of current credentials of each family. -/
theorem currentOfFamily_length_le_one (s : InMemoryTokenStorage) (tokenFamily : String)
    (h : OneCurrentPerFamily s) : (currentOfFamily s tokenFamily).length ≤ 1 := by
  unfold currentOfFamily GetAllTokens
  simp only [List.filter_map, List.length_map]
  apply length_filter_le_one _ s.entries s.nodupKeys
  intro e1 h1 e2 h2 hp1 hp2
  obtain ⟨k1, t1⟩ := e1
  obtain ⟨k2, t2⟩ := e2
  simp only [Function.comp, Bool.and_eq_true, decide_eq_true_eq, Bool.not_eq_true',
    ] at hp1 hp2
  exact h k1 k2 t1 t2 (AList.mem_lookup_iff.2 h1) (AList.mem_lookup_iff.2 h2)
    (by rw [hp1.1, hp2.1]) hp1.2 hp2.2

/-- With rotation enabled, every operation whose generated values are fresh keeps the
invariant. -/
theorem OneCurrentPerFamily_apply (config : Config) (hrot : config.EnableTokenRotation = true)
    (s : InMemoryTokenStorage) (op : Op) (hf : op.Fresh s) (h : OneCurrentPerFamily s) :
    OneCurrentPerFamily (op.apply config s) := by
  cases op with
  | issuePair user tokenFamily env =>
    simp only [Op.apply, generateTokenPair]
    rcases generateTokenPairWithFamily_cases config env s user tokenFamily with
      ⟨e, he⟩ | ⟨a, v, -, -, he⟩
    · rw [he]; exact h
    · rw [he]
      exact OneCurrentPerFamily_insert s
        { ID := env.tokenID, UserID := user.ID, Token := v,
          ExpiresAt := env.expiresNow + config.RefreshTokenExpiry,
          CreatedAt := env.createdNow, IsRevoked := false, TokenFamily := tokenFamily }
        (fun k t _ hl _ => hf.2 user tokenFamily env rfl k t hl) h
  | refreshToken userStorage env req =>
    simp only [Op.apply]
    rcases RefreshToken_cases config userStorage env s req with
      ⟨hs, -⟩ | ⟨token, hl, hr, ⟨e, he⟩ | ⟨newToken, pair, -, -, hfam, -, he⟩⟩
    · rw [hs]; exact h
    · rw [he]
      simp only [hrot, if_true, storage.RevokeTokenFamily]
      exact OneCurrentPerFamily_forEachToken _ (fun t => t.TokenFamily = token.TokenFamily)
        (OneCurrentPerFamily_replace s req.RefreshToken token h)
    · rw [he]
      simp only [hrot, if_true]
      apply OneCurrentPerFamily_insert _ newToken _
        (OneCurrentPerFamily_replace s req.RefreshToken token h)
      intro k t _ hk hrev hfam'
      rw [lookup_replace] at hk
      by_cases hkr : k = req.RefreshToken
      · simp only [hkr, if_true, hl, Option.map_some', Option.some.injEq] at hk
        rw [← hk] at hrev; cases hrev
      · simp only [hkr, if_false] at hk
        exact hkr (h k req.RefreshToken t token hk hl (by rw [hfam', hfam]) hrev hr)
  | logout userID =>
    simp only [Op.apply, Logout, RevokeAllUserTokens]
    exact OneCurrentPerFamily_forEachToken s (fun t => t.UserID = userID) h
  | revokeTokenFamily now tokenString =>
    simp only [Op.apply, service.RevokeTokenFamily]
    cases hg : GetRefreshToken now s tokenString with
    | error e => exact h
    | ok token =>
      simp only [storage.RevokeTokenFamily]
      exact OneCurrentPerFamily_forEachToken s (fun t => t.TokenFamily = token.TokenFamily) h
  | getTokenStatus now now1 now2 tokenString => exact h
  | cleanupExpiredTokens now =>
    simp only [Op.apply, CleanupExpiredTokens]
    exact OneCurrentPerFamily_retainTokens s _ h

/-- With rotation enabled, every store reached by calls that run one after another
satisfies the invariant. -/
theorem OneCurrentPerFamily_of_ReachableSequentially (config : Config)
    (hrot : config.EnableTokenRotation = true) (s : InMemoryTokenStorage)
    (h : ReachableSequentially config s) : OneCurrentPerFamily s := by
  induction h with
  | empty =>
    intro k1 k2 t1 t2 h1
    simp at h1
  | step s op _ hf ih => exact OneCurrentPerFamily_apply config hrot s op hf ih

end service

/-! ## The step model agrees with `RefreshToken` -/

namespace service

open models storage config

/-- A finished call stays finished. -/
theorem runAlone_done (config : Config) (userStorage : InMemoryUserStorage) (env : RefreshEnv)
    (req : RefreshRequest) (result : Result TokenPair) (ts : InMemoryTokenStorage) (n : Nat) :
    RefreshPC.runAlone config userStorage env req n (.done result, ts) = (.done result, ts) := by
  induction n with
  | zero => rfl
  | succ n ih => simpa [RefreshPC.runAlone, RefreshPC.step] using ih

theorem runAlone_succ (config : Config) (userStorage : InMemoryUserStorage) (env : RefreshEnv)
    (req : RefreshRequest) (n : Nat) (pc : RefreshPC) (ts : InMemoryTokenStorage) :
    RefreshPC.runAlone config userStorage env req (n + 1) (pc, ts) =
      RefreshPC.runAlone config userStorage env req n
        (RefreshPC.step config userStorage env req ts pc) := rfl

/-- Run without interleaving, the steps of a call compute `RefreshToken`: after five
steps the call has returned the result of `RefreshToken` and left its store. -/
theorem runAlone_eq_RefreshToken (config : Config) (userStorage : InMemoryUserStorage)
    (env : RefreshEnv) (ts : InMemoryTokenStorage) (req : RefreshRequest) :
    RefreshPC.runAlone config userStorage env req 5 (.start, ts) =
      (.done (RefreshToken config userStorage env ts req).2,
        (RefreshToken config userStorage env ts req).1) := by
  have h5 : (5 : Nat) = 4 + 1 := rfl
  have h4 : (4 : Nat) = 3 + 1 := rfl
  have h3 : (3 : Nat) = 2 + 1 := rfl
  have h2 : (2 : Nat) = 1 + 1 := rfl
  rw [h5, runAlone_succ]
  cases hg : GetRefreshToken env.now ts req.RefreshToken with
  | error e =>
    have hstep : RefreshPC.step config userStorage env req ts .start =
        (.done (RefreshToken config userStorage env ts req).2,
          (RefreshToken config userStorage env ts req).1) := by
      unfold RefreshToken
      simp only [RefreshPC.step, hg, extractTokenFamilyFromToken]
      split_ifs with k1 k2 k3
      · exact absurd rfl k2
      all_goals rfl
    rw [hstep, runAlone_done]
  | ok token =>
    have hstep : RefreshPC.step config userStorage env req ts .start = (.fetched token, ts) := by
      simp only [RefreshPC.step, hg]
    rw [hstep, h4, runAlone_succ]
    cases hu : GetUserByID userStorage token.UserID with
    | error e =>
      have hstep2 : RefreshPC.step config userStorage env req ts (.fetched token) =
          (.done (.error .service_ErrTokenInvalid), ts) := by
        simp only [RefreshPC.step, hu]
      rw [hstep2, runAlone_done, RefreshToken_of_no_user config userStorage env ts req token e hg hu]
    | ok user =>
      have hstep2 : RefreshPC.step config userStorage env req ts (.fetched token) =
          (.userFound token user, ts) := by
        simp only [RefreshPC.step, hu]
      have hrev := (RevokeRefreshToken_of_live env.now ts req.RefreshToken token hg).2.2.2
      have hstep3 : RefreshPC.step config userStorage env req ts (.userFound token user) =
          (.minting token user,
            if config.EnableTokenRotation then ts.replace req.RefreshToken (markRevoked token)
            else ts) := by
        by_cases hrot : config.EnableTokenRotation = true
        · simp only [RefreshPC.step, hrot, if_true, hrev]
        · simp only [RefreshPC.step, hrot]
          simp
      rw [hstep2, h3, runAlone_succ, hstep3, h2, runAlone_succ,
        RefreshToken_of_live config userStorage env ts req token user hg hu]
      rcases hgen : generateTokenPairWithFamily config env.mint
          (if config.EnableTokenRotation then ts.replace req.RefreshToken (markRevoked token)
            else ts) user token.TokenFamily with ⟨ts2, r2⟩
      cases r2 with
      | ok pair =>
        have hstep4 : RefreshPC.step config userStorage env req
            (if config.EnableTokenRotation then ts.replace req.RefreshToken (markRevoked token)
              else ts) (.minting token user) = (.done (.ok pair), ts2) := by
          simp only [RefreshPC.step, hgen]
        rw [hstep4, runAlone_done]
      | error e =>
        by_cases hrot : config.EnableTokenRotation = true
        · have hstep4 : RefreshPC.step config userStorage env req
              (if config.EnableTokenRotation then ts.replace req.RefreshToken (markRevoked token)
                else ts) (.minting token user) = (.mintFailed token e, ts2) := by
            simp only [hrot, if_true] at hgen
            simp only [RefreshPC.step, hrot, if_true, hgen]
          rw [hstep4, runAlone_succ]
          simp only [RefreshPC.step, RefreshPC.runAlone, hrot, if_true]
        · have hstep4 : RefreshPC.step config userStorage env req
              (if config.EnableTokenRotation then ts.replace req.RefreshToken (markRevoked token)
                else ts) (.minting token user) = (.done (.error e), ts2) := by
            simp only [hrot] at hgen
            simp only [RefreshPC.step, hrot, hgen]
            simp
          rw [hstep4, runAlone_done]
          simp only [hrot]
          simp

end service

/-! ## Shape of the table after the revoking loops -/

namespace storage

open models

/-- A loop over the entries neither adds nor removes a key. -/
theorem keys_forEachToken (f : RefreshToken → RefreshToken) (s : InMemoryTokenStorage) :
    (forEachToken f s).keys = s.keys := by
  simp [forEachToken, AList.keys, List.keys, Function.comp_def]

/-- Running an idempotent update over the entries twice is running it once. -/
theorem forEachToken_idem (f : RefreshToken → RefreshToken) (hf : ∀ t, f (f t) = f t)
    (s : InMemoryTokenStorage) : forEachToken f (forEachToken f s) = forEachToken f s := by
  apply AList.ext
  simp [forEachToken, Function.comp_def, hf]

/-- Setting the revoked flag twice is setting it once. -/
theorem markRevoked_idem (t : RefreshToken) : markRevoked (markRevoked t) = markRevoked t := rfl

/-- The update of the revoking loops is idempotent. -/
theorem revokeIf_idem (c : RefreshToken → Prop) [DecidablePred c]
    (hc : ∀ t, c (markRevoked t) ↔ c t) (t : RefreshToken) :
    (fun token => if c token then markRevoked token else token)
        ((fun token => if c token then markRevoked token else token) t) =
      (fun token => if c token then markRevoked token else token) t := by
  by_cases h : c t
  · simp [h, (hc t).2 h, markRevoked_idem]
  · simp [h]

/-- Overwriting the value under a key twice with the same value is overwriting it
once. -/
theorem kreplace_kreplace (k : String) (v : RefreshToken) :
    ∀ l : List ((_ : String) × RefreshToken),
      List.kreplace k v (List.kreplace k v l) = List.kreplace k v l
  | [] => by simp [List.kreplace]
  | ⟨a, b⟩ :: l => by
    by_cases ha : k = a
    · subst ha
      have h1 : ∀ (x : RefreshToken), List.kreplace k v (⟨k, x⟩ :: l) = ⟨k, v⟩ :: l := by
        intro x; simp [List.kreplace, List.lookmap_cons_some]
      rw [h1 b, h1 v]
    · have h1 : ∀ (m : List ((_ : String) × RefreshToken)),
          List.kreplace k v (⟨a, b⟩ :: m) = ⟨a, b⟩ :: List.kreplace k v m := by
        intro m; simp [List.kreplace, List.lookmap_cons_none, ha]
      rw [h1 l, h1 (List.kreplace k v l), kreplace_kreplace k v l]

theorem replace_replace (s : InMemoryTokenStorage) (k : String) (v : RefreshToken) :
    (s.replace k v).replace k v = s.replace k v := by
  apply AList.ext
  simp [AList.replace, kreplace_kreplace]

end storage

/-! ## What the operations keep of a stored entry -/

namespace storage

open models

theorem SameButFlag_refl (t : RefreshToken) : SameButFlag t t := ⟨rfl, id⟩

theorem SameButFlag_trans {t t' t'' : RefreshToken} (h1 : SameButFlag t t')
    (h2 : SameButFlag t' t'') : SameButFlag t t'' := by
  obtain ⟨e1, f1⟩ := h1
  obtain ⟨e2, f2⟩ := h2
  refine ⟨?_, fun h => f2 (f1 h)⟩
  rw [e2, e1]

theorem SameButFlag_markRevoked (t : RefreshToken) : SameButFlag t (markRevoked t) :=
  ⟨rfl, fun _ => rfl⟩

/-- The fields other than the revoked flag agree. -/
theorem SameButFlag_fields {t t' : RefreshToken} (h : SameButFlag t t') :
    t'.ID = t.ID ∧ t'.UserID = t.UserID ∧ t'.Token = t.Token ∧ t'.CreatedAt = t.CreatedAt ∧
    t'.ExpiresAt = t.ExpiresAt ∧ t'.TokenFamily = t.TokenFamily ∧
    (t.IsRevoked = true → t'.IsRevoked = true) := by
  obtain ⟨e, f⟩ := h
  refine ⟨?_, ?_, ?_, ?_, ?_, ?_, f⟩ <;> rw [e]

theorem Keeps_refl (v : String) (s : InMemoryTokenStorage) : Keeps v s s :=
  fun t h => ⟨t, h, SameButFlag_refl t⟩

theorem Keeps_trans {v : String} {s s' s'' : InMemoryTokenStorage} (h1 : Keeps v s s')
    (h2 : Keeps v s' s'') : Keeps v s s'' := by
  intro t ht
  obtain ⟨t', ht', hs'⟩ := h1 t ht
  obtain ⟨t'', ht'', hs''⟩ := h2 t' ht'
  exact ⟨t'', ht'', SameButFlag_trans hs' hs''⟩

/-- Storing a credential under another value keeps the entry of `v`. -/
theorem Keeps_insert (v : String) (s : InMemoryTokenStorage) (token : RefreshToken)
    (hne : token.Token ≠ v) : Keeps v s (s.insert token.Token token) := by
  intro t ht
  exact ⟨t, by rw [AList.lookup_insert_ne (Ne.symm hne)]; exact ht, SameButFlag_refl t⟩

/-- Revoking the entry stored under `k` keeps the entry of `v` but for the flag. -/
theorem Keeps_replace (v k : String) (s : InMemoryTokenStorage) (x : RefreshToken)
    (hx : s.lookup k = some x) : Keeps v s (s.replace k (markRevoked x)) := by
  intro t ht
  by_cases hk : v = k
  · subst hk
    rw [hx] at ht; cases ht
    exact ⟨markRevoked x, by simp [lookup_replace, hx], SameButFlag_markRevoked x⟩
  · exact ⟨t, by simp [lookup_replace, hk, ht], SameButFlag_refl t⟩

/-- A revoking loop keeps the entry of `v` but for the flag. -/
theorem Keeps_forEachToken (v : String) (s : InMemoryTokenStorage) (c : RefreshToken → Prop)
    [DecidablePred c] :
    Keeps v s (forEachToken (fun token => if c token then markRevoked token else token) s) := by
  intro t ht
  rw [lookup_forEachToken, ht]
  by_cases hc : c t
  · exact ⟨markRevoked t, by simp [hc], SameButFlag_markRevoked t⟩
  · exact ⟨t, by simp [hc], SameButFlag_refl t⟩

/-- `RevokeRefreshToken` keeps the entry of `v` but for the flag. -/
theorem Keeps_RevokeRefreshToken (v k : String) (s : InMemoryTokenStorage) :
    Keeps v s (RevokeRefreshToken s k).1 := by
  unfold RevokeRefreshToken
  cases hl : s.lookup k with
  | none => exact Keeps_refl v s
  | some x => exact Keeps_replace v k s x hl

/-- The sweep removes the entry of `v` when it has expired and keeps it otherwise. -/
theorem lookup_CleanupExpiredTokens_of_some (now : Int) (s : InMemoryTokenStorage) (v : String)
    (t : RefreshToken) (ht : s.lookup v = some t) :
    ((CleanupExpiredTokens now s).1.lookup v = none ∧ now > t.ExpiresAt) ∨
    (CleanupExpiredTokens now s).1.lookup v = some t := by
  rw [lookup_CleanupExpiredTokens, ht]
  by_cases he : now > t.ExpiresAt
  · left; simp [Option.filter, he]
  · right; simp [Option.filter, he]

/-- Every entry of the table is stored under its own `Token` field. -/
theorem keyed_apply (s : InMemoryTokenStorage) (op : StoreOp)
    (h : ∀ k t, s.lookup k = some t → t.Token = k) :
    ∀ k t, (op.apply s).lookup k = some t → t.Token = k := by
  intro k t hk
  cases op with
  | Create x =>
    simp only [StoreOp.apply, lookup_StoreRefreshToken] at hk
    by_cases hx : k = x.Token
    · simp only [hx, if_true, Option.some.injEq] at hk; rw [← hk, hx]
    · simp only [hx, if_false] at hk; exact h k t hk
  | FetchLive now v => exact h k t hk
  | RevokeOne v =>
    cases hs : s.lookup k with
    | none =>
      simp only [StoreOp.apply, lookup_RevokeRefreshToken] at hk
      by_cases hkv : k = v
      · subst hkv; simp [hs] at hk
      · simp [hkv, hs] at hk
    | some t0 =>
      obtain ⟨t', ht', hsame⟩ := Keeps_RevokeRefreshToken k v s t0 hs
      simp only [StoreOp.apply] at hk
      rw [ht'] at hk; cases hk
      rw [(SameButFlag_fields hsame).2.2.1]; exact h k t0 hs
  | RevokeAllForSubject u =>
    cases hs : s.lookup k with
    | none => simp [StoreOp.apply, lookup_RevokeAllUserTokens, hs] at hk
    | some t0 =>
      obtain ⟨t', ht', hsame⟩ := Keeps_forEachToken k s (fun x => x.UserID = u) t0 hs
      simp only [StoreOp.apply, RevokeAllUserTokens] at hk
      rw [ht'] at hk; cases hk
      rw [(SameButFlag_fields hsame).2.2.1]; exact h k t0 hs
  | RevokeAllForFamily f =>
    cases hs : s.lookup k with
    | none => simp [StoreOp.apply, lookup_RevokeTokenFamily, hs] at hk
    | some t0 =>
      obtain ⟨t', ht', hsame⟩ := Keeps_forEachToken k s (fun x => x.TokenFamily = f) t0 hs
      simp only [StoreOp.apply, RevokeTokenFamily] at hk
      rw [ht'] at hk; cases hk
      rw [(SameButFlag_fields hsame).2.2.1]; exact h k t0 hs
  | Sweep now =>
    cases hs : s.lookup k with
    | none => simp [StoreOp.apply, lookup_CleanupExpiredTokens, hs, Option.filter] at hk
    | some t0 =>
      simp only [StoreOp.apply] at hk
      rcases lookup_CleanupExpiredTokens_of_some now s k t0 hs with ⟨hn, -⟩ | hsome
      · rw [hn] at hk; cases hk
      · rw [hsome] at hk; cases hk; exact h k t hs
  | ListBySubject u => exact h k t hk
  | ListAll => exact h k t hk

theorem keyed_run (ops : List StoreOp) (s : InMemoryTokenStorage)
    (h : ∀ k t, s.lookup k = some t → t.Token = k) :
    ∀ k t, (StoreOp.run ops s).lookup k = some t → t.Token = k := by
  induction ops generalizing s with
  | nil => exact h
  | cons op rest ih =>
    simp only [StoreOp.run, List.foldl_cons]
    exact ih _ (keyed_apply s op h)

/-- A sequence of reading methods leaves the store as it was. -/
theorem run_readOnly (ops : List StoreOp) (s : InMemoryTokenStorage)
    (h : ∀ op ∈ ops, op.readOnly = true) : StoreOp.run ops s = s := by
  induction ops generalizing s with
  | nil => rfl
  | cons op rest ih =>
    simp only [StoreOp.run, List.foldl_cons]
    have hop := h op (List.mem_cons_self _ _)
    have hs : op.apply s = s := by
      cases op <;> first | rfl | simp [StoreOp.readOnly] at hop
    rw [hs]
    exact ih s (fun o ho => h o (List.mem_cons_of_mem _ ho))

/-- An entry of the value `r` that a method of the store other than a
`StoreRefreshToken` of a credential with that value leaves in the table is revoked or is
the earlier entry `token` of `r` but for the flag. -/
theorem sameOrRevoked_storeApply (r : String) (token : RefreshToken)
    (s : InMemoryTokenStorage) (op : StoreOp)
    (hs : ∀ t, s.lookup r = some t → t.IsRevoked = true ∨ SameButFlag token t)
    (hc : ∀ x, op = .Create x → x.Token ≠ r) :
    ∀ t, (op.apply s).lookup r = some t → t.IsRevoked = true ∨ SameButFlag token t := by
  have hmap : ∀ (f : RefreshToken → RefreshToken) (s' : InMemoryTokenStorage),
      (∀ x, f x = x ∨ f x = markRevoked x) → s'.lookup r = (s.lookup r).map f →
      ∀ t, s'.lookup r = some t → t.IsRevoked = true ∨ SameButFlag token t := by
    intro f s' hf hlk t ht
    rw [hlk] at ht
    cases h0 : s.lookup r with
    | none => rw [h0] at ht; cases ht
    | some t0 =>
      rw [h0] at ht
      simp only [Option.map_some', Option.some.injEq] at ht
      rcases hf t0 with h | h
      · rw [h] at ht; subst ht; exact hs t0 h0
      · rw [h] at ht; subst ht; exact Or.inl rfl
  intro t ht
  cases op with
  | Create x =>
    simp only [StoreOp.apply, lookup_StoreRefreshToken] at ht
    have hne : r ≠ x.Token := fun h => hc x rfl h.symm
    simp only [hne, if_false] at ht
    exact hs t ht
  | FetchLive now k => exact hs t ht
  | RevokeOne k =>
    simp only [StoreOp.apply, lookup_RevokeRefreshToken] at ht
    by_cases hk : r = k
    · subst hk
      simp only [if_true] at ht
      exact hmap markRevoked (RevokeRefreshToken s r).1 (fun x => Or.inr rfl)
        (by simp [lookup_RevokeRefreshToken]) t (by simp [lookup_RevokeRefreshToken, ht])
    · simp only [hk, if_false] at ht
      exact hs t ht
  | RevokeAllForSubject u =>
    refine hmap (fun x => if x.UserID = u then markRevoked x else x) _ ?_
      (lookup_RevokeAllUserTokens s u r) t ht
    intro x; by_cases hx : x.UserID = u <;> simp [hx]
  | RevokeAllForFamily f =>
    refine hmap (fun x => if x.TokenFamily = f then markRevoked x else x) _ ?_
      (lookup_RevokeTokenFamily s f r) t ht
    intro x; by_cases hx : x.TokenFamily = f <;> simp [hx]
  | Sweep now =>
    simp only [StoreOp.apply, lookup_CleanupExpiredTokens] at ht
    cases h0 : s.lookup r with
    | none => rw [h0] at ht; cases ht
    | some t0 =>
      rw [h0] at ht
      have : t0 = t := by
        by_cases hk : (!decide (now > t0.ExpiresAt)) = true
        · simpa [Option.filter, hk] using ht
        · simp [Option.filter, hk] at ht
      subst this
      exact hs t0 h0
  | ListBySubject u => exact hs t ht
  | ListAll => exact hs t ht

/-- The same along a sequence of calls of the store's methods. -/
theorem sameOrRevoked_storeRun (r : String) (token : RefreshToken) (ops : List StoreOp)
    (s : InMemoryTokenStorage)
    (hs : ∀ t, s.lookup r = some t → t.IsRevoked = true ∨ SameButFlag token t)
    (hc : ∀ x, StoreOp.Create x ∈ ops → x.Token ≠ r) :
    ∀ t, (StoreOp.run ops s).lookup r = some t →
      t.IsRevoked = true ∨ SameButFlag token t := by
  induction ops generalizing s with
  | nil => exact hs
  | cons op rest ih =>
    simp only [StoreOp.run, List.foldl_cons]
    exact ih _
      (sameOrRevoked_storeApply r token s op hs
        (fun x hx => hc x (by rw [hx]; exact List.mem_cons_self _ _)))
      (fun x hx => hc x (List.mem_cons_of_mem _ hx))

end storage

namespace service

open models storage config

/-- An engine operation that generates no credential with the value `v` keeps the
entry of `v` but for the flag, unless it is a sweep after the entry's expiry. -/
theorem frame_apply (config : Config) (s : InMemoryTokenStorage) (op : Op) (v : String)
    (t : models.RefreshToken) (hl : s.lookup v = some t) (hm : op.minted ≠ some v) :
    ((op.apply config s).lookup v = none ∧
      ∃ now, op = .cleanupExpiredTokens now ∧ now > t.ExpiresAt) ∨
    (∃ t', (op.apply config s).lookup v = some t' ∧ SameButFlag t t') := by
  cases op with
  | issuePair user tokenFamily env =>
    right
    simp only [Op.apply, generateTokenPair]
    rcases generateTokenPairWithFamily_cases config env s user tokenFamily with
      ⟨e, he⟩ | ⟨a, x, -, hrand, he⟩
    · rw [he]; exact Keeps_refl v s t hl
    · rw [he]
      have hne : x ≠ v := by
        intro h; apply hm; simp [Op.minted, hrand, h]
      exact Keeps_insert v s
        { ID := env.tokenID, UserID := user.ID, Token := x,
          ExpiresAt := env.expiresNow + config.RefreshTokenExpiry,
          CreatedAt := env.createdNow, IsRevoked := false, TokenFamily := tokenFamily }
        hne t hl
  | refreshToken userStorage env req =>
    right
    simp only [Op.apply]
    rcases RefreshToken_cases config userStorage env s req with
      ⟨hs, -⟩ | ⟨token, htok, -, ⟨e, he⟩ | ⟨newToken, pair, hrand, -, -, -, he⟩⟩
    · rw [hs]; exact Keeps_refl v s t hl
    · rw [he]
      by_cases hrot : config.EnableTokenRotation = true
      · simp only [hrot, if_true, storage.RevokeTokenFamily]
        exact Keeps_trans (Keeps_replace v req.RefreshToken s token htok)
          (Keeps_forEachToken v _ (fun x => x.TokenFamily = token.TokenFamily)) t hl
      · simp only [hrot]
        exact Keeps_refl v s t hl
    · rw [he]
      have hne : newToken.Token ≠ v := by
        intro h; apply hm; simp [Op.minted, hrand, h]
      by_cases hrot : config.EnableTokenRotation = true
      · simp only [hrot, if_true]
        exact Keeps_trans (Keeps_replace v req.RefreshToken s token htok)
          (Keeps_insert v _ newToken hne) t hl
      · simp only [hrot]
        exact Keeps_insert v s newToken hne t hl
  | logout userID =>
    right
    simp only [Op.apply, Logout, RevokeAllUserTokens]
    exact Keeps_forEachToken v s (fun x => x.UserID = userID) t hl
  | revokeTokenFamily now tokenString =>
    right
    simp only [Op.apply, service.RevokeTokenFamily]
    cases hg : GetRefreshToken now s tokenString with
    | error e => exact Keeps_refl v s t hl
    | ok token =>
      simp only [storage.RevokeTokenFamily]
      exact Keeps_forEachToken v s (fun x => x.TokenFamily = token.TokenFamily) t hl
  | getTokenStatus now now1 now2 tokenString => exact Or.inr (Keeps_refl v s t hl)
  | cleanupExpiredTokens now =>
    simp only [Op.apply]
    rcases lookup_CleanupExpiredTokens_of_some now s v t hl with ⟨hn, he⟩ | hsome
    · exact Or.inl ⟨hn, now, rfl, he⟩
    · exact Or.inr ⟨t, hsome, SameButFlag_refl t⟩

/-- An entry of the value `r` that a sequence of engine operations generating no
credential with that value leaves in the table is revoked or is the earlier entry
`token` of `r` but for the flag. -/
theorem sameOrRevoked_run (config : Config) (r : String) (token : models.RefreshToken)
    (ops : List Op) (s : InMemoryTokenStorage)
    (hs : ∀ t, s.lookup r = some t → t.IsRevoked = true ∨ SameButFlag token t)
    (hm : ∀ op ∈ ops, op.minted ≠ some r) :
    ∀ t, (run config ops s).lookup r = some t → t.IsRevoked = true ∨ SameButFlag token t := by
  induction ops generalizing s with
  | nil => exact hs
  | cons op rest ih =>
    simp only [run, List.foldl_cons]
    have hop := hm op (List.mem_cons_self _ _)
    refine ih _ ?_ (fun o ho => hm o (List.mem_cons_of_mem _ ho))
    intro t1 h1
    cases hl : s.lookup r with
    | none =>
      exact Or.inl (Dead_apply config r s op (fun x hx => by rw [hl] at hx; cases hx) hop t1 h1)
    | some t0 =>
      rcases hs t0 hl with hrev | hsame
      · exact Or.inl (Dead_apply config r s op
          (fun x hx => by rw [hl] at hx; cases hx; exact hrev) hop t1 h1)
      · rcases frame_apply config s op r t0 hl hop with ⟨hn, -⟩ | ⟨t', ht', hst⟩
        · rw [hn] at h1; cases h1
        · rw [ht'] at h1; cases h1
          exact Or.inr (SameButFlag_trans hsame hst)

end service

/-! ## The QR table and the counters of the database view -/

namespace storage

open models

theorem lookup_replace_qr (s : InMemoryQRCodeStorage) (k k' : String) (v : QRCode) :
    (s.replace k v).lookup k' =
      if k' = k then (s.lookup k).map (fun _ => v) else s.lookup k' := by
  obtain ⟨l, nd⟩ := s
  unfold AList.replace AList.lookup
  simp only
  induction l with
  | nil => simp [List.kreplace]
  | cons e l ih =>
    obtain ⟨a, b⟩ := e
    have hnd := List.nodupKeys_cons.1 nd
    have hcons : ∀ (m : List ((_ : String) × QRCode)) (x : String) (y : QRCode) (z : String),
        ¬ z = x → (⟨x, y⟩ :: m : List ((_ : String) × QRCode)).dlookup z = m.dlookup z :=
      fun m x y z hz => List.dlookup_cons_ne m ⟨x, y⟩ hz
    by_cases ha : k = a
    · subst ha
      have hrep : List.kreplace k v (⟨k, b⟩ :: l) = ⟨k, v⟩ :: l := by
        simp [List.kreplace, List.lookmap_cons_some]
      rw [hrep]
      by_cases h : k' = k
      · subst h; simp [List.dlookup_cons_eq]
      · simp [h, hcons l k v k' h, hcons l k b k' h]
    · have hrep : List.kreplace k v (⟨a, b⟩ :: l) = ⟨a, b⟩ :: List.kreplace k v l := by
        simp [List.kreplace, List.lookmap_cons_none, ha]
      rw [hrep]
      by_cases h : k' = a
      · subst h
        have hne : ¬ k' = k := fun hk => ha hk.symm
        simp [List.dlookup_cons_eq, hne]
      · rw [hcons _ a b k' h, hcons _ a b k' h, hcons _ a b k ha, ih hnd.2]

/-- A code that is marked used stays marked used under every call of
`MarkQRCodeAsUsed`. -/
theorem used_MarkQRCodeAsUsed (now usedNow : Int) (s : InMemoryQRCodeStorage)
    (id id' ipAddress : String)
    (h : ∃ q, s.lookup id = some q ∧ q.IsUsed = true) :
    ∃ q, (MarkQRCodeAsUsed now usedNow s id' ipAddress).1.lookup id = some q ∧
      q.IsUsed = true := by
  obtain ⟨q, hq, hu⟩ := h
  unfold MarkQRCodeAsUsed
  cases hl : s.lookup id' with
  | none => exact ⟨q, hq, hu⟩
  | some q' =>
    by_cases hu' : q'.IsUsed = true
    · simp only [hu', if_true]; exact ⟨q, hq, hu⟩
    · by_cases he : now > q'.ExpiresAt
      · simp only [hu', he, if_true, if_false]; exact ⟨q, hq, hu⟩
      · simp only [hu', he, if_false]
        by_cases hid : id = id'
        · subst hid
          exact ⟨{ q' with IsUsed := true, UsedAt := some usedNow, IPAddress := ipAddress },
            by simp [lookup_replace_qr, hl], rfl⟩
        · exact ⟨q, by simp [lookup_replace_qr, hid, hq], hu⟩

theorem used_markAll (calls : List MarkCall) (s : InMemoryQRCodeStorage) (id : String)
    (h : ∃ q, s.lookup id = some q ∧ q.IsUsed = true) :
    ∃ q, (markAll calls s).lookup id = some q ∧ q.IsUsed = true := by
  induction calls generalizing s with
  | nil => exact h
  | cons c rest ih =>
    simp only [markAll, List.foldl_cons]
    exact ih _ (used_MarkQRCodeAsUsed c.now c.usedNow s id c.id c.ipAddress h)

theorem lookup_retainQRCodes (keep : QRCode → Bool) (s : InMemoryQRCodeStorage) (k : String) :
    (retainQRCodes keep s).lookup k = (s.lookup k).filter keep := by
  obtain ⟨l, nd⟩ := s
  unfold retainQRCodes AList.lookup
  simp only
  induction l with
  | nil => simp [Option.filter]
  | cons e l ih =>
    obtain ⟨a, b⟩ := e
    have hnd := List.nodupKeys_cons.1 nd
    have hcons : ∀ (m : List ((_ : String) × QRCode)) (z : String),
        ¬ z = a → (⟨a, b⟩ :: m : List ((_ : String) × QRCode)).dlookup z = m.dlookup z :=
      fun m z hz => List.dlookup_cons_ne m ⟨a, b⟩ hz
    by_cases h : k = a
    · subst h
      by_cases hb : keep b = true
      · simp [List.filter_cons, hb, List.dlookup_cons_eq, Option.filter]
      · have hnot : k ∉ (l.filter (fun e => keep e.2)).keys := by
          intro hm
          obtain ⟨b', hb'⟩ := List.mem_keys.1 hm
          exact hnd.1 (List.mem_keys.2 ⟨b', (List.filter_sublist l).subset hb'⟩)
        simp [List.filter_cons, hb, List.dlookup_cons_eq, Option.filter,
          List.dlookup_eq_none.2 hnot]
    · by_cases hb : keep b = true
      · simp only [List.filter_cons, hb, if_true]
        rw [hcons _ k h, hcons _ k h]
        exact ih hnd.2
      · simp only [List.filter_cons, hb]
        rw [hcons _ k h]
        simpa using ih hnd.2

/-- A code that is absent or marked used stays so under every method of the table
other than a `CreateQRCode` with its id. -/
theorem usedOrAbsent_apply (s : InMemoryQRCodeStorage) (op : QROp) (id : String)
    (hop : ∀ x, op = .create x → x.ID ≠ id)
    (h : ∀ q, s.lookup id = some q → q.IsUsed = true) :
    ∀ q, (op.apply s).lookup id = some q → q.IsUsed = true := by
  intro q hq
  cases op with
  | create x =>
    simp only [QROp.apply, CreateQRCode] at hq
    rw [AList.lookup_insert_ne (Ne.symm (hop x rfl))] at hq
    exact h q hq
  | get k => exact h q hq
  | getByData d => exact h q hq
  | markUsed c =>
    cases hs : s.lookup id with
    | none =>
      simp only [QROp.apply, MarkQRCodeAsUsed] at hq
      cases hl : s.lookup c.id with
      | none => simp only [hl] at hq; rw [hs] at hq; cases hq
      | some q' =>
        simp only [hl] at hq
        split_ifs at hq with h1 h2
        · rw [hs] at hq; cases hq
        · rw [hs] at hq; cases hq
        · rw [lookup_replace_qr] at hq
          by_cases hid : id = c.id
          · rw [hid, hl] at hs; cases hs
          · simp [hid, hs] at hq
    | some q0 =>
      obtain ⟨q1, hq1, hu1⟩ := used_MarkQRCodeAsUsed c.now c.usedNow s id c.id c.ipAddress
        ⟨q0, hs, h q0 hs⟩
      simp only [QROp.apply] at hq
      rw [hq1] at hq; cases hq; exact hu1
  | getAll => exact h q hq
  | getActive now => exact h q hq
  | cleanup now =>
    simp only [QROp.apply, CleanupExpiredQRCodes, lookup_retainQRCodes] at hq
    cases hs : s.lookup id with
    | none => simp [hs, Option.filter] at hq
    | some q0 =>
      simp only [hs, Option.filter] at hq
      split at hq
      · cases hq; exact h _ hs
      · cases hq
  | delete k =>
    simp only [QROp.apply, DeleteQRCode] at hq
    cases hl : s.lookup k with
    | none => simp only [hl] at hq; exact h q hq
    | some q' =>
      simp only [hl] at hq
      by_cases hid : id = k
      · subst hid; rw [AList.lookup_erase] at hq; cases hq
      · rw [AList.lookup_erase_ne hid] at hq; exact h q hq

theorem usedOrAbsent_run (ops : List QROp) (s : InMemoryQRCodeStorage) (id : String)
    (hops : ∀ x, QROp.create x ∈ ops → x.ID ≠ id)
    (h : ∀ q, s.lookup id = some q → q.IsUsed = true) :
    ∀ q, (QROp.run ops s).lookup id = some q → q.IsUsed = true := by
  induction ops generalizing s with
  | nil => exact h
  | cons op rest ih =>
    simp only [QROp.run, List.foldl_cons]
    exact ih _ (fun x hx => hops x (List.mem_cons_of_mem _ hx))
      (usedOrAbsent_apply s op id (fun x hx => hops x (hx ▸ List.mem_cons_self _ _)) h)

/-- A used code stays stored and used, with its expiry, under every method of the table
other than a `CreateQRCode` or `DeleteQRCode` with its id and a cleanup after its
expiry. -/
theorem usedAndStored_apply (s : InMemoryQRCodeStorage) (op : QROp) (id : String)
    (expiry : Int)
    (hcreate : ∀ x, op = .create x → x.ID ≠ id) (hdelete : op ≠ .delete id)
    (hcleanup : ∀ now, op = .cleanup now → now ≤ expiry)
    (h : ∃ q, s.lookup id = some q ∧ q.IsUsed = true ∧ q.ExpiresAt = expiry) :
    ∃ q, (op.apply s).lookup id = some q ∧ q.IsUsed = true ∧ q.ExpiresAt = expiry := by
  obtain ⟨q, hq, hu, he⟩ := h
  cases op with
  | create x =>
    refine ⟨q, ?_, hu, he⟩
    simp only [QROp.apply, CreateQRCode]
    rw [AList.lookup_insert_ne (Ne.symm (hcreate x rfl))]; exact hq
  | get k => exact ⟨q, hq, hu, he⟩
  | getByData d => exact ⟨q, hq, hu, he⟩
  | markUsed c =>
    simp only [QROp.apply, MarkQRCodeAsUsed]
    cases hl : s.lookup c.id with
    | none => exact ⟨q, hq, hu, he⟩
    | some q' =>
      by_cases hu' : q'.IsUsed = true
      · simp only [hu', if_true]; exact ⟨q, hq, hu, he⟩
      · by_cases hx : c.now > q'.ExpiresAt
        · simp only [hu', hx, if_true, if_false]; exact ⟨q, hq, hu, he⟩
        · simp only [hu', hx, if_false]
          by_cases hid : id = c.id
          · rw [hid, hl] at hq; cases hq; exact absurd hu hu'
          · exact ⟨q, by simp [lookup_replace_qr, hid, hq], hu, he⟩
  | getAll => exact ⟨q, hq, hu, he⟩
  | getActive now => exact ⟨q, hq, hu, he⟩
  | cleanup now =>
    refine ⟨q, ?_, hu, he⟩
    have hle : ¬ now > q.ExpiresAt := by
      rw [he]; exact not_lt.2 (hcleanup now rfl)
    simp [QROp.apply, CleanupExpiredQRCodes, lookup_retainQRCodes, hq, Option.filter, hle]
  | delete k =>
    have hid : id ≠ k := fun hk => hdelete (by rw [hk])
    refine ⟨q, ?_, hu, he⟩
    simp only [QROp.apply, DeleteQRCode]
    cases hl : s.lookup k with
    | none => exact hq
    | some q' => simp only []; rw [AList.lookup_erase_ne hid]; exact hq

theorem usedAndStored_run (ops : List QROp) (s : InMemoryQRCodeStorage) (id : String)
    (expiry : Int)
    (hcreate : ∀ x, QROp.create x ∈ ops → x.ID ≠ id) (hdelete : QROp.delete id ∉ ops)
    (hcleanup : ∀ now, QROp.cleanup now ∈ ops → now ≤ expiry)
    (h : ∃ q, s.lookup id = some q ∧ q.IsUsed = true ∧ q.ExpiresAt = expiry) :
    ∃ q, (QROp.run ops s).lookup id = some q ∧ q.IsUsed = true ∧ q.ExpiresAt = expiry := by
  induction ops generalizing s with
  | nil => exact h
  | cons op rest ih =>
    simp only [QROp.run, List.foldl_cons]
    refine ih _ (fun x hx => hcreate x (List.mem_cons_of_mem _ hx))
      (fun hx => hdelete (List.mem_cons_of_mem _ hx))
      (fun now hx => hcleanup now (List.mem_cons_of_mem _ hx))
      (usedAndStored_apply s op id expiry
        (fun x hx => hcreate x (hx ▸ List.mem_cons_self _ _))
        (fun hx => hdelete (hx ▸ List.mem_cons_self _ _))
        (fun now hx => hcleanup now (hx ▸ List.mem_cons_self _ _)) h)

/-- A call of `MarkQRCodeAsUsed` for an id whose code, if stored, is used: it fails with
`ErrQRCodeUsed` when the code is stored and with `ErrQRCodeNotFound` when it is not. -/
theorem MarkQRCodeAsUsed_of_usedOrAbsent (s : InMemoryQRCodeStorage) (id : String)
    (later usedLater : Int) (ip : String)
    (h : ∀ q, s.lookup id = some q → q.IsUsed = true) :
    ((MarkQRCodeAsUsed later usedLater s id ip).2 = some .ErrQRCodeUsed ∧
        s.lookup id ≠ none) ∨
      ((MarkQRCodeAsUsed later usedLater s id ip).2 = some .ErrQRCodeNotFound ∧
        s.lookup id = none) := by
  cases hl : s.lookup id with
  | none => right; simp [MarkQRCodeAsUsed, hl]
  | some q => left; simp [MarkQRCodeAsUsed, hl, h q hl]


end storage

namespace service

open models storage config

/-- The loop over the tokens adds to each counter the number of tokens of its class
and leaves the other fields alone. -/
theorem foldl_countToken (now : Int) (tokens : List models.RefreshToken) (stats : DatabaseStats) :
    (tokens.foldl (countToken now) stats).RevokedTokens =
      stats.RevokedTokens + tokens.countP (fun t => t.IsRevoked) ∧
    (tokens.foldl (countToken now) stats).ExpiredTokens =
      stats.ExpiredTokens + tokens.countP (fun t => !t.IsRevoked && decide (now > t.ExpiresAt)) ∧
    (tokens.foldl (countToken now) stats).ActiveTokens =
      stats.ActiveTokens +
        tokens.countP (fun t => !t.IsRevoked && !decide (now > t.ExpiresAt)) ∧
    (tokens.foldl (countToken now) stats).TotalUsers = stats.TotalUsers := by
  induction tokens generalizing stats with
  | nil => simp
  | cons t rest ih =>
    simp only [List.foldl_cons]
    obtain ⟨h1, h2, h3, h4⟩ := ih (countToken now stats t)
    rw [h1, h2, h3, h4]
    by_cases hr : t.IsRevoked = true
    · simp [countToken, hr, List.countP_cons]; omega
    · by_cases he : now > t.ExpiresAt
      · simp [countToken, hr, he, List.countP_cons]; omega
      · simp [countToken, hr, he, List.countP_cons]; omega

/-- The loop over the QR codes leaves the token counters alone. -/
theorem foldl_countQRCode (now : Int) (qrCodes : List QRCode) (stats : DatabaseStats) :
    (qrCodes.foldl (countQRCode now) stats).RevokedTokens = stats.RevokedTokens ∧
    (qrCodes.foldl (countQRCode now) stats).ExpiredTokens = stats.ExpiredTokens ∧
    (qrCodes.foldl (countQRCode now) stats).ActiveTokens = stats.ActiveTokens := by
  induction qrCodes generalizing stats with
  | nil => simp
  | cons q rest ih =>
    simp only [List.foldl_cons]
    obtain ⟨h1, h2, h3⟩ := ih (countQRCode now stats q)
    rw [h1, h2, h3]
    unfold countQRCode
    split_ifs <;> simp

/-- The three classes of the token loop split every list of tokens. -/
theorem countP_classes (now : Int) (tokens : List models.RefreshToken) :
    tokens.countP (fun t => !t.IsRevoked && !decide (now > t.ExpiresAt)) +
      tokens.countP (fun t => t.IsRevoked) +
      tokens.countP (fun t => !t.IsRevoked && decide (now > t.ExpiresAt)) = tokens.length := by
  induction tokens with
  | nil => simp
  | cons t rest ih =>
    by_cases hr : t.IsRevoked = true
    · simp [List.countP_cons, hr] at ih ⊢; omega
    · by_cases he : now > t.ExpiresAt
      · simp [List.countP_cons, hr, he] at ih ⊢; omega
      · simp [List.countP_cons, hr, he] at ih ⊢; omega

/-- The keys that `GetRefreshToken` fetches live are as many as the stored tokens that
are neither revoked nor expired. -/
theorem countP_fetchesLive (now : Int) (s : InMemoryTokenStorage) :
    (s.keys.filter (fetchesLive now s)).length =
      (s.entries.map (fun e => e.2)).countP
        (fun t => !t.IsRevoked && !decide (now > t.ExpiresAt)) := by
  rw [AList.keys, List.keys, List.filter_map, List.length_map, List.countP_map,
    List.countP_eq_length_filter]
  congr 1
  apply List.filter_congr
  intro e he
  obtain ⟨k, t⟩ := e
  have hl : s.lookup k = some t := AList.mem_lookup_iff.2 he
  simp only [Function.comp, fetchesLive, GetRefreshToken, hl]
  by_cases hr : t.IsRevoked = true
  · simp [hr]
  · by_cases hx : now > t.ExpiresAt
    · simp [hr, hx]
    · simp [hr, hx]

end service

/-! ## Claims about the store's fetch and create -/

namespace storage

open models

/-- C3: `GetRefreshToken` returns the stored credential exactly when the value is
present, not revoked and the current time is not after its expiry; it fails with
NotFound exactly when the value is absent, with Revoked exactly when the entry is
present and revoked (expired or not), with Expired exactly when the entry is present,
not revoked and the current time is after its expiry, and with no other error. An
entry whose expiry is at or after the current time is never reported Expired. -/
theorem GetRefreshToken_kinds (now : Int) (s : InMemoryTokenStorage) (tokenString : String) :
    (∀ token, GetRefreshToken now s tokenString = .ok token ↔
        (s.lookup tokenString = some token ∧ token.IsRevoked = false ∧
          ¬ now > token.ExpiresAt)) ∧
    (GetRefreshToken now s tokenString = .error .storage_ErrTokenNotFound ↔
        s.lookup tokenString = none) ∧
    (GetRefreshToken now s tokenString = .error .storage_ErrTokenRevoked ↔
        ∃ token, s.lookup tokenString = some token ∧ token.IsRevoked = true) ∧
    (GetRefreshToken now s tokenString = .error .storage_ErrTokenExpired ↔
        ∃ token, s.lookup tokenString = some token ∧ token.IsRevoked = false ∧
          now > token.ExpiresAt) ∧
    (∀ e, GetRefreshToken now s tokenString = .error e →
        e = .storage_ErrTokenNotFound ∨ e = .storage_ErrTokenRevoked ∨
          e = .storage_ErrTokenExpired) ∧
    (∀ token, s.lookup tokenString = some token → now ≤ token.ExpiresAt →
        GetRefreshToken now s tokenString ≠ .error .storage_ErrTokenExpired) := by
  unfold GetRefreshToken
  cases hl : s.lookup tokenString with
  | none => simp
  | some t =>
    by_cases hr : t.IsRevoked = true
    · simp [hr]
    · by_cases he : now > t.ExpiresAt
      · simp [hr, he]
      · simp [hr, he]
        exact not_lt.1 he

end storage

/-! ## Claims about the failure paths of `RefreshToken` -/

namespace service

open models storage config

/-- C5: whenever `GetRefreshToken` reports NotFound or Revoked for the presented
value, `RefreshToken` returns the error `service.ErrTokenRevoked` (and so no token
pair), whatever the family recovery and the family revocation do. -/
theorem RefreshToken_dead_returns_revoked (config : Config) (userStorage : InMemoryUserStorage)
    (env : RefreshEnv) (ts : InMemoryTokenStorage) (req : RefreshRequest)
    (h : GetRefreshToken env.now ts req.RefreshToken = .error .storage_ErrTokenNotFound ∨
      GetRefreshToken env.now ts req.RefreshToken = .error .storage_ErrTokenRevoked) :
    (RefreshToken config userStorage env ts req).2 = .error .service_ErrTokenRevoked := by
  rw [RefreshToken_of_dead config userStorage env ts req h]

/-- C5 at a concrete input: an unknown value presented to the store left by a login. -/
theorem RefreshToken_dead_returns_revoked_witness :
    GetRefreshToken 5 demo.afterLogin "unknown" = .error .storage_ErrTokenNotFound ∧
    (RefreshToken config.New demo.users (demo.refreshEnv "r2" 5) demo.afterLogin
      { RefreshToken := "unknown" }).2 = .error .service_ErrTokenRevoked :=
  ⟨by decide,
    RefreshToken_dead_returns_revoked config.New demo.users (demo.refreshEnv "r2" 5)
      demo.afterLogin { RefreshToken := "unknown" } (Or.inl (by decide))⟩

/-- C6: for a presented value that is stored, not revoked and past its expiry,
`RefreshToken` returns the error `service.ErrTokenExpired`, issues no pair and leaves
the store exactly as it was, so no credential is revoked. -/
theorem RefreshToken_expired_leaves_store (config : Config) (userStorage : InMemoryUserStorage)
    (env : RefreshEnv) (ts : InMemoryTokenStorage) (req : RefreshRequest)
    (token : models.RefreshToken) (hl : ts.lookup req.RefreshToken = some token)
    (hr : token.IsRevoked = false) (he : env.now > token.ExpiresAt) :
    RefreshToken config userStorage env ts req = (ts, .error .service_ErrTokenExpired) := by
  apply RefreshToken_of_expired
  simp [GetRefreshToken, hl, hr, he]

/-- C6 at a concrete input: the value `a`, which expires at `100`, presented at `101`. -/
theorem RefreshToken_expired_leaves_store_witness :
    demo.storeA.lookup "a" = some demo.tokenA ∧
    RefreshToken config.New demo.users (demo.refreshEnv "r2" 101) demo.storeA
      { RefreshToken := "a" } = (demo.storeA, .error .service_ErrTokenExpired) :=
  ⟨by decide,
    RefreshToken_expired_leaves_store config.New demo.users (demo.refreshEnv "r2" 101)
      demo.storeA { RefreshToken := "a" } demo.tokenA (by decide) (by decide) (by decide)⟩

end service

/-! ## Claims about `StoreRefreshToken` and the revoked flag -/

namespace storage

open models

/-- C8, on the code: `StoreRefreshToken` never fails. It stores the credential under
its value, replacing an entry that was already stored under that value, and leaves
every entry stored under another value unchanged. -/
theorem StoreRefreshToken_overwrites (s : InMemoryTokenStorage) (token : RefreshToken) :
    (StoreRefreshToken s token).2 = .ok () ∧
    (StoreRefreshToken s token).1.lookup token.Token = some token ∧
    (∀ k, k ≠ token.Token → (StoreRefreshToken s token).1.lookup k = s.lookup k) := by
  refine ⟨rfl, ?_, ?_⟩
  · simp [lookup_StoreRefreshToken]
  · intro k hk
    simp [lookup_StoreRefreshToken, hk]

/-- C8 fails as stated: storing a second credential with the value `a` succeeds and
replaces the entry that was there. -/
theorem StoreRefreshToken_duplicate_counterexample :
    demo.storeA.lookup demo.tokenA2.Token = some demo.tokenA ∧
    (StoreRefreshToken demo.storeA demo.tokenA2).2 = .ok () ∧
    (StoreRefreshToken demo.storeA demo.tokenA2).1.lookup demo.tokenA2.Token =
      some demo.tokenA2 ∧
    demo.tokenA2 ≠ demo.tokenA := by
  decide

/-- C9, on the code: if the entry for `v` is revoked before a store operation, and the
operation is not a `StoreRefreshToken` of a non-revoked credential with that same
value, then afterwards `v` is either absent, which only a sweep after its expiry
brings about, or still stored and revoked. -/
theorem revoked_is_monotonic (s : InMemoryTokenStorage) (op : StoreOp) (v : String)
    (token : RefreshToken) (hl : s.lookup v = some token) (hr : token.IsRevoked = true)
    (hop : ∀ t, op = .Create t → t.Token = v → t.IsRevoked = true) :
    ((op.apply s).lookup v = none ∧ ∃ now, op = .Sweep now ∧ now > token.ExpiresAt) ∨
    (∃ token', (op.apply s).lookup v = some token' ∧ token'.IsRevoked = true) := by
  cases op with
  | Create t =>
    right
    by_cases h : v = t.Token
    · exact ⟨t, by simp [StoreOp.apply, lookup_StoreRefreshToken, h], hop t rfl h.symm⟩
    · exact ⟨token, by simp [StoreOp.apply, lookup_StoreRefreshToken, h, hl], hr⟩
  | FetchLive now k => exact Or.inr ⟨token, hl, hr⟩
  | RevokeOne k =>
    right
    by_cases h : v = k
    · subst h
      exact ⟨markRevoked token, by simp [StoreOp.apply, lookup_RevokeRefreshToken, hl], rfl⟩
    · exact ⟨token, by simp [StoreOp.apply, lookup_RevokeRefreshToken, h, hl], hr⟩
  | RevokeAllForSubject u =>
    right
    refine ⟨_, by simp [StoreOp.apply, lookup_RevokeAllUserTokens, hl]; rfl, ?_⟩
    split <;> simp [markRevoked, hr]
  | RevokeAllForFamily f =>
    right
    refine ⟨_, by simp [StoreOp.apply, lookup_RevokeTokenFamily, hl]; rfl, ?_⟩
    split <;> simp [markRevoked, hr]
  | Sweep now =>
    by_cases h : now > token.ExpiresAt
    · left
      exact ⟨by simp [StoreOp.apply, lookup_CleanupExpiredTokens, hl, Option.filter, h],
        now, rfl, h⟩
    · right
      exact ⟨token, by simp [StoreOp.apply, lookup_CleanupExpiredTokens, hl, Option.filter, h],
        hr⟩
  | ListBySubject u => exact Or.inr ⟨token, hl, hr⟩
  | ListAll => exact Or.inr ⟨token, hl, hr⟩

/-- C9 at a concrete input: revoking the family `F` leaves the revoked entry `a`
revoked. -/
theorem revoked_is_monotonic_witness :
    demo.storeRevokedA.lookup "a" = some demo.revokedA ∧
    ((((StoreOp.RevokeAllForFamily "F").apply demo.storeRevokedA).lookup "a" = none ∧
        ∃ now, StoreOp.RevokeAllForFamily "F" = .Sweep now ∧ now > demo.revokedA.ExpiresAt) ∨
      (∃ token', ((StoreOp.RevokeAllForFamily "F").apply demo.storeRevokedA).lookup "a" =
        some token' ∧ token'.IsRevoked = true)) :=
  ⟨by decide,
    revoked_is_monotonic demo.storeRevokedA (.RevokeAllForFamily "F") "a" demo.revokedA
      (by decide) (by decide) (by intro t h; cases h)⟩

/-- C9 fails as stated: storing a non-revoked credential under the value of a revoked
entry leaves that value stored and not revoked. -/
theorem revoked_cleared_by_create_counterexample :
    demo.storeRevokedA.lookup "a" = some demo.revokedA ∧
    demo.revokedA.IsRevoked = true ∧
    ((StoreOp.Create demo.tokenA2).apply demo.storeRevokedA).lookup "a" = some demo.tokenA2 ∧
    demo.tokenA2.IsRevoked = false := by
  decide

end storage

/-! ## Claims about a successful rotation -/

namespace service

open models storage config

/-- C4, on the code: for a presented value that is live and whose owning subject
exists (stored under its own id), if the signer and the random source do not fail and
the generated renewal value is not yet in the store, then `RefreshToken` succeeds and
adds exactly one entry: it is stored under the returned renewal value, is not revoked
and carries the family id and the owning-subject id of the presented credential. The
presented credential is revoked afterwards when rotation is enabled and unchanged
when it is not, and every other entry is unchanged. -/
theorem RefreshToken_rotates (config : Config) (userStorage : InMemoryUserStorage)
    (env : RefreshEnv) (ts : InMemoryTokenStorage) (req : RefreshRequest)
    (token : models.RefreshToken) (user : User) (accessToken tokenString : String)
    (hlive : GetRefreshToken env.now ts req.RefreshToken = .ok token)
    (huser : GetUserByID userStorage token.UserID = .ok user)
    (hkey : user.ID = token.UserID)
    (hsign : env.mint.signed = .ok accessToken)
    (hrand : env.mint.randToken = .ok tokenString)
    (hfresh : ts.lookup tokenString = none) :
    ∃ pair newToken,
      (RefreshToken config userStorage env ts req).2 = .ok pair ∧
      pair.RefreshToken = tokenString ∧
      (RefreshToken config userStorage env ts req).1.lookup tokenString = some newToken ∧
      newToken.Token = tokenString ∧
      newToken.IsRevoked = false ∧
      newToken.TokenFamily = token.TokenFamily ∧
      newToken.UserID = token.UserID ∧
      (RefreshToken config userStorage env ts req).1.entries.length = ts.entries.length + 1 ∧
      (config.EnableTokenRotation = true →
        (RefreshToken config userStorage env ts req).1.lookup req.RefreshToken =
          some (markRevoked token)) ∧
      (config.EnableTokenRotation = false →
        (RefreshToken config userStorage env ts req).1.lookup req.RefreshToken = some token) ∧
      (∀ k, k ≠ tokenString → k ≠ req.RefreshToken →
        (RefreshToken config userStorage env ts req).1.lookup k = ts.lookup k) := by
  obtain ⟨hl, -, -, -⟩ := RevokeRefreshToken_of_live env.now ts req.RefreshToken token hlive
  have hne : req.RefreshToken ≠ tokenString := by
    intro h; rw [h, hfresh] at hl; cases hl
  rw [RefreshToken_of_live config userStorage env ts req token user hlive huser,
    generateTokenPairWithFamily_store_ok config env.mint _ user token.TokenFamily accessToken
      tokenString hsign hrand]
  refine ⟨_, _, rfl, rfl, AList.lookup_insert _, rfl, rfl, rfl, hkey, ?_, ?_, ?_, ?_⟩
  · have hnot : tokenString ∉ (if config.EnableTokenRotation = true
        then ts.replace req.RefreshToken (markRevoked token) else ts) := by
      split
      · rw [AList.mem_replace]; exact AList.lookup_eq_none.1 hfresh
      · exact AList.lookup_eq_none.1 hfresh
    rw [AList.insert_entries_of_neg hnot, List.length_cons]
    split
    · have hk := congrArg List.length (AList.keys_replace req.RefreshToken (markRevoked token) ts)
      simp only [AList.keys, List.keys, List.length_map] at hk
      rw [hk]
    · rfl
  · intro hrot
    rw [AList.lookup_insert_ne hne]
    simp [hrot, lookup_replace, hl]
  · intro hrot
    rw [AList.lookup_insert_ne hne]
    simp [hrot, hl]
  · intro k hk1 hk2
    rw [AList.lookup_insert_ne hk1]
    split
    · simp [lookup_replace, hk2]
    · rfl

/-- C4 at a concrete input: the value `r1` of a login rotated at time `5` into `r2`. -/
theorem RefreshToken_rotates_witness :
    GetRefreshToken 5 demo.afterLogin "r1" = .ok demo.tokenR1 ∧
    ∃ pair newToken,
      (RefreshToken config.New demo.users (demo.refreshEnv "r2" 5) demo.afterLogin
        { RefreshToken := "r1" }).2 = .ok pair ∧
      pair.RefreshToken = "r2" ∧
      (RefreshToken config.New demo.users (demo.refreshEnv "r2" 5) demo.afterLogin
        { RefreshToken := "r1" }).1.lookup "r2" = some newToken ∧
      newToken.Token = "r2" ∧
      newToken.IsRevoked = false ∧
      newToken.TokenFamily = demo.tokenR1.TokenFamily ∧
      newToken.UserID = demo.tokenR1.UserID ∧
      (RefreshToken config.New demo.users (demo.refreshEnv "r2" 5) demo.afterLogin
        { RefreshToken := "r1" }).1.entries.length = demo.afterLogin.entries.length + 1 ∧
      (config.New.EnableTokenRotation = true →
        (RefreshToken config.New demo.users (demo.refreshEnv "r2" 5) demo.afterLogin
          { RefreshToken := "r1" }).1.lookup "r1" = some (markRevoked demo.tokenR1)) ∧
      (config.New.EnableTokenRotation = false →
        (RefreshToken config.New demo.users (demo.refreshEnv "r2" 5) demo.afterLogin
          { RefreshToken := "r1" }).1.lookup "r1" = some demo.tokenR1) ∧
      (∀ k, k ≠ "r2" → k ≠ "r1" →
        (RefreshToken config.New demo.users (demo.refreshEnv "r2" 5) demo.afterLogin
          { RefreshToken := "r1" }).1.lookup k = demo.afterLogin.lookup k) :=
  ⟨by decide,
    RefreshToken_rotates config.New demo.users (demo.refreshEnv "r2" 5) demo.afterLogin
      { RefreshToken := "r1" } demo.tokenR1 demo.alice "jwt" "r2" (by decide) (by decide)
      (by decide) rfl rfl (by decide)⟩

/-- C4 fails as stated: the value `r1` is live and its subject exists, yet
`RefreshToken` fails when `rand.Read` fails, and returns that error. -/
theorem RefreshToken_mint_failure_counterexample :
    GetRefreshToken 5 demo.afterLogin "r1" = .ok demo.tokenR1 ∧
    GetUserByID demo.users demo.tokenR1.UserID = .ok demo.alice ∧
    (RefreshToken config.New demo.users (demo.refreshEnvRandFails 5) demo.afterLogin
      { RefreshToken := "r1" }).2 = .error .rand_Read := by
  decide

end service

/-! ## Claims about replay of a rotated credential -/

namespace service

open models storage config

/-- C1: with rotation enabled, once `RefreshToken` has succeeded on the value `r`,
every later `RefreshToken` on `r` fails with `service.ErrTokenRevoked` and changes
nothing, whether it comes immediately or after any sequence of logins, rotations,
logouts, family revocations, status queries and sweeps. Generated renewal values are
unique: neither the successful rotation nor a later operation generates `r` again. -/
theorem RefreshToken_single_use (config : Config) (hrot : config.EnableTokenRotation = true)
    (userStorage : InMemoryUserStorage) (env : RefreshEnv) (ts : InMemoryTokenStorage)
    (req : RefreshRequest) (pair : TokenPair)
    (hok : (RefreshToken config userStorage env ts req).2 = .ok pair)
    (hfresh : pair.RefreshToken ≠ req.RefreshToken)
    (ops : List Op) (hops : ∀ op ∈ ops, op.minted ≠ some req.RefreshToken)
    (userStorage' : InMemoryUserStorage) (env' : RefreshEnv) :
    RefreshToken config userStorage' env'
        (run config ops (RefreshToken config userStorage env ts req).1) req =
      (run config ops (RefreshToken config userStorage env ts req).1,
        .error .service_ErrTokenRevoked) := by
  have hdead : Dead req.RefreshToken (RefreshToken config userStorage env ts req).1 := by
    rcases RefreshToken_cases config userStorage env ts req with
      ⟨-, e, he⟩ | ⟨token, hl, -, ⟨e, he⟩ | ⟨newToken, pair', -, -, -, hp, he⟩⟩
    · rw [he] at hok; cases hok
    · rw [he] at hok; cases hok
    · rw [he] at hok ⊢
      have hpair : pair' = pair := by simpa using hok
      have hne : req.RefreshToken ≠ newToken.Token := by
        rw [← hp, hpair]; exact fun h => hfresh h.symm
      intro t ht
      simp only [hrot, if_true] at ht
      rw [AList.lookup_insert_ne hne, lookup_replace] at ht
      simp [hl] at ht
      rw [← ht]; rfl
  apply RefreshToken_of_dead
  exact (GetRefreshToken_dead_iff _ _ _).2 (Dead_run config req.RefreshToken ops _ hdead hops)

/-- C1 at a concrete input: `r1` is rotated into `r2`; after a logout, a sweep and
another login, presenting `r1` again is refused. -/
theorem RefreshToken_single_use_witness :
    (RefreshToken config.New demo.users (demo.refreshEnv "r2" 5) demo.afterLogin
      { RefreshToken := "r1" }).2 =
      .ok { AccessToken := "jwt", RefreshToken := "r2", ExpiresAt := 120,
            TokenType := "Bearer" } ∧
    RefreshToken config.New demo.users (demo.refreshEnv "r6" 9)
        (run config.New demo.laterOps
          (RefreshToken config.New demo.users (demo.refreshEnv "r2" 5) demo.afterLogin
            { RefreshToken := "r1" }).1) { RefreshToken := "r1" } =
      (run config.New demo.laterOps
          (RefreshToken config.New demo.users (demo.refreshEnv "r2" 5) demo.afterLogin
            { RefreshToken := "r1" }).1,
        .error .service_ErrTokenRevoked) :=
  ⟨by decide,
    RefreshToken_single_use config.New rfl demo.users (demo.refreshEnv "r2" 5) demo.afterLogin
      { RefreshToken := "r1" }
      { AccessToken := "jwt", RefreshToken := "r2", ExpiresAt := 120, TokenType := "Bearer" }
      (by decide) (by decide) demo.laterOps (by decide) demo.users (demo.refreshEnv "r6" 9)⟩

/-- C2, the code at the failing input: after a login (`r1`) and one rotation (`r2`),
presenting the revoked `r1` again is refused with `service.ErrTokenRevoked`, but the
family is not revoked: `r2` is still stored non-revoked, `GetTokenStatus` reports it
valid, and a further `RefreshToken` on `r2` succeeds. -/
theorem replay_does_not_revoke_family :
    demo.afterRotation.lookup "r1" = some (markRevoked demo.tokenR1) ∧
    demo.afterRotation.lookup "r2" = some demo.tokenR2 ∧
    (RefreshToken config.New demo.users (demo.refreshEnv "r3" 6) demo.afterRotation
      { RefreshToken := "r1" }).2 = .error .service_ErrTokenRevoked ∧
    demo.afterReplay.lookup "r2" = some demo.tokenR2 ∧
    demo.tokenR2.IsRevoked = false ∧
    demo.tokenR2.TokenFamily = demo.tokenR1.TokenFamily ∧
    GetTokenStatus 7 7 7 demo.afterReplay "r2" =
      .ok { valid := true, error := none, revoked := some false, expired := some false,
            expires_at := some 1800000000005, created_at := some 5,
            token_family := some "F", user_id := some "u1" } ∧
    (RefreshToken config.New demo.users (demo.refreshEnv "r4" 7) demo.afterReplay
      { RefreshToken := "r2" }).2 =
      .ok { AccessToken := "jwt", RefreshToken := "r4", ExpiresAt := 120,
            TokenType := "Bearer" } := by
  decide

end service

/-! ## Claim about the current credential of a family -/

namespace service

open models storage config

/-- The store `demo.afterLogin` is reached by one login with fresh values. -/
theorem afterLogin_reachable : ReachableSequentially config.New demo.afterLogin :=
  ReachableSequentially.step ∅ (.issuePair demo.alice "F" (demo.mintEnv "r1" 0))
    ReachableSequentially.empty
    ⟨fun _ _ => AList.lookup_empty _, fun _ _ _ _ k token hl => by simp at hl⟩

/-- The store `demo.afterRotation` is reached by a login with fresh values followed by
a rotation with a fresh value. -/
theorem afterRotation_reachable : ReachableSequentially config.New demo.afterRotation := by
  refine ReachableSequentially.step demo.afterLogin
    (.refreshToken demo.users (demo.refreshEnv "r2" 5) { RefreshToken := "r1" })
    afterLogin_reachable ⟨?_, ?_⟩
  · intro tokenString hm
    have : tokenString = "r2" := by
      simpa [Op.minted, demo.refreshEnv, demo.mintEnv] using hm.symm
    subst this
    decide
  · intro user tokenFamily env h
    cases h

/-- When the calls run one after another, the invariant holds: with rotation enabled,
in every store reached from the empty store by logins (`generateTokenPair`),
`RefreshToken`, `Logout`, `RevokeTokenFamily`, status queries and
`CleanupExpiredTokens` whose generated family ids and renewal values are fresh, every
family id has at most one non-revoked credential. -/
theorem sequential_one_current_per_family (config : Config)
    (hrot : config.EnableTokenRotation = true) (s : InMemoryTokenStorage)
    (h : ReachableSequentially config s) (tokenFamily : String) :
    (currentOfFamily s tokenFamily).length ≤ 1 ∧ OneCurrentPerFamily s :=
  ⟨currentOfFamily_length_le_one s tokenFamily
      (OneCurrentPerFamily_of_ReachableSequentially config hrot s h),
    OneCurrentPerFamily_of_ReachableSequentially config hrot s h⟩

/-- The sequential invariant at a concrete input: after a login and one rotation the
family `F` has two entries, of which exactly one is not revoked. -/
theorem sequential_one_current_per_family_example :
    ReachableSequentially config.New demo.afterRotation ∧
    demo.afterRotation.entries.length = 2 ∧
    currentOfFamily demo.afterRotation "F" = [demo.tokenR2] ∧
    ((currentOfFamily demo.afterRotation "F").length ≤ 1 ∧
      OneCurrentPerFamily demo.afterRotation) :=
  ⟨afterRotation_reachable, by decide, by decide,
    sequential_one_current_per_family config.New rfl demo.afterRotation
      afterRotation_reachable "F"⟩

/-- C10, the code at the failing input: rotation is enabled, the store `afterLogin` is
reached by one login with a fresh family id and a fresh value, and two calls of
`RefreshToken` present its live value `r1` and take their storage steps in turn, with
the fresh and distinct generated values `r2` and `r3`. In the store they leave, the
family `F` has two non-revoked credentials, so the store does not satisfy
`OneCurrentPerFamily`. -/
theorem race_leaves_two_current_in_family :
    config.New.EnableTokenRotation = true ∧
    ReachableSequentially config.New demo.afterLogin ∧
    demo.afterLogin.lookup "r2" = none ∧
    demo.afterLogin.lookup "r3" = none ∧
    (Race.run config.New demo.users (demo.refreshEnv "r2" 5) (demo.refreshEnv "r3" 5)
        { RefreshToken := "r1" } [true, false, true, false, true, false, true, false]
        demo.raceStart).tokenStorage.lookup "r1" = some (markRevoked demo.tokenR1) ∧
    (Race.run config.New demo.users (demo.refreshEnv "r2" 5) (demo.refreshEnv "r3" 5)
        { RefreshToken := "r1" } [true, false, true, false, true, false, true, false]
        demo.raceStart).tokenStorage.lookup "r2" = some demo.tokenR2 ∧
    (Race.run config.New demo.users (demo.refreshEnv "r2" 5) (demo.refreshEnv "r3" 5)
        { RefreshToken := "r1" } [true, false, true, false, true, false, true, false]
        demo.raceStart).tokenStorage.lookup "r3" = some demo.tokenR3 ∧
    demo.tokenR2.IsRevoked = false ∧ demo.tokenR3.IsRevoked = false ∧
    demo.tokenR2.TokenFamily = demo.tokenR3.TokenFamily ∧
    (currentOfFamily
        (Race.run config.New demo.users (demo.refreshEnv "r2" 5) (demo.refreshEnv "r3" 5)
          { RefreshToken := "r1" } [true, false, true, false, true, false, true, false]
          demo.raceStart).tokenStorage "F").length = 2 ∧
    ¬ OneCurrentPerFamily
        (Race.run config.New demo.users (demo.refreshEnv "r2" 5) (demo.refreshEnv "r3" 5)
          { RefreshToken := "r1" } [true, false, true, false, true, false, true, false]
          demo.raceStart).tokenStorage := by
  refine ⟨rfl, afterLogin_reachable, by decide, by decide, by decide, by decide, by decide,
    rfl, rfl, rfl, by decide, ?_⟩
  intro h
  have hk := h "r2" "r3" demo.tokenR2 demo.tokenR3 (by decide) (by decide) rfl rfl rfl
  exact absurd hk (by decide)

end service

/-! ## Claim about two concurrent rotations -/

namespace service

open models storage config

/-- C7, the code at the failing input: two calls of `RefreshToken` present the live
value `r1` and take their steps in turn. After the first step of each, both have
fetched `r1` as live. At the end both have returned a new pair, neither has returned
`service.ErrTokenRevoked`, and the family `F` holds two non-revoked credentials. -/
theorem concurrent_rotations_both_succeed :
    (Race.run config.New demo.users (demo.refreshEnv "r2" 5) (demo.refreshEnv "r3" 5)
        { RefreshToken := "r1" } [true, false] demo.raceStart).first =
      .fetched demo.tokenR1 ∧
    (Race.run config.New demo.users (demo.refreshEnv "r2" 5) (demo.refreshEnv "r3" 5)
        { RefreshToken := "r1" } [true, false] demo.raceStart).second =
      .fetched demo.tokenR1 ∧
    (Race.run config.New demo.users (demo.refreshEnv "r2" 5) (demo.refreshEnv "r3" 5)
        { RefreshToken := "r1" } [true, false, true, false, true, false, true, false]
        demo.raceStart).first =
      .done (.ok { AccessToken := "jwt", RefreshToken := "r2", ExpiresAt := 120,
                   TokenType := "Bearer" }) ∧
    (Race.run config.New demo.users (demo.refreshEnv "r2" 5) (demo.refreshEnv "r3" 5)
        { RefreshToken := "r1" } [true, false, true, false, true, false, true, false]
        demo.raceStart).second =
      .done (.ok { AccessToken := "jwt", RefreshToken := "r3", ExpiresAt := 120,
                   TokenType := "Bearer" }) ∧
    currentOfFamily
        (Race.run config.New demo.users (demo.refreshEnv "r2" 5) (demo.refreshEnv "r3" 5)
          { RefreshToken := "r1" } [true, false, true, false, true, false, true, false]
          demo.raceStart).tokenStorage "F" =
      [demo.tokenR3, demo.tokenR2] := by
  decide

end service

/-! ## Claims about the revoking operations and the sweep of the store -/

namespace storage

open models

/-- C11: the store's `RevokeTokenFamily` always succeeds. It adds and removes no key;
every stored credential stays stored, unchanged but for its revoked flag, which is set
afterwards exactly when it was set before or the credential's family id is the given
one; a credential of another family is left as it was. -/
theorem RevokeTokenFamily_marks_family (s : InMemoryTokenStorage) (tokenFamily : String) :
    (RevokeTokenFamily s tokenFamily).2 = .ok () ∧
    (RevokeTokenFamily s tokenFamily).1.keys = s.keys ∧
    (∀ k, (RevokeTokenFamily s tokenFamily).1.lookup k = none ↔ s.lookup k = none) ∧
    (∀ k t, s.lookup k = some t →
      ∃ t', (RevokeTokenFamily s tokenFamily).1.lookup k = some t' ∧
        (t'.IsRevoked = true ↔ (t.IsRevoked = true ∨ t.TokenFamily = tokenFamily)) ∧
        t' = { t with IsRevoked := t'.IsRevoked } ∧
        (t.TokenFamily ≠ tokenFamily → t' = t)) := by
  refine ⟨rfl, keys_forEachToken _ s, ?_, ?_⟩
  · intro k
    rw [lookup_RevokeTokenFamily]
    cases s.lookup k <;> simp
  · intro k t hl
    rw [lookup_RevokeTokenFamily, hl]
    by_cases hf : t.TokenFamily = tokenFamily
    · exact ⟨markRevoked t, by simp [hf], by simp [markRevoked, hf], rfl,
        fun h => absurd hf h⟩
    · exact ⟨t, by simp [hf], by simp [hf], rfl, fun _ => rfl⟩

/-- C13: `RevokeRefreshToken` fails exactly when the value is absent, then with
`storage.ErrTokenNotFound` and without changing the store. When the value is stored,
revoked or expired or not, it succeeds and sets the revoked flag of that entry. In both
cases the keys and every entry under another value are unchanged. -/
theorem RevokeRefreshToken_marks_one (s : InMemoryTokenStorage) (tokenString : String) :
    ((RevokeRefreshToken s tokenString).2 = .error .storage_ErrTokenNotFound ↔
      s.lookup tokenString = none) ∧
    (∀ e, (RevokeRefreshToken s tokenString).2 = .error e →
      e = .storage_ErrTokenNotFound ∧ (RevokeRefreshToken s tokenString).1 = s) ∧
    (∀ t, s.lookup tokenString = some t →
      (RevokeRefreshToken s tokenString).2 = .ok () ∧
      (RevokeRefreshToken s tokenString).1.lookup tokenString =
        some { t with IsRevoked := true }) ∧
    (∀ k, k ≠ tokenString → (RevokeRefreshToken s tokenString).1.lookup k = s.lookup k) ∧
    (RevokeRefreshToken s tokenString).1.keys = s.keys := by
  refine ⟨?_, ?_, ?_, ?_, ?_⟩
  · unfold RevokeRefreshToken
    cases s.lookup tokenString <;> simp
  · intro e he
    unfold RevokeRefreshToken at he ⊢
    cases hl : s.lookup tokenString with
    | none => simp only [hl] at he ⊢; cases he; exact ⟨rfl, trivial⟩
    | some t => simp only [hl] at he; cases he
  · intro t hl
    refine ⟨by simp [RevokeRefreshToken, hl], ?_⟩
    rw [lookup_RevokeRefreshToken]
    simp [hl, markRevoked]
  · intro k hk
    rw [lookup_RevokeRefreshToken]
    simp [hk]
  · unfold RevokeRefreshToken
    cases hl : s.lookup tokenString with
    | none => rfl
    | some t => exact AList.keys_replace _ _ _

/-- C14: `CleanupExpiredTokens` at time `now` succeeds and removes exactly the stored
credentials whose expiry is strictly before `now`, revoked or not; a credential whose
expiry is at or after `now` stays stored unchanged, and nothing is added. So a
credential that `GetRefreshToken` returns at the time of the sweep is fetched after
the sweep exactly as before it, at every time. -/
theorem CleanupExpiredTokens_removes_expired (now : Int) (s : InMemoryTokenStorage) :
    (CleanupExpiredTokens now s).2 = .ok () ∧
    (∀ k, (CleanupExpiredTokens now s).1.lookup k = none ↔
      (s.lookup k = none ∨ ∃ t, s.lookup k = some t ∧ t.ExpiresAt < now)) ∧
    (∀ k t, s.lookup k = some t → t.ExpiresAt < now →
      (CleanupExpiredTokens now s).1.lookup k = none) ∧
    (∀ k t, s.lookup k = some t → now ≤ t.ExpiresAt →
      (CleanupExpiredTokens now s).1.lookup k = some t) ∧
    (∀ k t, (CleanupExpiredTokens now s).1.lookup k = some t → s.lookup k = some t) ∧
    (∀ k t, GetRefreshToken now s k = .ok t →
      ∀ later, GetRefreshToken later (CleanupExpiredTokens now s).1 k =
        GetRefreshToken later s k) := by
  have hkeep : ∀ k t, s.lookup k = some t → now ≤ t.ExpiresAt →
      (CleanupExpiredTokens now s).1.lookup k = some t := by
    intro k t hl he
    rw [lookup_CleanupExpiredTokens, hl]
    simp [Option.filter, not_lt.2 he]
  have hdrop : ∀ k t, s.lookup k = some t → t.ExpiresAt < now →
      (CleanupExpiredTokens now s).1.lookup k = none := by
    intro k t hl he
    rw [lookup_CleanupExpiredTokens, hl]
    simp [Option.filter, he]
  refine ⟨rfl, ?_, hdrop, hkeep, ?_, ?_⟩
  · intro k
    cases hl : s.lookup k with
    | none => simp [lookup_CleanupExpiredTokens, hl, Option.filter]
    | some t =>
      by_cases he : t.ExpiresAt < now
      · simp [hdrop k t hl he, he]
      · simp [hkeep k t hl (not_lt.1 he), he]
  · intro k t hl
    cases hs : s.lookup k with
    | none => simp [lookup_CleanupExpiredTokens, hs, Option.filter] at hl
    | some t0 =>
      by_cases he : t0.ExpiresAt < now
      · rw [hdrop k t0 hs he] at hl; cases hl
      · rw [hkeep k t0 hs (not_lt.1 he)] at hl; exact hl
  · intro k t hg later
    obtain ⟨hl, -, he⟩ := (GetRefreshToken_eq_ok_iff now s k t).1 hg
    unfold GetRefreshToken
    rw [hkeep k t hl (not_lt.1 he), hl]

/-- C15: calling `RevokeRefreshToken`, the store's `RevokeTokenFamily` or
`RevokeAllUserTokens` a second time with the same argument returns the same result and
leaves the same store as the first call. -/
theorem revoke_twice_eq_once (s : InMemoryTokenStorage) (arg : String) :
    RevokeRefreshToken (RevokeRefreshToken s arg).1 arg = RevokeRefreshToken s arg ∧
    RevokeTokenFamily (RevokeTokenFamily s arg).1 arg = RevokeTokenFamily s arg ∧
    RevokeAllUserTokens (RevokeAllUserTokens s arg).1 arg = RevokeAllUserTokens s arg := by
  refine ⟨?_, ?_, ?_⟩
  · cases hl : s.lookup arg with
    | none =>
      have h1 : RevokeRefreshToken s arg = (s, .error .storage_ErrTokenNotFound) := by
        simp [RevokeRefreshToken, hl]
      rw [h1]; exact h1
    | some t =>
      have h1 : RevokeRefreshToken s arg = (s.replace arg (markRevoked t), .ok ()) := by
        simp [RevokeRefreshToken, hl]
      have h2 : (s.replace arg (markRevoked t)).lookup arg = some (markRevoked t) := by
        simp [lookup_replace, hl]
      rw [h1]
      simp only [RevokeRefreshToken, h2, markRevoked_idem, replace_replace]
  · simp only [RevokeTokenFamily]
    rw [forEachToken_idem _
      (revokeIf_idem (fun t => t.TokenFamily = arg) (fun _ => Iff.rfl))]
  · simp only [RevokeAllUserTokens]
    rw [forEachToken_idem _
      (revokeIf_idem (fun t => t.UserID = arg) (fun _ => Iff.rfl))]

end storage

namespace service

open models storage config

/-- C12: `Logout`, which is `RevokeAllUserTokens`, always succeeds, also for a subject
without credentials. It adds and removes no key; every stored credential stays stored,
unchanged but for its revoked flag, which is set afterwards exactly when it was set
before or the credential is owned by the subject, whatever its family; a credential of
another subject is left as it was. Afterwards `GetRefreshToken` fails, with
`storage.ErrTokenRevoked`, for every credential of the subject. -/
theorem Logout_revokes_subject (s : InMemoryTokenStorage) (userID : String) :
    Logout s userID = RevokeAllUserTokens s userID ∧
    (Logout s userID).2 = .ok () ∧
    (Logout s userID).1.keys = s.keys ∧
    (∀ k, (Logout s userID).1.lookup k = none ↔ s.lookup k = none) ∧
    (∀ k t, s.lookup k = some t →
      ∃ t', (Logout s userID).1.lookup k = some t' ∧
        (t'.IsRevoked = true ↔ (t.IsRevoked = true ∨ t.UserID = userID)) ∧
        t' = { t with IsRevoked := t'.IsRevoked } ∧
        (t.UserID ≠ userID → t' = t)) ∧
    (∀ k t now, s.lookup k = some t → t.UserID = userID →
      GetRefreshToken now (Logout s userID).1 k = .error .storage_ErrTokenRevoked) := by
  refine ⟨rfl, rfl, keys_forEachToken _ s, ?_, ?_, ?_⟩
  · intro k
    simp only [Logout, lookup_RevokeAllUserTokens]
    cases s.lookup k <;> simp
  · intro k t hl
    simp only [Logout, lookup_RevokeAllUserTokens, hl]
    by_cases hu : t.UserID = userID
    · exact ⟨markRevoked t, by simp [hu], by simp [markRevoked, hu], rfl,
        fun h => absurd hu h⟩
    · exact ⟨t, by simp [hu], by simp [hu], rfl, fun _ => rfl⟩
  · intro k t now hl hu
    simp [GetRefreshToken, Logout, lookup_RevokeAllUserTokens, hl, hu, markRevoked]

end service

/-! ## Claims about family revocation by value and the status query -/

namespace service

open models storage config

/-- C16, on the code: the service's `RevokeTokenFamily` fetches the presented value with
`GetRefreshToken` and returns its error unchanged. It fails with
`storage.ErrTokenNotFound` exactly when the value is absent, with
`storage.ErrTokenRevoked` when the stored credential is revoked and with
`storage.ErrTokenExpired` when it is not revoked and expired, each time leaving the
store as it was. Only for a live credential does it succeed, and then it runs the
store's `RevokeTokenFamily` on the credential's family, after which every credential of
that family is revoked. -/
theorem RevokeTokenFamily_by_value (now : Int) (ts : InMemoryTokenStorage) (value : String) :
    ((RevokeTokenFamily now ts value).2 = .error .storage_ErrTokenNotFound ↔
      ts.lookup value = none) ∧
    (∀ e, (RevokeTokenFamily now ts value).2 = .error e →
      (RevokeTokenFamily now ts value).1 = ts ∧
      (e = .storage_ErrTokenNotFound ∨ e = .storage_ErrTokenRevoked ∨
        e = .storage_ErrTokenExpired)) ∧
    (∀ t, ts.lookup value = some t → t.IsRevoked = true →
      RevokeTokenFamily now ts value = (ts, .error .storage_ErrTokenRevoked)) ∧
    (∀ t, ts.lookup value = some t → t.IsRevoked = false → now > t.ExpiresAt →
      RevokeTokenFamily now ts value = (ts, .error .storage_ErrTokenExpired)) ∧
    (∀ t, ts.lookup value = some t → t.IsRevoked = false → now ≤ t.ExpiresAt →
      RevokeTokenFamily now ts value = storage.RevokeTokenFamily ts t.TokenFamily ∧
      (RevokeTokenFamily now ts value).2 = .ok () ∧
      ∀ k t', (RevokeTokenFamily now ts value).1.lookup k = some t' →
        t'.TokenFamily = t.TokenFamily → t'.IsRevoked = true) := by
  unfold service.RevokeTokenFamily GetRefreshToken
  cases hl : ts.lookup value with
  | none => simp
  | some t0 =>
    by_cases hr : t0.IsRevoked = true
    · simp [hr]
    · have hr' : t0.IsRevoked = false := by simpa using hr
      by_cases he : now > t0.ExpiresAt
      · simp [hr', he]
      · simp only [hr', he, if_false, Bool.false_eq_true]
        refine ⟨by simp [storage.RevokeTokenFamily], ?_, ?_, ?_, ?_⟩
        · intro e h; simp [storage.RevokeTokenFamily] at h
        · intro t h hrev; cases h; rw [hr'] at hrev; cases hrev
        · intro t h _ hlt; cases h; exact absurd hlt he
        · intro t h _ _
          cases h
          refine ⟨rfl, rfl, ?_⟩
          intro k t' hk hfam
          rw [lookup_RevokeTokenFamily] at hk
          cases hs : ts.lookup k with
          | none => simp [hs] at hk
          | some u =>
            simp only [hs, Option.map_some', Option.some.injEq] at hk
            by_cases hu : u.TokenFamily = t0.TokenFamily
            · simp only [hu, if_true] at hk; rw [← hk]; rfl
            · simp only [hu, if_false] at hk; rw [hk] at hu; exact absurd hfam hu

/-- C16 fails as stated: `r1` is stored and revoked, yet `RevokeTokenFamily` on `r1`
returns `storage.ErrTokenRevoked`, neither ok nor NotFound, and `r2` of the same family
stays non-revoked; the expired value `a` yields `storage.ErrTokenExpired`. -/
theorem RevokeTokenFamily_by_dead_value_counterexample :
    demo.afterRotation.lookup "r1" = some (markRevoked demo.tokenR1) ∧
    (RevokeTokenFamily 6 demo.afterRotation "r1").2 = .error .storage_ErrTokenRevoked ∧
    (RevokeTokenFamily 6 demo.afterRotation "r1").1.lookup "r2" = some demo.tokenR2 ∧
    demo.tokenR2.TokenFamily = demo.tokenR1.TokenFamily ∧
    demo.tokenR2.IsRevoked = false ∧
    demo.storeA.lookup "a" = some demo.tokenA ∧
    (RevokeTokenFamily 101 demo.storeA "a").2 = .error .storage_ErrTokenExpired ∧
    (RevokeTokenFamily 101 demo.storeA "a").1.lookup "a" = some demo.tokenA := by
  decide

/-- C17, on the code: `GetTokenStatus` never returns an error. When `GetRefreshToken`
fails it returns only `valid = false` and the error, which is
`storage.ErrTokenNotFound` exactly when the value is absent, `storage.ErrTokenRevoked`
for a stored revoked credential and `storage.ErrTokenExpired` for a stored, non-revoked,
expired one. Only for a live credential does it return the projection with the flags,
the expiry and creation times, the family id and the owner. -/
theorem GetTokenStatus_projection (now now1 now2 : Int) (ts : InMemoryTokenStorage)
    (value : String) :
    (∃ status, GetTokenStatus now now1 now2 ts value = .ok status) ∧
    (GetTokenStatus now now1 now2 ts value = .ok (failedStatus .storage_ErrTokenNotFound) ↔
      ts.lookup value = none) ∧
    (∀ t, ts.lookup value = some t → t.IsRevoked = true →
      GetTokenStatus now now1 now2 ts value =
        .ok (failedStatus .storage_ErrTokenRevoked)) ∧
    (∀ t, ts.lookup value = some t → t.IsRevoked = false → now > t.ExpiresAt →
      GetTokenStatus now now1 now2 ts value =
        .ok (failedStatus .storage_ErrTokenExpired)) ∧
    (∀ t, ts.lookup value = some t → t.IsRevoked = false → now ≤ t.ExpiresAt →
      GetTokenStatus now now1 now2 ts value =
        .ok { valid := decide (t.ExpiresAt > now1)
              error := none
              revoked := some false
              expired := some (decide (t.ExpiresAt < now2))
              expires_at := some t.ExpiresAt
              created_at := some t.CreatedAt
              token_family := some t.TokenFamily
              user_id := some t.UserID }) := by
  unfold GetTokenStatus GetRefreshToken failedStatus
  cases hl : ts.lookup value with
  | none => simp
  | some t0 =>
    by_cases hr : t0.IsRevoked = true
    · simp [hr]
    · have hr' : t0.IsRevoked = false := by simpa using hr
      by_cases he : now > t0.ExpiresAt
      · simp [hr', he]
      · simp [hr', he]
        exact not_lt.1 he

/-- C17 fails as stated: `r1` is stored and revoked, and `GetTokenStatus` returns for it
only `valid = false` and the error, without timestamps, family id or owner. -/
theorem GetTokenStatus_revoked_counterexample :
    demo.afterRotation.lookup "r1" = some (markRevoked demo.tokenR1) ∧
    GetTokenStatus 6 6 6 demo.afterRotation "r1" =
      .ok { valid := false, error := some .storage_ErrTokenRevoked, revoked := none,
            expired := none, expires_at := none, created_at := none,
            token_family := none, user_id := none } := by
  decide

end service

/-! ## Claims about issuing a pair and about failures of a rotation -/

namespace service

open models storage config

/-- C18, on the code: when `generateTokenPair` succeeds and the generated renewal value
is not yet in the store, it adds exactly one entry, stored under the returned renewal
value, owned by the subject, not revoked and carrying the new family id, and leaves
every other entry unchanged. The expiry of the new credential is the clock reading
taken for it plus the configured refresh lifetime, and its creation time is a second
clock reading: the expiry is at most the creation time plus the lifetime when the
second reading is not earlier, with equality when the two readings coincide. The
returned expiry is the reading of `generateAccessToken` plus the configured access
lifetime, in Unix seconds. -/
theorem generateTokenPair_issues (config : Config) (tokenFamily : String) (env : MintEnv)
    (ts : InMemoryTokenStorage) (user : User) (pair : TokenPair)
    (hok : (generateTokenPair config tokenFamily env ts user).2 = .ok pair)
    (hfresh : ts.lookup pair.RefreshToken = none) :
    ∃ newToken,
      (generateTokenPair config tokenFamily env ts user).1.lookup pair.RefreshToken =
        some newToken ∧
      env.randToken = .ok pair.RefreshToken ∧
      newToken.Token = pair.RefreshToken ∧
      newToken.UserID = user.ID ∧
      newToken.IsRevoked = false ∧
      newToken.TokenFamily = tokenFamily ∧
      newToken.ExpiresAt = env.expiresNow + config.RefreshTokenExpiry ∧
      newToken.CreatedAt = env.createdNow ∧
      (env.expiresNow ≤ env.createdNow →
        newToken.ExpiresAt ≤ newToken.CreatedAt + config.RefreshTokenExpiry) ∧
      (env.expiresNow = env.createdNow →
        newToken.ExpiresAt = newToken.CreatedAt + config.RefreshTokenExpiry) ∧
      (generateTokenPair config tokenFamily env ts user).1.entries.length =
        ts.entries.length + 1 ∧
      (∀ k, k ≠ pair.RefreshToken →
        (generateTokenPair config tokenFamily env ts user).1.lookup k = ts.lookup k) ∧
      pair.ExpiresAt = Unix (env.accessNow + config.AccessTokenExpiry) := by
  unfold generateTokenPair at hok ⊢
  rcases generateTokenPairWithFamily_cases config env ts user tokenFamily with
    ⟨e, he⟩ | ⟨a, v, -, hrand, he⟩
  · rw [he] at hok; cases hok
  · rw [he] at hok ⊢
    have hp : pair = ⟨a, v, Unix (env.accessNow + config.AccessTokenExpiry), "Bearer"⟩ := by
      simpa using hok.symm
    subst hp
    refine ⟨_, AList.lookup_insert _, hrand, rfl, rfl, rfl, rfl, rfl, rfl, ?_, ?_, ?_, ?_, rfl⟩
    · intro h
      exact add_le_add_right h _
    · intro h
      simp only [h]
    · rw [AList.insert_entries_of_neg (AList.lookup_eq_none.1 hfresh), List.length_cons]
    · intro k hk
      exact AList.lookup_insert_ne hk

/-- C18 at a concrete input: a login of `alice` on the empty store at time `0`. -/
theorem generateTokenPair_issues_witness :
    (generateTokenPair config.New "F" (demo.mintEnv "r1" 0) ∅ demo.alice).2 =
      .ok { AccessToken := "jwt", RefreshToken := "r1", ExpiresAt := 120,
            TokenType := "Bearer" } ∧
    ∃ newToken,
      (generateTokenPair config.New "F" (demo.mintEnv "r1" 0) ∅ demo.alice).1.lookup "r1" =
        some newToken ∧
      (demo.mintEnv "r1" 0).randToken = .ok "r1" ∧
      newToken.Token = "r1" ∧
      newToken.UserID = demo.alice.ID ∧
      newToken.IsRevoked = false ∧
      newToken.TokenFamily = "F" ∧
      newToken.ExpiresAt = (demo.mintEnv "r1" 0).expiresNow + config.New.RefreshTokenExpiry ∧
      newToken.CreatedAt = (demo.mintEnv "r1" 0).createdNow ∧
      ((demo.mintEnv "r1" 0).expiresNow ≤ (demo.mintEnv "r1" 0).createdNow →
        newToken.ExpiresAt ≤ newToken.CreatedAt + config.New.RefreshTokenExpiry) ∧
      ((demo.mintEnv "r1" 0).expiresNow = (demo.mintEnv "r1" 0).createdNow →
        newToken.ExpiresAt = newToken.CreatedAt + config.New.RefreshTokenExpiry) ∧
      (generateTokenPair config.New "F" (demo.mintEnv "r1" 0) ∅ demo.alice).1.entries.length =
        (∅ : InMemoryTokenStorage).entries.length + 1 ∧
      (∀ k, k ≠ "r1" →
        (generateTokenPair config.New "F" (demo.mintEnv "r1" 0) ∅ demo.alice).1.lookup k =
          (∅ : InMemoryTokenStorage).lookup k) ∧
      (120 : Int) = Unix ((demo.mintEnv "r1" 0).accessNow + config.New.AccessTokenExpiry) :=
  ⟨by decide,
    generateTokenPair_issues config.New "F" (demo.mintEnv "r1" 0) ∅ demo.alice
      { AccessToken := "jwt", RefreshToken := "r1", ExpiresAt := 120, TokenType := "Bearer" }
      (by decide) (by decide)⟩

/-- C18 fails as stated: the clock advances between the reading for the expiry (`5`)
and the reading for the creation time (`7`), and the stored credential's expiry is not
its creation time plus the refresh lifetime. -/
theorem generateTokenPair_expiry_counterexample :
    (generateTokenPair config.New "F" demo.mintEnvTicking ∅ demo.alice).2 =
      .ok { AccessToken := "jwt", RefreshToken := "r1", ExpiresAt := 120,
            TokenType := "Bearer" } ∧
    (generateTokenPair config.New "F" demo.mintEnvTicking ∅ demo.alice).1.lookup "r1" =
      some demo.tokenTicking ∧
    demo.tokenTicking.ExpiresAt ≠ demo.tokenTicking.CreatedAt + config.New.RefreshTokenExpiry := by
  decide

/-- C19: with rotation enabled, if the presented credential is live and its subject
exists but the signer or the random source fails with `e`, `RefreshToken` returns `e`
and no pair, adds no entry, and afterwards every stored credential of the presented
credential's family, the presented one included, is revoked; credentials of other
families are unchanged. -/
theorem RefreshToken_mint_failure_revokes_family (config : Config)
    (hrot : config.EnableTokenRotation = true) (userStorage : InMemoryUserStorage)
    (env : RefreshEnv) (ts : InMemoryTokenStorage) (req : RefreshRequest)
    (token : models.RefreshToken) (user : User) (e : Err)
    (hlive : GetRefreshToken env.now ts req.RefreshToken = .ok token)
    (huser : GetUserByID userStorage token.UserID = .ok user)
    (hfail : env.mint.signed = .error e ∨
      ∃ a, env.mint.signed = .ok a ∧ env.mint.randToken = .error e) :
    (RefreshToken config userStorage env ts req).2 = .error e ∧
    (RefreshToken config userStorage env ts req).1.lookup req.RefreshToken =
      some (markRevoked token) ∧
    (∀ k t, (RefreshToken config userStorage env ts req).1.lookup k = some t →
      t.TokenFamily = token.TokenFamily → t.IsRevoked = true) ∧
    (RefreshToken config userStorage env ts req).1.keys = ts.keys ∧
    (∀ k t, ts.lookup k = some t → t.TokenFamily ≠ token.TokenFamily →
      (RefreshToken config userStorage env ts req).1.lookup k = some t) := by
  obtain ⟨hl, -, -, -⟩ := RevokeRefreshToken_of_live env.now ts req.RefreshToken token hlive
  have hgen : generateTokenPairWithFamily config env.mint
      (if config.EnableTokenRotation then ts.replace req.RefreshToken (markRevoked token)
        else ts) user token.TokenFamily =
      (if config.EnableTokenRotation then ts.replace req.RefreshToken (markRevoked token)
        else ts, .error e) := by
    rcases hfail with hs | ⟨a, hs, hr⟩
    · exact generateTokenPairWithFamily_sign_error _ _ _ _ _ e hs
    · exact generateTokenPairWithFamily_rand_error _ _ _ _ _ a e hs hr
  rw [RefreshToken_of_live config userStorage env ts req token user hlive huser, hgen]
  simp only [hrot, if_true]
  refine ⟨trivial, ?_, ?_, ?_, ?_⟩
  · simp [lookup_RevokeTokenFamily, lookup_replace, hl, markRevoked]
  · intro k t hk hfam
    rw [lookup_RevokeTokenFamily] at hk
    cases hs : (ts.replace req.RefreshToken (markRevoked token)).lookup k with
    | none => simp [hs] at hk
    | some u =>
      simp only [hs, Option.map_some', Option.some.injEq] at hk
      by_cases hu : u.TokenFamily = token.TokenFamily
      · simp only [hu, if_true] at hk; rw [← hk]; rfl
      · simp only [hu, if_false] at hk; rw [hk] at hu; exact absurd hfam hu
  · simp only [storage.RevokeTokenFamily]
    rw [keys_forEachToken, AList.keys_replace]
  · intro k t hk hfam
    have hne : k ≠ req.RefreshToken := by
      intro h; rw [h, hl] at hk; cases hk; exact hfam rfl
    rw [lookup_RevokeTokenFamily, lookup_replace]
    simp [hne, hk, hfam]

/-- C19 at a concrete input: `r1` is live and `alice` exists, and `rand.Read` fails. -/
theorem RefreshToken_mint_failure_revokes_family_witness :
    GetRefreshToken 5 demo.afterLogin "r1" = .ok demo.tokenR1 ∧
    (RefreshToken config.New demo.users (demo.refreshEnvRandFails 5) demo.afterLogin
      { RefreshToken := "r1" }).2 = .error .rand_Read ∧
    (RefreshToken config.New demo.users (demo.refreshEnvRandFails 5) demo.afterLogin
      { RefreshToken := "r1" }).1.lookup "r1" = some (markRevoked demo.tokenR1) ∧
    (∀ k t, (RefreshToken config.New demo.users (demo.refreshEnvRandFails 5) demo.afterLogin
        { RefreshToken := "r1" }).1.lookup k = some t →
      t.TokenFamily = demo.tokenR1.TokenFamily → t.IsRevoked = true) ∧
    (RefreshToken config.New demo.users (demo.refreshEnvRandFails 5) demo.afterLogin
      { RefreshToken := "r1" }).1.keys = demo.afterLogin.keys ∧
    (∀ k t, demo.afterLogin.lookup k = some t → t.TokenFamily ≠ demo.tokenR1.TokenFamily →
      (RefreshToken config.New demo.users (demo.refreshEnvRandFails 5) demo.afterLogin
        { RefreshToken := "r1" }).1.lookup k = some t) :=
  ⟨by decide,
    RefreshToken_mint_failure_revokes_family config.New rfl demo.users
      (demo.refreshEnvRandFails 5) demo.afterLogin { RefreshToken := "r1" } demo.tokenR1
      demo.alice .rand_Read (by decide) (by decide) (Or.inr ⟨"jwt", rfl, rfl⟩)⟩

/-- C20, on the code: a failure of `RefreshToken` is `service.ErrTokenRevoked`,
`service.ErrTokenExpired`, `service.ErrTokenInvalid`, or, for a live credential whose
subject exists, the error of the signer or of the random source, returned as it is.
The revocation that follows a successful `GetRefreshToken` does not fail, so its
`storage.ErrTokenNotFound` is never the result. -/
theorem RefreshToken_failure_kinds (config : Config) (userStorage : InMemoryUserStorage)
    (env : RefreshEnv) (ts : InMemoryTokenStorage) (req : RefreshRequest) :
    (∀ e, (RefreshToken config userStorage env ts req).2 = .error e →
      e = .service_ErrTokenRevoked ∨ e = .service_ErrTokenExpired ∨
      e = .service_ErrTokenInvalid ∨
      (∃ token user, GetRefreshToken env.now ts req.RefreshToken = .ok token ∧
        GetUserByID userStorage token.UserID = .ok user ∧
        (env.mint.signed = .error e ∨ env.mint.randToken = .error e))) ∧
    (∀ token, GetRefreshToken env.now ts req.RefreshToken = .ok token →
      (RevokeRefreshToken ts req.RefreshToken).2 = .ok ()) := by
  refine ⟨?_, ?_⟩
  · intro e he
    cases hg : GetRefreshToken env.now ts req.RefreshToken with
    | error e0 =>
      unfold RefreshToken at he
      simp only [hg, extractTokenFamilyFromToken] at he
      split_ifs at he with h1 h2 h3
      · exact absurd rfl h2
      · simp at he; exact Or.inl he.symm
      · simp at he; exact Or.inr (Or.inl he.symm)
      · simp at he; exact Or.inr (Or.inr (Or.inl he.symm))
    | ok token =>
      cases hu : GetUserByID userStorage token.UserID with
      | error e1 =>
        rw [RefreshToken_of_no_user config userStorage env ts req token e1 hg hu] at he
        simp at he; exact Or.inr (Or.inr (Or.inl he.symm))
      | ok user =>
        rw [RefreshToken_of_live config userStorage env ts req token user hg hu] at he
        right; right; right
        refine ⟨token, user, rfl, hu, ?_⟩
        cases hs : env.mint.signed with
        | error e2 =>
          rw [generateTokenPairWithFamily_sign_error _ _ _ _ _ e2 hs] at he
          simp at he; left; rw [he]
        | ok a =>
          cases hr : env.mint.randToken with
          | error e3 =>
            rw [generateTokenPairWithFamily_rand_error _ _ _ _ _ a e3 hs hr] at he
            simp at he; right; rw [he]
          | ok v =>
            rw [generateTokenPairWithFamily_store_ok _ _ _ _ _ a v hs hr] at he
            simp at he
  · intro token hg
    rw [(RevokeRefreshToken_of_live env.now ts req.RefreshToken token hg).2.2.2]

/-- C20 fails as stated: `r1` is live and `alice` exists, the signer fails, and
`RefreshToken` returns the signer's error, which is none of Revoked, Expired and
Invalid. -/
theorem RefreshToken_sign_failure_counterexample :
    GetRefreshToken 5 demo.afterLogin "r1" = .ok demo.tokenR1 ∧
    (RefreshToken config.New demo.users (demo.refreshEnvSignFails 5) demo.afterLogin
      { RefreshToken := "r1" }).2 = .error .jwt_SignedString ∧
    Err.jwt_SignedString ≠ .service_ErrTokenRevoked ∧
    Err.jwt_SignedString ≠ .service_ErrTokenExpired ∧
    Err.jwt_SignedString ≠ .service_ErrTokenInvalid := by
  decide

end service

/-! ## Claims about access credentials -/

namespace service

open models storage config

/-- C21: for every input string and every behaviour of the verifier,
`ValidateAccessToken` either returns the embedded claims or fails with
`service.ErrTokenInvalid` and no other error: every error of the verifier, whatever its
kind, becomes `service.ErrTokenInvalid`, and claims are returned exactly when the
verifier returns a token without error, with claims of the expected type and marked
valid. -/
theorem ValidateAccessToken_invalid_only {ε : Type} (s : AuthService)
    (parseWithClaims : String → String → Int → jwt.ParseResult ε) (now : Int)
    (tokenString : String) :
    ((∃ claims, s.ValidateAccessToken parseWithClaims now tokenString = .ok claims) ∨
      s.ValidateAccessToken parseWithClaims now tokenString =
        .error .service_ErrTokenInvalid) ∧
    (∀ claims, s.ValidateAccessToken parseWithClaims now tokenString = .ok claims ↔
      ∃ token, parseWithClaims tokenString s.config.JWTSecret now = .ok token ∧
        token.Claims = some claims ∧ token.Valid = true) ∧
    (∀ err, parseWithClaims tokenString s.config.JWTSecret now = .error err →
      s.ValidateAccessToken parseWithClaims now tokenString =
        .error .service_ErrTokenInvalid) ∧
    (∀ e, s.ValidateAccessToken parseWithClaims now tokenString = .error e →
      e = .service_ErrTokenInvalid) := by
  unfold AuthService.ValidateAccessToken
  cases hp : parseWithClaims tokenString s.config.JWTSecret now with
  | error err => simp
  | ok token =>
    cases hc : token.Claims with
    | none => simp [hc]
    | some c =>
      by_cases hv : token.Valid = true
      · simp [hc, hv]
      · simp [hc, hv]

/-- C22: `ValidateAccessToken` reads of the service only the signing secret: for the
same token string, verifier and time it returns the same result for any two
renewal-credential stores and user tables, in particular before and after `Logout` and
before and after a family revocation, and for any two services with the same secret. -/
theorem ValidateAccessToken_ignores_store {ε : Type} (s : AuthService)
    (parseWithClaims : String → String → Int → jwt.ParseResult ε) (now : Int)
    (tokenString : String) :
    (∀ (ts : InMemoryTokenStorage) (us : InMemoryUserStorage),
      AuthService.ValidateAccessToken { s with tokenStorage := ts, userStorage := us }
          parseWithClaims now tokenString =
        s.ValidateAccessToken parseWithClaims now tokenString) ∧
    (∀ userID, (s.Logout userID).ValidateAccessToken parseWithClaims now tokenString =
      s.ValidateAccessToken parseWithClaims now tokenString) ∧
    (∀ tokenFamily,
      AuthService.ValidateAccessToken
          { s with tokenStorage := (storage.RevokeTokenFamily s.tokenStorage tokenFamily).1 }
          parseWithClaims now tokenString =
        s.ValidateAccessToken parseWithClaims now tokenString) ∧
    (∀ s' : AuthService, s'.config.JWTSecret = s.config.JWTSecret →
      s'.ValidateAccessToken parseWithClaims now tokenString =
        s.ValidateAccessToken parseWithClaims now tokenString) := by
  refine ⟨fun _ _ => rfl, fun _ => rfl, fun _ => rfl, ?_⟩
  intro s' h
  simp only [AuthService.ValidateAccessToken, h]

/-- C22 at a concrete input: after the logout of `alice` her renewal value `r1` is
refused as revoked, and her access credential validates as before the logout. -/
theorem ValidateAccessToken_ignores_store_witness :
    GetRefreshToken 5 (demo.authService.Logout "u1").tokenStorage "r1" =
      .error .storage_ErrTokenRevoked ∧
    demo.authService.ValidateAccessToken demo.parseWithClaims 5 "jwt" = .ok demo.claims ∧
    (demo.authService.Logout "u1").ValidateAccessToken demo.parseWithClaims 5 "jwt" =
      demo.authService.ValidateAccessToken demo.parseWithClaims 5 "jwt" :=
  ⟨by decide, by decide,
    (ValidateAccessToken_ignores_store demo.authService demo.parseWithClaims 5 "jwt").2.1 "u1"⟩

end service

/-! ## Claims about keys, frames and reads of the store -/

namespace storage

open models

/-- C23, on the code: in every store reached from the empty one by the store's methods,
each entry is stored under its own credential value, the `Token` field, so no two
stored credentials, live or dead, share a value. -/
theorem reachable_keys_are_values (ops : List StoreOp) :
    (∀ k t, (StoreOp.run ops ∅).lookup k = some t → t.Token = k) ∧
    (∀ k1 k2 t1 t2, (StoreOp.run ops ∅).lookup k1 = some t1 →
      (StoreOp.run ops ∅).lookup k2 = some t2 → t1.Token = t2.Token → k1 = k2 ∧ t1 = t2) ∧
    (((StoreOp.run ops ∅).entries.map (fun e => e.2)).map (fun t => t.Token)).Nodup := by
  have hk : ∀ k t, (StoreOp.run ops ∅).lookup k = some t → t.Token = k :=
    keyed_run ops ∅ (fun k t h => by simp at h)
  refine ⟨hk, ?_, ?_⟩
  · intro k1 k2 t1 t2 h1 h2 ht
    have hkk : k1 = k2 := by rw [← hk k1 t1 h1, ← hk k2 t2 h2, ht]
    subst hkk
    rw [h1] at h2; cases h2
    exact ⟨rfl, rfl⟩
  · have hmap : ((StoreOp.run ops ∅).entries.map (fun e => e.2)).map (fun t => t.Token) =
        (StoreOp.run ops ∅).keys := by
      rw [List.map_map, AList.keys, List.keys]
      apply List.map_congr_left
      intro e he
      obtain ⟨k, t⟩ := e
      exact hk k t (AList.mem_lookup_iff.2 he)
    rw [hmap]
    exact AList.keys_nodup _

/-- C23 fails as stated: the value `a`, once stored, is used again for a different
credential, by a second `StoreRefreshToken` directly and also after a sweep removed
the first one. -/
theorem value_reused_counterexample :
    (StoreOp.run [.Create demo.tokenA] ∅).lookup "a" = some demo.tokenA ∧
    (StoreOp.run [.Create demo.tokenA, .Create demo.tokenA2] ∅).lookup "a" =
      some demo.tokenA2 ∧
    (StoreOp.run [.Create demo.tokenA, .Sweep 101] ∅).lookup "a" = none ∧
    (StoreOp.run [.Create demo.tokenA, .Sweep 101, .Create demo.tokenA2] ∅).lookup "a" =
      some demo.tokenA2 ∧
    demo.tokenA2.ID ≠ demo.tokenA.ID := by
  decide

end storage

namespace service

open models storage config

/-- C24, on the code: let `v` be stored with entry `t`. After any method of the store
other than a `StoreRefreshToken` of a credential with the value `v`, and after any
engine operation that generates no credential with the value `v`, the value is either
absent, which only `CleanupExpiredTokens` after the entry's expiry brings about, or
stored with the same id, owner, value, creation time, expiry time and family id, and
with a revoked flag that was not cleared. -/
theorem stored_entry_frame (s : InMemoryTokenStorage) (v : String) (t : models.RefreshToken)
    (hl : s.lookup v = some t) :
    (∀ op : StoreOp, (∀ x, op = .Create x → x.Token ≠ v) →
      ((op.apply s).lookup v = none ∧ ∃ now, op = .Sweep now ∧ now > t.ExpiresAt) ∨
      (∃ t', (op.apply s).lookup v = some t' ∧
        t'.ID = t.ID ∧ t'.UserID = t.UserID ∧ t'.Token = t.Token ∧
        t'.CreatedAt = t.CreatedAt ∧ t'.ExpiresAt = t.ExpiresAt ∧
        t'.TokenFamily = t.TokenFamily ∧ (t.IsRevoked = true → t'.IsRevoked = true))) ∧
    (∀ (config : Config) (op : Op), op.minted ≠ some v →
      ((op.apply config s).lookup v = none ∧
        ∃ now, op = .cleanupExpiredTokens now ∧ now > t.ExpiresAt) ∨
      (∃ t', (op.apply config s).lookup v = some t' ∧
        t'.ID = t.ID ∧ t'.UserID = t.UserID ∧ t'.Token = t.Token ∧
        t'.CreatedAt = t.CreatedAt ∧ t'.ExpiresAt = t.ExpiresAt ∧
        t'.TokenFamily = t.TokenFamily ∧ (t.IsRevoked = true → t'.IsRevoked = true))) := by
  refine ⟨?_, ?_⟩
  · intro op hop
    have hkeep : ∀ s', Keeps v s s' → ∃ t', s'.lookup v = some t' ∧
        t'.ID = t.ID ∧ t'.UserID = t.UserID ∧ t'.Token = t.Token ∧
        t'.CreatedAt = t.CreatedAt ∧ t'.ExpiresAt = t.ExpiresAt ∧
        t'.TokenFamily = t.TokenFamily ∧ (t.IsRevoked = true → t'.IsRevoked = true) := by
      intro s' hk
      obtain ⟨t', ht', hsame⟩ := hk t hl
      exact ⟨t', ht', (SameButFlag_fields hsame)⟩
    cases op with
    | Create x => exact Or.inr (hkeep _ (Keeps_insert v s x (hop x rfl)))
    | FetchLive now k => exact Or.inr (hkeep _ (Keeps_refl v s))
    | RevokeOne k => exact Or.inr (hkeep _ (Keeps_RevokeRefreshToken v k s))
    | RevokeAllForSubject u =>
      exact Or.inr (hkeep _ (Keeps_forEachToken v s (fun x => x.UserID = u)))
    | RevokeAllForFamily f =>
      exact Or.inr (hkeep _ (Keeps_forEachToken v s (fun x => x.TokenFamily = f)))
    | Sweep now =>
      rcases lookup_CleanupExpiredTokens_of_some now s v t hl with ⟨hn, he⟩ | hsome
      · exact Or.inl ⟨hn, now, rfl, he⟩
      · exact Or.inr ⟨t, hsome, rfl, rfl, rfl, rfl, rfl, rfl, id⟩
    | ListBySubject u => exact Or.inr (hkeep _ (Keeps_refl v s))
    | ListAll => exact Or.inr (hkeep _ (Keeps_refl v s))
  · intro config op hm
    rcases frame_apply config s op v t hl hm with h | ⟨t', ht', hsame⟩
    · exact Or.inl h
    · exact Or.inr ⟨t', ht', (SameButFlag_fields hsame)⟩

/-- C24 at a concrete input: the entry `a` after `RevokeRefreshToken` on it and after a
logout of its owner. -/
theorem stored_entry_frame_witness :
    demo.storeA.lookup "a" = some demo.tokenA ∧
    ((((StoreOp.RevokeOne "a").apply demo.storeA).lookup "a" = none ∧
        ∃ now, StoreOp.RevokeOne "a" = .Sweep now ∧ now > demo.tokenA.ExpiresAt) ∨
      (∃ t', ((StoreOp.RevokeOne "a").apply demo.storeA).lookup "a" = some t' ∧
        t'.ID = demo.tokenA.ID ∧ t'.UserID = demo.tokenA.UserID ∧
        t'.Token = demo.tokenA.Token ∧ t'.CreatedAt = demo.tokenA.CreatedAt ∧
        t'.ExpiresAt = demo.tokenA.ExpiresAt ∧ t'.TokenFamily = demo.tokenA.TokenFamily ∧
        (demo.tokenA.IsRevoked = true → t'.IsRevoked = true))) ∧
    ((((Op.logout "u1").apply config.New demo.storeA).lookup "a" = none ∧
        ∃ now, Op.logout "u1" = .cleanupExpiredTokens now ∧ now > demo.tokenA.ExpiresAt) ∨
      (∃ t', ((Op.logout "u1").apply config.New demo.storeA).lookup "a" = some t' ∧
        t'.ID = demo.tokenA.ID ∧ t'.UserID = demo.tokenA.UserID ∧
        t'.Token = demo.tokenA.Token ∧ t'.CreatedAt = demo.tokenA.CreatedAt ∧
        t'.ExpiresAt = demo.tokenA.ExpiresAt ∧ t'.TokenFamily = demo.tokenA.TokenFamily ∧
        (demo.tokenA.IsRevoked = true → t'.IsRevoked = true))) :=
  ⟨by decide,
    (stored_entry_frame demo.storeA "a" demo.tokenA (by decide)).1 (.RevokeOne "a")
      (by intro x h; cases h),
    (stored_entry_frame demo.storeA "a" demo.tokenA (by decide)).2 config.New (.logout "u1")
      (by decide)⟩

/-- C24 fails as stated: `a` is stored with expiry `100`; a `StoreRefreshToken` of
another credential with the value `a` replaces its id, owner, creation time and family
and moves its expiry to `200`. -/
theorem stored_entry_replaced_counterexample :
    demo.storeA.lookup "a" = some demo.tokenA ∧
    ((StoreOp.Create demo.tokenA2).apply demo.storeA).lookup "a" = some demo.tokenA2 ∧
    demo.tokenA2.ID ≠ demo.tokenA.ID ∧
    demo.tokenA2.UserID ≠ demo.tokenA.UserID ∧
    demo.tokenA2.CreatedAt ≠ demo.tokenA.CreatedAt ∧
    demo.tokenA2.TokenFamily ≠ demo.tokenA.TokenFamily ∧
    demo.tokenA.ExpiresAt < demo.tokenA2.ExpiresAt := by
  decide

end service

namespace service

open models storage config

/-- C25: `GetRefreshToken` and `GetTokenStatus` do not change the store: a call of
either leaves the store it ran on, and so does every sequence of reading calls, for
every presented value, time and store. -/
theorem reads_leave_store (config : Config) (s : InMemoryTokenStorage) :
    (∀ now v, (StoreOp.FetchLive now v).apply s = s) ∧
    (∀ now now1 now2 v, (Op.getTokenStatus now now1 now2 v).apply config s = s) ∧
    (∀ ops : List StoreOp, (∀ op ∈ ops, op.readOnly = true) → StoreOp.run ops s = s) ∧
    (∀ ops : List Op, (∀ op ∈ ops, ∃ now now1 now2 v, op = .getTokenStatus now now1 now2 v) →
      run config ops s = s) := by
  refine ⟨fun _ _ => rfl, fun _ _ _ _ => rfl, fun ops h => run_readOnly ops s h, ?_⟩
  intro ops
  induction ops with
  | nil => intro _; rfl
  | cons op rest ih =>
    intro h
    obtain ⟨now, now1, now2, v, hop⟩ := h op (List.mem_cons_self _ _)
    subst hop
    simp only [run, List.foldl_cons, Op.apply]
    exact ih (fun o ho => h o (List.mem_cons_of_mem _ ho))

/-- C26: `extractTokenFamilyFromToken` returns the empty family for every input, and so
a `RefreshToken` whose presented value is reported NotFound or Revoked fails with
`service.ErrTokenRevoked` and leaves the store exactly as it was. -/
theorem RefreshToken_replay_revokes_nothing (config : Config)
    (userStorage : InMemoryUserStorage) (env : RefreshEnv) (ts : InMemoryTokenStorage)
    (req : RefreshRequest)
    (h : GetRefreshToken env.now ts req.RefreshToken = .error .storage_ErrTokenNotFound ∨
      GetRefreshToken env.now ts req.RefreshToken = .error .storage_ErrTokenRevoked) :
    (∀ tokenString, extractTokenFamilyFromToken tokenString = "") ∧
    RefreshToken config userStorage env ts req = (ts, .error .service_ErrTokenRevoked) ∧
    (RefreshToken config userStorage env ts req).1 = ts :=
  ⟨fun _ => rfl, RefreshToken_of_dead config userStorage env ts req h,
    by rw [RefreshToken_of_dead config userStorage env ts req h]⟩

/-- C26 at a concrete input: the revoked `r1` presented again after its rotation. -/
theorem RefreshToken_replay_revokes_nothing_witness :
    GetRefreshToken 6 demo.afterRotation "r1" = .error .storage_ErrTokenRevoked ∧
    (∀ tokenString, extractTokenFamilyFromToken tokenString = "") ∧
    RefreshToken config.New demo.users (demo.refreshEnv "r3" 6) demo.afterRotation
        { RefreshToken := "r1" } =
      (demo.afterRotation, .error .service_ErrTokenRevoked) ∧
    (RefreshToken config.New demo.users (demo.refreshEnv "r3" 6) demo.afterRotation
      { RefreshToken := "r1" }).1 = demo.afterRotation :=
  ⟨by decide,
    RefreshToken_replay_revokes_nothing config.New demo.users (demo.refreshEnv "r3" 6)
      demo.afterRotation { RefreshToken := "r1" } (Or.inr (by decide))⟩

/-- C27: if the presented credential is live but `GetUserByID` does not find its
owner, `RefreshToken` fails with `service.ErrTokenInvalid` and leaves the store as it
was: the presented credential is not revoked and is still fetched live. -/
theorem RefreshToken_missing_subject (config : Config) (userStorage : InMemoryUserStorage)
    (env : RefreshEnv) (ts : InMemoryTokenStorage) (req : RefreshRequest)
    (token : models.RefreshToken) (e : Err)
    (hlive : GetRefreshToken env.now ts req.RefreshToken = .ok token)
    (huser : GetUserByID userStorage token.UserID = .error e) :
    RefreshToken config userStorage env ts req = (ts, .error .service_ErrTokenInvalid) ∧
    (RefreshToken config userStorage env ts req).1.lookup req.RefreshToken = some token ∧
    token.IsRevoked = false ∧
    GetRefreshToken env.now (RefreshToken config userStorage env ts req).1 req.RefreshToken =
      .ok token := by
  obtain ⟨hl, hr, -, -⟩ := RevokeRefreshToken_of_live env.now ts req.RefreshToken token hlive
  rw [RefreshToken_of_no_user config userStorage env ts req token e hlive huser]
  exact ⟨rfl, hl, hr, hlive⟩

/-- C27 at a concrete input: `r1` is live and the user table is empty. -/
theorem RefreshToken_missing_subject_witness :
    GetRefreshToken 5 demo.afterLogin "r1" = .ok demo.tokenR1 ∧
    GetUserByID ∅ demo.tokenR1.UserID = .error .storage_ErrUserNotFound ∧
    RefreshToken config.New ∅ (demo.refreshEnv "r2" 5) demo.afterLogin
        { RefreshToken := "r1" } =
      (demo.afterLogin, .error .service_ErrTokenInvalid) ∧
    (RefreshToken config.New ∅ (demo.refreshEnv "r2" 5) demo.afterLogin
      { RefreshToken := "r1" }).1.lookup "r1" = some demo.tokenR1 ∧
    demo.tokenR1.IsRevoked = false ∧
    GetRefreshToken 5 (RefreshToken config.New ∅ (demo.refreshEnv "r2" 5) demo.afterLogin
      { RefreshToken := "r1" }).1 "r1" = .ok demo.tokenR1 :=
  ⟨by decide, by decide,
    RefreshToken_missing_subject config.New ∅ (demo.refreshEnv "r2" 5) demo.afterLogin
      { RefreshToken := "r1" } demo.tokenR1 .storage_ErrUserNotFound (by decide) (by decide)⟩

/-- C28, on the code: with rotation-on-refresh disabled, a successful `RefreshToken`
leaves the presented credential stored and non-revoked and adds a non-revoked
credential of the same family; on the store it leaves, the value is live up to its
expiry. A later presentation of the same value, on whatever store the calls in between
have left, succeeds again whenever the value is live there, its owner is found and
minting does not fail: it adds another non-revoked credential of the family of the
presented entry and leaves that entry as it is. After any sequence of engine operations
that mint no credential under the presented value, and after any sequence of calls of
the store's methods, in whatever order the calls in between take them, that stores no
credential under the presented value, the entry found live is the one that was
presented first, so the family is the same. When the value is not live any more,
the call fails and leaves the store as it was. A failed minting in this mode leaves the
store as it was, so the family is not revoked. -/
theorem RefreshToken_without_rotation (config : Config)
    (hrot : config.EnableTokenRotation = false) (userStorage : InMemoryUserStorage)
    (env : RefreshEnv) (ts : InMemoryTokenStorage) (req : RefreshRequest)
    (token : models.RefreshToken) (pair : TokenPair)
    (hlive : GetRefreshToken env.now ts req.RefreshToken = .ok token)
    (hok : (RefreshToken config userStorage env ts req).2 = .ok pair)
    (hfresh : pair.RefreshToken ≠ req.RefreshToken) :
    (RefreshToken config userStorage env ts req).1.lookup req.RefreshToken = some token ∧
    token.IsRevoked = false ∧
    (∃ newToken,
      (RefreshToken config userStorage env ts req).1.lookup pair.RefreshToken =
        some newToken ∧
      newToken.IsRevoked = false ∧ newToken.TokenFamily = token.TokenFamily) ∧
    (∀ (userStorage2 : InMemoryUserStorage) (env2 : RefreshEnv) (user2 : User)
        (accessToken2 tokenString2 : String),
      env2.now ≤ token.ExpiresAt →
      GetUserByID userStorage2 token.UserID = .ok user2 →
      env2.mint.signed = .ok accessToken2 →
      env2.mint.randToken = .ok tokenString2 →
      ∃ pair2 newToken2,
        (RefreshToken config userStorage2 env2
          (RefreshToken config userStorage env ts req).1 req).2 = .ok pair2 ∧
        pair2.RefreshToken = tokenString2 ∧
        (RefreshToken config userStorage2 env2
          (RefreshToken config userStorage env ts req).1 req).1.lookup tokenString2 =
          some newToken2 ∧
        newToken2.IsRevoked = false ∧ newToken2.TokenFamily = token.TokenFamily) ∧
    (∀ (userStorage3 : InMemoryUserStorage) (env3 : RefreshEnv) (ts3 : InMemoryTokenStorage)
        (token3 : models.RefreshToken) (user3 : User) (e : Err),
      GetRefreshToken env3.now ts3 req.RefreshToken = .ok token3 →
      GetUserByID userStorage3 token3.UserID = .ok user3 →
      (env3.mint.signed = .error e ∨
        ∃ a, env3.mint.signed = .ok a ∧ env3.mint.randToken = .error e) →
      RefreshToken config userStorage3 env3 ts3 req = (ts3, .error e)) ∧
    (∀ now2, now2 ≤ token.ExpiresAt →
      GetRefreshToken now2 (RefreshToken config userStorage env ts req).1 req.RefreshToken =
        .ok token) ∧
    (∀ (userStorage4 : InMemoryUserStorage) (env4 : RefreshEnv) (ts4 : InMemoryTokenStorage)
        (token4 : models.RefreshToken) (user4 : User) (accessToken4 tokenString4 : String),
      GetRefreshToken env4.now ts4 req.RefreshToken = .ok token4 →
      GetUserByID userStorage4 token4.UserID = .ok user4 →
      env4.mint.signed = .ok accessToken4 →
      env4.mint.randToken = .ok tokenString4 →
      ∃ pair4 newToken4,
        (RefreshToken config userStorage4 env4 ts4 req).2 = .ok pair4 ∧
        pair4.RefreshToken = tokenString4 ∧
        (RefreshToken config userStorage4 env4 ts4 req).1.lookup tokenString4 =
          some newToken4 ∧
        newToken4.IsRevoked = false ∧ newToken4.TokenFamily = token4.TokenFamily ∧
        (tokenString4 ≠ req.RefreshToken →
          (RefreshToken config userStorage4 env4 ts4 req).1.lookup req.RefreshToken =
            some token4)) ∧
    (∀ (ops : List Op) (now5 : Int) (token5 : models.RefreshToken),
      (∀ op ∈ ops, op.minted ≠ some req.RefreshToken) →
      GetRefreshToken now5 (run config ops (RefreshToken config userStorage env ts req).1)
        req.RefreshToken = .ok token5 →
      token5 = token) ∧
    (∀ (userStorage6 : InMemoryUserStorage) (env6 : RefreshEnv) (ts6 : InMemoryTokenStorage)
        (e : Err),
      GetRefreshToken env6.now ts6 req.RefreshToken = .error e →
      (RefreshToken config userStorage6 env6 ts6 req).1 = ts6 ∧
      ∃ e6, (RefreshToken config userStorage6 env6 ts6 req).2 = .error e6) ∧
    (∀ (calls : List StoreOp) (now7 : Int) (token7 : models.RefreshToken),
      (∀ x, StoreOp.Create x ∈ calls → x.Token ≠ req.RefreshToken) →
      GetRefreshToken now7 (StoreOp.run calls (RefreshToken config userStorage env ts req).1)
        req.RefreshToken = .ok token7 →
      token7 = token) := by
  obtain ⟨hl, hr, -, -⟩ := RevokeRefreshToken_of_live env.now ts req.RefreshToken token hlive
  have hrot' : ¬ config.EnableTokenRotation = true := by simp [hrot]
  -- the shape of the store after the first call
  have hfirst : ∃ newToken : models.RefreshToken, newToken.Token = pair.RefreshToken ∧
      newToken.IsRevoked = false ∧ newToken.TokenFamily = token.TokenFamily ∧
      (RefreshToken config userStorage env ts req).1 = ts.insert newToken.Token newToken := by
    cases hu : GetUserByID userStorage token.UserID with
    | error e =>
      rw [RefreshToken_of_no_user config userStorage env ts req token e hlive hu] at hok
      cases hok
    | ok user =>
      rw [RefreshToken_of_live config userStorage env ts req token user hlive hu] at hok ⊢
      simp only [hrot, Bool.false_eq_true, if_false] at hok ⊢
      rcases generateTokenPairWithFamily_cases config env.mint ts user token.TokenFamily with
        ⟨e, he⟩ | ⟨a, v, -, -, he⟩
      · rw [he] at hok; simp at hok
      · rw [he] at hok ⊢
        have hp : pair = ⟨a, v, Unix (env.mint.accessNow + config.AccessTokenExpiry),
            "Bearer"⟩ := by simpa using hok.symm
        subst hp
        exact ⟨⟨env.mint.tokenID, user.ID, v, env.mint.expiresNow + config.RefreshTokenExpiry,
          env.mint.createdNow, false, token.TokenFamily⟩, rfl, rfl, rfl, rfl⟩
  obtain ⟨newToken, hval, hnr, hfam, hstore⟩ := hfirst
  have hne : req.RefreshToken ≠ newToken.Token := by
    rw [hval]; exact fun h => hfresh h.symm
  have hl1 : (RefreshToken config userStorage env ts req).1.lookup req.RefreshToken =
      some token := by
    rw [hstore, AList.lookup_insert_ne hne]; exact hl
  refine ⟨hl1, hr, ⟨newToken, ?_, hnr, hfam⟩, ?_, ?_, ?_, ?_, ?_, ?_, ?_⟩
  · rw [hstore, ← hval]; exact AList.lookup_insert _
  · intro userStorage2 env2 user2 a2 v2 hexp hu2 hs2 hr2
    have hlive2 : GetRefreshToken env2.now (RefreshToken config userStorage env ts req).1
        req.RefreshToken = .ok token :=
      (GetRefreshToken_eq_ok_iff _ _ _ _).2 ⟨hl1, hr, not_lt.2 hexp⟩
    rw [RefreshToken_of_live config userStorage2 env2 _ req token user2 hlive2 hu2,
      generateTokenPairWithFamily_store_ok config env2.mint _ user2 token.TokenFamily a2 v2
        hs2 hr2]
    exact ⟨_, _, rfl, rfl, AList.lookup_insert _, rfl, rfl⟩
  · intro userStorage3 env3 ts3 token3 user3 e hlive3 hu3 hfail
    rw [RefreshToken_of_live config userStorage3 env3 ts3 req token3 user3 hlive3 hu3]
    simp only [hrot, Bool.false_eq_true, if_false]
    rcases hfail with hs | ⟨a, hs, hrd⟩
    · rw [generateTokenPairWithFamily_sign_error _ _ _ _ _ e hs]
    · rw [generateTokenPairWithFamily_rand_error _ _ _ _ _ a e hs hrd]
  · intro now2 hexp
    exact (GetRefreshToken_eq_ok_iff _ _ _ _).2 ⟨hl1, hr, not_lt.2 hexp⟩
  · intro userStorage4 env4 ts4 token4 user4 a4 v4 hlive4 hu4 hs4 hr4
    have hl4 := ((GetRefreshToken_eq_ok_iff _ _ _ _).1 hlive4).1
    rw [RefreshToken_of_live config userStorage4 env4 ts4 req token4 user4 hlive4 hu4]
    simp only [hrot, Bool.false_eq_true, if_false]
    rw [generateTokenPairWithFamily_store_ok config env4.mint ts4 user4 token4.TokenFamily
      a4 v4 hs4 hr4]
    refine ⟨_, _, rfl, rfl, AList.lookup_insert _, rfl, rfl, ?_⟩
    intro hv
    show (ts4.insert v4 _).lookup req.RefreshToken = some token4
    rw [AList.lookup_insert_ne (fun h => hv h.symm)]
    exact hl4
  · intro ops now5 token5 hm hlive5
    obtain ⟨hl5, hr5, -⟩ := (GetRefreshToken_eq_ok_iff _ _ _ _).1 hlive5
    have hinv := sameOrRevoked_run config req.RefreshToken token ops
      (RefreshToken config userStorage env ts req).1
      (fun t ht => by rw [hl1] at ht; cases ht; exact Or.inr (SameButFlag_refl _)) hm
      token5 hl5
    rcases hinv with hrev | ⟨heq, -⟩
    · rw [hr5] at hrev; cases hrev
    · rw [heq, hr5, ← hr]
  · intro userStorage6 env6 ts6 e herr
    exact RefreshToken_of_error config userStorage6 env6 ts6 req e herr
  · intro calls now7 token7 hc hlive7
    obtain ⟨hl7, hr7, -⟩ := (GetRefreshToken_eq_ok_iff _ _ _ _).1 hlive7
    have hinv := sameOrRevoked_storeRun req.RefreshToken token calls
      (RefreshToken config userStorage env ts req).1
      (fun t ht => by rw [hl1] at ht; cases ht; exact Or.inr (SameButFlag_refl _)) hc
      token7 hl7
    rcases hinv with hrev | ⟨heq, -⟩
    · rw [hr7] at hrev; cases hrev
    · rw [heq, hr7, ← hr]

/-- C28 at a concrete input: with rotation off `r1` is exchanged for `r2` at time `5`
and stays stored non-revoked; presented again at time `6` it is exchanged for `r3`,
also when a `Logout` of another user came in between. -/
theorem RefreshToken_without_rotation_witness :
    GetRefreshToken 5 demo.afterLogin "r1" = .ok demo.tokenR1 ∧
    (RefreshToken demo.configNoRotation demo.users (demo.refreshEnv "r2" 5) demo.afterLogin
      { RefreshToken := "r1" }).2 =
      .ok { AccessToken := "jwt", RefreshToken := "r2", ExpiresAt := 120,
            TokenType := "Bearer" } ∧
    (RefreshToken demo.configNoRotation demo.users (demo.refreshEnv "r2" 5) demo.afterLogin
      { RefreshToken := "r1" }).1.lookup "r1" = some demo.tokenR1 ∧
    demo.tokenR1.IsRevoked = false ∧
    (∃ pair2 newToken2,
      (RefreshToken demo.configNoRotation demo.users (demo.refreshEnv "r3" 6)
        (RefreshToken demo.configNoRotation demo.users (demo.refreshEnv "r2" 5)
          demo.afterLogin { RefreshToken := "r1" }).1 { RefreshToken := "r1" }).2 =
        .ok pair2 ∧
      pair2.RefreshToken = "r3" ∧
      (RefreshToken demo.configNoRotation demo.users (demo.refreshEnv "r3" 6)
        (RefreshToken demo.configNoRotation demo.users (demo.refreshEnv "r2" 5)
          demo.afterLogin { RefreshToken := "r1" }).1 { RefreshToken := "r1" }).1.lookup "r3" =
        some newToken2 ∧
      newToken2.IsRevoked = false ∧ newToken2.TokenFamily = demo.tokenR1.TokenFamily) ∧
    (∃ pair4 newToken4,
      (RefreshToken demo.configNoRotation demo.users (demo.refreshEnv "r3" 6)
        (service.Logout demo.afterReuse "u2").1 { RefreshToken := "r1" }).2 = .ok pair4 ∧
      pair4.RefreshToken = "r3" ∧
      (RefreshToken demo.configNoRotation demo.users (demo.refreshEnv "r3" 6)
        (service.Logout demo.afterReuse "u2").1 { RefreshToken := "r1" }).1.lookup "r3" =
        some newToken4 ∧
      newToken4.IsRevoked = false ∧ newToken4.TokenFamily = demo.tokenR1.TokenFamily ∧
      ("r3" ≠ "r1" →
        (RefreshToken demo.configNoRotation demo.users (demo.refreshEnv "r3" 6)
          (service.Logout demo.afterReuse "u2").1 { RefreshToken := "r1" }).1.lookup "r1" =
          some demo.tokenR1)) :=
  ⟨by decide, by decide,
    (RefreshToken_without_rotation demo.configNoRotation rfl demo.users
      (demo.refreshEnv "r2" 5) demo.afterLogin { RefreshToken := "r1" } demo.tokenR1
      { AccessToken := "jwt", RefreshToken := "r2", ExpiresAt := 120, TokenType := "Bearer" }
      (by decide) (by decide) (by decide)).1,
    (RefreshToken_without_rotation demo.configNoRotation rfl demo.users
      (demo.refreshEnv "r2" 5) demo.afterLogin { RefreshToken := "r1" } demo.tokenR1
      { AccessToken := "jwt", RefreshToken := "r2", ExpiresAt := 120, TokenType := "Bearer" }
      (by decide) (by decide) (by decide)).2.1,
    (RefreshToken_without_rotation demo.configNoRotation rfl demo.users
      (demo.refreshEnv "r2" 5) demo.afterLogin { RefreshToken := "r1" } demo.tokenR1
      { AccessToken := "jwt", RefreshToken := "r2", ExpiresAt := 120, TokenType := "Bearer" }
      (by decide) (by decide) (by decide)).2.2.2.1 demo.users (demo.refreshEnv "r3" 6)
      demo.alice "jwt" "r3" (by decide) (by decide) rfl rfl,
    (RefreshToken_without_rotation demo.configNoRotation rfl demo.users
      (demo.refreshEnv "r2" 5) demo.afterLogin { RefreshToken := "r1" } demo.tokenR1
      { AccessToken := "jwt", RefreshToken := "r2", ExpiresAt := 120, TokenType := "Bearer" }
      (by decide) (by decide) (by decide)).2.2.2.2.2.2.1 demo.users (demo.refreshEnv "r3" 6)
      (service.Logout demo.afterReuse "u2").1 demo.tokenR1 demo.alice "jwt" "r3"
      (by decide) (by decide) rfl rfl⟩

/-- C28 fails as stated: with rotation off `r1` was exchanged successfully and is
presented again before its expiry, yet the second call fails: with
`service.ErrTokenRevoked` when a `Logout` of its owner came in between, with
`service.ErrTokenInvalid` when its owner has been deleted in between, and with the
error of `rand.Read` when that fails. -/
theorem RefreshToken_reuse_failure_counterexample :
    demo.configNoRotation.EnableTokenRotation = false ∧
    (RefreshToken demo.configNoRotation demo.users (demo.refreshEnv "r2" 5) demo.afterLogin
      { RefreshToken := "r1" }).2 =
      .ok { AccessToken := "jwt", RefreshToken := "r2", ExpiresAt := 120,
            TokenType := "Bearer" } ∧
    GetRefreshToken 6 demo.afterReuse "r1" = .ok demo.tokenR1 ∧
    (RefreshToken demo.configNoRotation demo.usersAfterDelete (demo.refreshEnv "r3" 6)
      demo.afterReuse { RefreshToken := "r1" }).2 = .error .service_ErrTokenInvalid ∧
    (RefreshToken demo.configNoRotation demo.users (demo.refreshEnvRandFails 6)
      demo.afterReuse { RefreshToken := "r1" }).2 = .error .rand_Read ∧
    (6 : Int) ≤ demo.tokenR1.ExpiresAt ∧
    (RefreshToken demo.configNoRotation demo.users (demo.refreshEnv "r3" 6)
      (service.Logout demo.afterReuse "u1").1 { RefreshToken := "r1" }).2 =
      .error .service_ErrTokenRevoked := by
  decide

end service

/-! ## Claims about QR codes and the database view -/

namespace storage

open models

/-- C29, on the code: `MarkQRCodeAsUsed` succeeds exactly when the code exists, is not
yet used and the current time is not after its expiry. It fails with
`storage.ErrQRCodeNotFound` when the code is absent, with `storage.ErrQRCodeUsed` when
it is used, expired or not, and with `storage.ErrQRCodeExpired` when it is unused and
expired, each time leaving the table as it was. A success marks the code used. After a
success, whatever methods of the table are called in between, as long as no code is
created again under the same id, a later call for the id never succeeds: it fails with
`storage.ErrQRCodeUsed` while the code is stored and with `storage.ErrQRCodeNotFound`
once it has been removed; it fails with `storage.ErrQRCodeUsed` when in between the id
was not deleted and no cleanup ran after the code's expiry, in particular when only
`MarkQRCodeAsUsed` was called. -/
theorem MarkQRCodeAsUsed_single_use (now usedNow : Int) (s : InMemoryQRCodeStorage)
    (id ipAddress : String) :
    ((MarkQRCodeAsUsed now usedNow s id ipAddress).2 = none ↔
      ∃ q, s.lookup id = some q ∧ q.IsUsed = false ∧ now ≤ q.ExpiresAt) ∧
    ((MarkQRCodeAsUsed now usedNow s id ipAddress).2 = some .ErrQRCodeNotFound ↔
      s.lookup id = none) ∧
    ((MarkQRCodeAsUsed now usedNow s id ipAddress).2 = some .ErrQRCodeUsed ↔
      ∃ q, s.lookup id = some q ∧ q.IsUsed = true) ∧
    ((MarkQRCodeAsUsed now usedNow s id ipAddress).2 = some .ErrQRCodeExpired ↔
      ∃ q, s.lookup id = some q ∧ q.IsUsed = false ∧ now > q.ExpiresAt) ∧
    (∀ e, (MarkQRCodeAsUsed now usedNow s id ipAddress).2 = some e →
      (MarkQRCodeAsUsed now usedNow s id ipAddress).1 = s) ∧
    (∀ q, s.lookup id = some q → (MarkQRCodeAsUsed now usedNow s id ipAddress).2 = none →
      (MarkQRCodeAsUsed now usedNow s id ipAddress).1.lookup id =
        some { q with IsUsed := true, UsedAt := some usedNow, IPAddress := ipAddress }) ∧
    ((MarkQRCodeAsUsed now usedNow s id ipAddress).2 = none →
      ∀ (calls : List MarkCall) (later usedLater : Int) (ip : String),
        (MarkQRCodeAsUsed later usedLater
          (markAll calls (MarkQRCodeAsUsed now usedNow s id ipAddress).1) id ip).2 =
          some .ErrQRCodeUsed) ∧
    (∀ q, s.lookup id = some q → (MarkQRCodeAsUsed now usedNow s id ipAddress).2 = none →
      ∀ (ops : List QROp) (later usedLater : Int) (ip : String),
        (∀ x, QROp.create x ∈ ops → x.ID ≠ id) →
        (((MarkQRCodeAsUsed later usedLater
              (QROp.run ops (MarkQRCodeAsUsed now usedNow s id ipAddress).1) id ip).2 =
            some .ErrQRCodeUsed ∧
            (QROp.run ops (MarkQRCodeAsUsed now usedNow s id ipAddress).1).lookup id ≠ none) ∨
          ((MarkQRCodeAsUsed later usedLater
              (QROp.run ops (MarkQRCodeAsUsed now usedNow s id ipAddress).1) id ip).2 =
            some .ErrQRCodeNotFound ∧
            (QROp.run ops (MarkQRCodeAsUsed now usedNow s id ipAddress).1).lookup id = none)) ∧
        (QROp.delete id ∉ ops → (∀ t, QROp.cleanup t ∈ ops → t ≤ q.ExpiresAt) →
          (MarkQRCodeAsUsed later usedLater
            (QROp.run ops (MarkQRCodeAsUsed now usedNow s id ipAddress).1) id ip).2 =
            some .ErrQRCodeUsed)) := by
  have hused : ∀ (s' : InMemoryQRCodeStorage) (later usedLater : Int) (ip : String),
      (∃ q, s'.lookup id = some q ∧ q.IsUsed = true) →
      (MarkQRCodeAsUsed later usedLater s' id ip).2 = some .ErrQRCodeUsed := by
    intro s' later usedLater ip ⟨q, hq, hu⟩
    simp [MarkQRCodeAsUsed, hq, hu]
  cases hl : s.lookup id with
  | none =>
    have hres : MarkQRCodeAsUsed now usedNow s id ipAddress = (s, some .ErrQRCodeNotFound) := by
      simp [MarkQRCodeAsUsed, hl]
    rw [hres]
    simp
  | some q0 =>
    by_cases hu : q0.IsUsed = true
    · have hres : MarkQRCodeAsUsed now usedNow s id ipAddress = (s, some .ErrQRCodeUsed) := by
        simp [MarkQRCodeAsUsed, hl, hu]
      rw [hres]
      simp [hu]
    · have hu' : q0.IsUsed = false := by simpa using hu
      by_cases he : now > q0.ExpiresAt
      · have hres : MarkQRCodeAsUsed now usedNow s id ipAddress =
            (s, some .ErrQRCodeExpired) := by
          simp [MarkQRCodeAsUsed, hl, hu', he]
        rw [hres]
        simp [hu', he]
      · have hres : MarkQRCodeAsUsed now usedNow s id ipAddress =
            (s.replace id { q0 with IsUsed := true, UsedAt := some usedNow,
                                    IPAddress := ipAddress }, none) := by
          simp [MarkQRCodeAsUsed, hl, hu', he]
        have hlk : (s.replace id { q0 with IsUsed := true, UsedAt := some usedNow,
                                           IPAddress := ipAddress }).lookup id =
            some { q0 with IsUsed := true, UsedAt := some usedNow,
                           IPAddress := ipAddress } := by
          simp [lookup_replace_qr, hl]
        rw [hres]
        refine ⟨?_, ?_, ?_, ?_, ?_, ?_, ?_, ?_⟩
        · simp [hu', not_lt.1 he]
        · simp
        · simp [hu']
        · simp [hu', he]
        · intro e h; simp at h
        · intro q hq _; cases hq; exact hlk
        · intro _ calls later usedLater ip
          exact hused _ later usedLater ip (used_markAll calls _ id ⟨_, hlk, rfl⟩)
        · intro q hq _ ops later usedLater ip hcreate
          cases hq
          refine ⟨?_, ?_⟩
          · exact MarkQRCodeAsUsed_of_usedOrAbsent _ id later usedLater ip
              (usedOrAbsent_run ops _ id hcreate
                (fun q' hq' => by rw [hlk] at hq'; cases hq'; rfl))
          · intro hdelete hcleanup
            obtain ⟨q', hq', hu1, -⟩ := usedAndStored_run ops _ id _ hcreate hdelete
              hcleanup ⟨_, hlk, rfl, rfl⟩
            exact hused _ later usedLater ip ⟨q', hq', hu1⟩

/-- C29 at a concrete input: the code `q1` is marked used at time `5`; after a failed
call for another id and a cleanup before its expiry, a second call for `q1` fails with
`storage.ErrQRCodeUsed`. -/
theorem MarkQRCodeAsUsed_single_use_witness :
    demo.qrStore.lookup "q1" = some demo.qrCode ∧
    (MarkQRCodeAsUsed 5 6 demo.qrStore "q1" "10.0.0.1").2 = none ∧
    (MarkQRCodeAsUsed 8 9
      (markAll [{ now := 7, usedNow := 7, id := "q2", ipAddress := "10.0.0.2" }]
        (MarkQRCodeAsUsed 5 6 demo.qrStore "q1" "10.0.0.1").1) "q1" "10.0.0.3").2 =
      some .ErrQRCodeUsed ∧
    (MarkQRCodeAsUsed 8 9
      (QROp.run [.markUsed { now := 7, usedNow := 7, id := "q2", ipAddress := "10.0.0.2" },
          .cleanup 50]
        (MarkQRCodeAsUsed 5 6 demo.qrStore "q1" "10.0.0.1").1) "q1" "10.0.0.3").2 =
      some .ErrQRCodeUsed :=
  ⟨by decide, by decide,
    (MarkQRCodeAsUsed_single_use 5 6 demo.qrStore "q1" "10.0.0.1").2.2.2.2.2.2.1 (by decide)
      [{ now := 7, usedNow := 7, id := "q2", ipAddress := "10.0.0.2" }] 8 9 "10.0.0.3",
    ((MarkQRCodeAsUsed_single_use 5 6 demo.qrStore "q1" "10.0.0.1").2.2.2.2.2.2.2
      demo.qrCode (by decide) (by decide)
      [.markUsed { now := 7, usedNow := 7, id := "q2", ipAddress := "10.0.0.2" }, .cleanup 50]
      8 9 "10.0.0.3" (by intro x hx; simp at hx)).2 (by decide)
      (by intro t ht; simp at ht; subst ht; decide)⟩

/-- C29 fails as stated: the code `q1`, which expires at `100`, is marked used at time
`5`; the cleanup at time `101` removes it, and the later call for `q1` fails with
`storage.ErrQRCodeNotFound`, not with the already-used error. So does a later call
after `DeleteQRCode`. After a `CreateQRCode` of a new code under the same id the later
call succeeds. -/
theorem MarkQRCodeAsUsed_after_cleanup_counterexample :
    (MarkQRCodeAsUsed 5 6 demo.qrStore "q1" "10.0.0.1").2 = none ∧
    (QROp.run [.cleanup 101] (MarkQRCodeAsUsed 5 6 demo.qrStore "q1" "10.0.0.1").1).lookup "q1" =
      none ∧
    (MarkQRCodeAsUsed 102 103
      (QROp.run [.cleanup 101] (MarkQRCodeAsUsed 5 6 demo.qrStore "q1" "10.0.0.1").1)
      "q1" "10.0.0.3").2 = some .ErrQRCodeNotFound ∧
    (MarkQRCodeAsUsed 8 9
      (QROp.run [.delete "q1"] (MarkQRCodeAsUsed 5 6 demo.qrStore "q1" "10.0.0.1").1)
      "q1" "10.0.0.3").2 = some .ErrQRCodeNotFound ∧
    QRErr.ErrQRCodeNotFound ≠ QRErr.ErrQRCodeUsed ∧
    (MarkQRCodeAsUsed 8 9
      (QROp.run [.create demo.qrCode] (MarkQRCodeAsUsed 5 6 demo.qrStore "q1" "10.0.0.1").1)
      "q1" "10.0.0.3").2 = none := by
  decide

end storage

namespace service

open models storage config

/-- C30: `GetDatabaseView` at time `now` succeeds, and its token counters split the
token table: `ActiveTokens + RevokedTokens + ExpiredTokens` is the number of stored
credentials, `RevokedTokens` counts the revoked ones, expired or not, `ExpiredTokens`
the non-revoked ones with `now` after their expiry, and `ActiveTokens` the keys for
which `GetRefreshToken` at time `now` returns the credential. -/
theorem GetDatabaseView_token_stats (now : Int) (userStorage : InMemoryUserStorage)
    (tokenStorage : InMemoryTokenStorage) (qrStorage : InMemoryQRCodeStorage) :
    ∃ view, GetDatabaseView now userStorage tokenStorage qrStorage = .ok view ∧
      view.Tokens = tokenStorage.entries.map (fun e => e.2) ∧
      view.Stats.ActiveTokens + view.Stats.RevokedTokens + view.Stats.ExpiredTokens =
        tokenStorage.entries.length ∧
      view.Stats.RevokedTokens = view.Tokens.countP (fun t => t.IsRevoked) ∧
      view.Stats.ExpiredTokens =
        view.Tokens.countP (fun t => !t.IsRevoked && decide (now > t.ExpiresAt)) ∧
      view.Stats.ActiveTokens =
        (tokenStorage.keys.filter (fetchesLive now tokenStorage)).length := by
  refine ⟨_, rfl, rfl, ?_, ?_, ?_, ?_⟩
  · simp only []
    obtain ⟨q1, q2, q3⟩ := foldl_countQRCode now (qrStorage.entries.map (fun e => e.2))
      ((tokenStorage.entries.map (fun e => e.2)).foldl (countToken now)
        { TotalUsers := (userStorage.entries.map (fun e => e.2)).length, ActiveTokens := 0,
          RevokedTokens := 0, ExpiredTokens := 0, ActiveQRCodes := 0, UsedQRCodes := 0,
          ExpiredQRCodes := 0 })
    obtain ⟨t1, t2, t3, -⟩ := foldl_countToken now (tokenStorage.entries.map (fun e => e.2))
      { TotalUsers := (userStorage.entries.map (fun e => e.2)).length, ActiveTokens := 0,
        RevokedTokens := 0, ExpiredTokens := 0, ActiveQRCodes := 0, UsedQRCodes := 0,
        ExpiredQRCodes := 0 }
    have hc := countP_classes now (tokenStorage.entries.map (fun e => e.2))
    rw [List.length_map] at hc
    dsimp only at t1 t2 t3
    rw [q1, q2, q3, t1, t2, t3]
    omega
  · obtain ⟨q1, -, -⟩ := foldl_countQRCode now (qrStorage.entries.map (fun e => e.2))
      ((tokenStorage.entries.map (fun e => e.2)).foldl (countToken now)
        { TotalUsers := (userStorage.entries.map (fun e => e.2)).length, ActiveTokens := 0,
          RevokedTokens := 0, ExpiredTokens := 0, ActiveQRCodes := 0, UsedQRCodes := 0,
          ExpiredQRCodes := 0 })
    obtain ⟨t1, -, -, -⟩ := foldl_countToken now (tokenStorage.entries.map (fun e => e.2))
      { TotalUsers := (userStorage.entries.map (fun e => e.2)).length, ActiveTokens := 0,
        RevokedTokens := 0, ExpiredTokens := 0, ActiveQRCodes := 0, UsedQRCodes := 0,
        ExpiredQRCodes := 0 }
    simp only []
    rw [q1, t1]; simp
  · obtain ⟨-, q2, -⟩ := foldl_countQRCode now (qrStorage.entries.map (fun e => e.2))
      ((tokenStorage.entries.map (fun e => e.2)).foldl (countToken now)
        { TotalUsers := (userStorage.entries.map (fun e => e.2)).length, ActiveTokens := 0,
          RevokedTokens := 0, ExpiredTokens := 0, ActiveQRCodes := 0, UsedQRCodes := 0,
          ExpiredQRCodes := 0 })
    obtain ⟨-, t2, -, -⟩ := foldl_countToken now (tokenStorage.entries.map (fun e => e.2))
      { TotalUsers := (userStorage.entries.map (fun e => e.2)).length, ActiveTokens := 0,
        RevokedTokens := 0, ExpiredTokens := 0, ActiveQRCodes := 0, UsedQRCodes := 0,
        ExpiredQRCodes := 0 }
    simp only []
    rw [q2, t2]; simp
  · obtain ⟨-, -, q3⟩ := foldl_countQRCode now (qrStorage.entries.map (fun e => e.2))
      ((tokenStorage.entries.map (fun e => e.2)).foldl (countToken now)
        { TotalUsers := (userStorage.entries.map (fun e => e.2)).length, ActiveTokens := 0,
          RevokedTokens := 0, ExpiredTokens := 0, ActiveQRCodes := 0, UsedQRCodes := 0,
          ExpiredQRCodes := 0 })
    obtain ⟨-, -, t3, -⟩ := foldl_countToken now (tokenStorage.entries.map (fun e => e.2))
      { TotalUsers := (userStorage.entries.map (fun e => e.2)).length, ActiveTokens := 0,
        RevokedTokens := 0, ExpiredTokens := 0, ActiveQRCodes := 0, UsedQRCodes := 0,
        ExpiredQRCodes := 0 }
    simp only []
    rw [q3, t3, countP_fetchesLive]; simp

end service
